import Mathlib

/-!
# NanoRange: the concept catalogue of `nanorange.hpp`

A shallow embedding of the compile-time layer of `include/nanorange.hpp`.

* C++ types are values of `CppType`; the structural type traits of the standard
  library (`is_same`, `remove_cv_t`, `decay_t`, reference collapsing, ...) are
  computed on them.
* What the language decides about program-defined types (is an expression
  well-formed and of which type, is a type constructible, which nested names a
  class declares) is an oracle, the structure `Env`.
* The detection idiom, the trait resolver, the concepts and the result-type
  selector are functions transcribed from the header.
* Substituting into an alias template yields a type, fails in the immediate
  context, or is ill-formed outside it (`Subst`); the detector turns the first
  two into true and false and has no instantiation on the third.  The aliases
  over an expression or a nested name are of the first two kinds (`Op`);
  `value_type_t` and `difference_type_t` instantiate a class template, which is
  ill-formed when two partial specializations match and neither is more
  specialized.
* A concept whose initializer names a trait alias outside the detector
  (`value_type_t<I>`, `reference_t<I>`, ...) cannot be instantiated when the
  alias has no type, and neither can `WeaklyIncrementable<I>`, which names `I&`,
  on `void`: the value of such a concept is an `Option Bool`, `none` standing
  for a program that does not compile.
* An overload is called only when its requirement holds: the requirements
  (`..._requires`) are evaluated on the template arguments deduced from the
  call, and a requirement that cannot be instantiated makes the call
  ill-formed.
* The algorithms are functions on sequences (lists) and cursors (positions into
  a list). The loops the header writes itself run under a bound on their steps,
  and reading or writing outside a sequence is an outcome of its own. The
  functions of the standard library the header forwards to are modelled apart,
  each under the name `std_...`.

Function types and member pointers are not modelled.  The core and object
concepts (`Swappable`, `CopyConstructible`, `Movable`, ...) are truth values:
they are evaluated on object and reference types, and on `void`, where their
initializers name `void&` and do not compile, their value here is false.
-/

namespace NanoRange

/-! ## Types -/

/-- The cv-qualification of a type: `c` for `const`, `v` for `volatile`. -/
structure CV where
  c : Bool
  v : Bool
deriving DecidableEq

/-- No qualifier. -/
def CV.none : CV := ⟨false, false⟩

/-- The qualifier `const`. -/
def CV.const : CV := ⟨true, false⟩

/-- The standard iterator category tags of `<iterator>`. -/
inductive IterTag where
  | input
  | output
  | forward
  | bidirectional
  | random_access
deriving DecidableEq

/-- The tag `d` is `b` or publicly derives from it:
`random_access : bidirectional : forward : input`, and `output` alone. -/
def IterTag.derives : IterTag → IterTag → Bool
  | .input, .input => true
  | .output, .output => true
  | .forward, .forward => true
  | .forward, .input => true
  | .bidirectional, .bidirectional => true
  | .bidirectional, .forward => true
  | .bidirectional, .input => true
  | .random_access, .random_access => true
  | .random_access, .bidirectional => true
  | .random_access, .forward => true
  | .random_access, .input => true
  | _, _ => false

/-- C++ types as far as the header inspects them.  Every object type carries its
own cv-qualification; an array has the qualification of its element and a
reference has none, as in the language.  `cls q n` is the class (or other
opaque object type) number `n` of the program; `nonesuch`, `dangling<T>` and
`detail::legacy_iterator_traits<T>` are class types the header itself declares. -/
inductive CppType where
  | void (q : CV)
  | bool (q : CV)
  | integral (q : CV) (signed : Bool) (rank : Nat)
  | cls (q : CV) (n : Nat)
  | nonesuch (q : CV)
  | tag (q : CV) (t : IterTag)
  | dangling (q : CV) (T : CppType)
  | legacy_iterator_traits (q : CV) (T : CppType)
  | pointer (q : CV) (T : CppType)
  | array (T : CppType) (n : Nat)
  | lref (T : CppType)
  | rref (T : CppType)
deriving DecidableEq

namespace CppType

/-- The type `bool`. -/
def boolT : CppType := .bool CV.none

/-- The type `std::ptrdiff_t`: a signed integer type of the widest rank. -/
def ptrdiff_t : CppType := .integral CV.none true 3

/-- The type `int`. -/
def intT : CppType := .integral CV.none true 2

/-- The class type `detail::nonesuch`. -/
def nonesuchT : CppType := .nonesuch CV.none

/-- An unqualified iterator category tag. -/
def tagT (t : IterTag) : CppType := .tag CV.none t

/-- The trait `std::is_void`. -/
def is_void : CppType → Bool
  | .void _ => true
  | _ => false

/-- The trait `std::is_lvalue_reference`. -/
def is_lvalue_reference : CppType → Bool
  | .lref _ => true
  | _ => false

/-- The trait `std::is_reference`. -/
def is_reference : CppType → Bool
  | .lref _ => true
  | .rref _ => true
  | _ => false

/-- The trait `std::is_pointer` (a cv-qualified pointer is a pointer). -/
def is_pointer : CppType → Bool
  | .pointer _ _ => true
  | _ => false

/-- The trait `std::is_array`. -/
def is_array : CppType → Bool
  | .array _ _ => true
  | _ => false

/-- The trait `std::is_object`: neither `void`, nor a reference (function types
are not modelled). -/
def is_object : CppType → Bool
  | .void _ => false
  | .lref _ => false
  | .rref _ => false
  | _ => true

/-- The trait `std::is_integral`: `bool` and the integer types, cv-qualified or not. -/
def is_integral : CppType → Bool
  | .bool _ => true
  | .integral _ _ _ => true
  | _ => false

/-- The trait `std::is_signed` on the types modelled: the signed integer types. -/
def is_signed : CppType → Bool
  | .integral _ s _ => s
  | _ => false

/-- The cv-qualification of a type (of the element for an array, none for a
reference). -/
def cv : CppType → CV
  | .void q => q
  | .bool q => q
  | .integral q _ _ => q
  | .cls q _ => q
  | .nonesuch q => q
  | .tag q _ => q
  | .dangling q _ => q
  | .legacy_iterator_traits q _ => q
  | .pointer q _ => q
  | .array T _ => cv T
  | .lref _ => CV.none
  | .rref _ => CV.none

/-- The type with its top-level qualification replaced by `f` of it; a
reference is left alone. -/
def map_cv (f : CV → CV) : CppType → CppType
  | .void q => .void (f q)
  | .bool q => .bool (f q)
  | .integral q s r => .integral (f q) s r
  | .cls q n => .cls (f q) n
  | .nonesuch q => .nonesuch (f q)
  | .tag q t => .tag (f q) t
  | .dangling q T => .dangling (f q) T
  | .legacy_iterator_traits q T => .legacy_iterator_traits (f q) T
  | .pointer q T => .pointer (f q) T
  | .array T n => .array (map_cv f T) n
  | .lref T => .lref T
  | .rref T => .rref T

/-- The trait `std::is_const`. -/
def is_const (T : CppType) : Bool := (cv T).c

/-- The type `const T`. -/
def add_const (T : CppType) : CppType := map_cv (fun q => ⟨true, q.v⟩) T

/-- The trait `std::remove_const_t`. -/
def remove_const (T : CppType) : CppType := map_cv (fun q => ⟨false, q.v⟩) T

/-- The trait `std::remove_cv_t`. -/
def remove_cv (T : CppType) : CppType := map_cv (fun _ => CV.none) T

/-- The trait `std::remove_reference_t`. -/
def remove_reference : CppType → CppType
  | .lref T => T
  | .rref T => T
  | T => T

/-- The type `T&`, with reference collapsing. -/
def add_lvalue_reference : CppType → CppType
  | .lref T => .lref T
  | .rref T => .lref T
  | T => .lref T

/-- The type `T&&`, with reference collapsing: the type of `std::declval<T>()`. -/
def add_rvalue_reference : CppType → CppType
  | .lref T => .lref T
  | .rref T => .rref T
  | T => .rref T

/-- The trait `std::decay_t`: the reference removed, an array turned into a
pointer to its element, any other type stripped of its qualifiers. -/
def decay (T : CppType) : CppType :=
  match remove_reference T with
  | .array U _ => .pointer CV.none U
  | U => remove_cv U

/-- The trait `std::make_signed`: the signed integer type of the same rank and
qualification.  Its use on `bool` or on a type that is not an integer type is
ill-formed, `none`. -/
def make_signed : CppType → Option CppType
  | .integral q _ r => some (.integral q true r)
  | _ => none

end CppType

open CppType

/-! ## The language and the program: an oracle -/

/-- The kinds of expression the header probes. -/
inductive ExprKind where
  | eq
  | ne
  | lt
  | gt
  | le
  | ge
  | pre_inc
  | post_inc
  | pre_dec
  | post_dec
  | deref
  | plus
  | minus
  | plus_assign
  | minus_assign
  | subscript
  | assign
  | swap
  | begin
  | end_
deriving DecidableEq

/-- The nested type names the trait resolver looks up. -/
inductive MemberName where
  | difference_type
  | value_type
  | element_type
deriving DecidableEq

/-- What the compiler knows about the program at hand.  An operand of an
expression is given by its type as `decltype` would print it: `lref T` is an
lvalue of type `T`, any other type a value of it.  Substitution failure is
`none`. -/
structure Env where
  /-- The type of the expression of this kind on these operands (`swap`, `begin`
  and `end_` are the unqualified calls with the `std` function in scope). -/
  expr : ExprKind → List CppType → Option CppType
  /-- The nested type of this name that class number `n` declares. -/
  member : MemberName → Nat → Option CppType
  /-- Implicit conversion, `std::is_convertible`. -/
  convertible : CppType → CppType → Bool
  /-- Direct initialization from these arguments, `std::is_constructible`. -/
  constructible : CppType → List CppType → Bool
  /-- Assignment, `std::is_assignable`. -/
  assignable : CppType → CppType → Bool
  /-- A destructor that does not throw, `std::is_nothrow_destructible`. -/
  nothrow_destructible : CppType → Bool
  /-- The first class is the second or a base class of it, `std::is_base_of`. -/
  base_of : CppType → CppType → Bool
  /-- The result of invoking a value of the first type on these arguments,
  `std::result_of`. -/
  result_of : CppType → List CppType → Option CppType
  /-- The member `iterator_category` of `std::iterator_traits` for class number `n`. -/
  iterator_category : CV → Nat → Option CppType

/-- The type behind references: the class a glvalue operand belongs to. -/
def referred (T : CppType) : CppType := remove_reference T

/-- The header declares no operation of this kind on the operand: `nonesuch` has
no members and every special member deleted; `dangling<T>` has a constructor,
`get_unsafe` and the implicit copy operations only. -/
def no_operation (k : ExprKind) (T : CppType) : Bool :=
  match referred T with
  | .nonesuch _ => true
  | .dangling _ _ => k != .swap && k != .assign
  | _ => false

/-- The type of an expression: ill-formed when every operand is of a type the
header declares without this operation, what the program says otherwise. -/
def expr (E : Env) (k : ExprKind) (operands : List CppType) : Option CppType :=
  if operands != [] && operands.all (no_operation k) then none
  else E.expr k operands

/-- The nested type `T::name`: only a class has one. -/
def member (E : Env) (name : MemberName) : CppType → Option CppType
  | .cls _ n => E.member name n
  | _ => none

/-- The trait `std::is_convertible<From, To>`.  Among the iterator tags, and
among pointers to them, conversion is derived-to-base (the copy constructor of
a tag does not take a `volatile` one); `nonesuch`, with no
conversion function and no usable constructor, converts to no scalar type, tag
or `nonesuch`; the rest is the program. -/
def is_convertible (E : Env) (From To : CppType) : Bool :=
  match From, To with
  | .tag qd d, .tag _ b => d.derives b && !qd.v
  | .pointer _ (.tag qd d), .pointer _ (.tag qb b) =>
      d.derives b && (!qd.c || qb.c) && (!qd.v || qb.v)
  | .nonesuch _, .cls q n => E.convertible From (.cls q n)
  | .nonesuch _, .lref T => E.convertible From (.lref T)
  | .nonesuch _, .rref T => E.convertible From (.rref T)
  | .nonesuch _, _ => false
  | _, _ => E.convertible From To

/-- The trait `std::is_base_of<Base, Derived>`, decided for the iterator tags
and for `nonesuch`, which has no base and no derived class. -/
def is_base_of (E : Env) (Base Derived : CppType) : Bool :=
  match Base, Derived with
  | .tag _ b, .tag _ d => d.derives b
  | .nonesuch _, .nonesuch _ => true
  | .nonesuch _, _ => false
  | _, .nonesuch _ => false
  | _, _ => E.base_of Base Derived

/-- The trait `std::is_nothrow_destructible`: `nonesuch` has a deleted
destructor. -/
def is_nothrow_destructible (E : Env) : CppType → Bool
  | .nonesuch _ => false
  | T => E.nothrow_destructible T

/-- The trait `std::is_constructible`: every constructor of `nonesuch` is
deleted. -/
def is_constructible (E : Env) (T : CppType) (Args : List CppType) : Bool :=
  match T with
  | .nonesuch _ => false
  | _ => E.constructible T Args

/-- An rvalue of scalar type (`bool`, an integer, a pointer): what
`std::declval<T>()` is for a scalar `T` that is not an lvalue reference. -/
def is_scalar_rvalue : CppType → Bool
  | .lref _ => false
  | T =>
      match referred T with
      | .bool _ => true
      | .integral _ _ _ => true
      | .pointer _ _ => true
      | _ => false

/-- The trait `std::is_assignable<T, U>`, whether `std::declval<T>() =
std::declval<U>()` is well-formed: the built-in assignment needs a modifiable
lvalue on its left, so that nothing is assignable to an rvalue of scalar type;
the assignment of `nonesuch` is deleted; the rest is the program. -/
def is_assignable (E : Env) (T U : CppType) : Bool :=
  if is_scalar_rvalue T then false
  else
    match referred T with
    | .nonesuch _ => false
    | _ => E.assignable T U

/-- The parameter types of the function type `F(Args...)` as the language
adjusts them: a parameter that is not a reference loses its top-level
qualifiers and an array becomes a pointer. -/
def adjust_parameter (T : CppType) : CppType :=
  if is_reference T then T else decay T

/-- The alias `std::result_of_t<F&&(Args&&...)>` for the function type
`F(Args...)`. -/
def result_of_t (E : Env) (F : CppType) (Args : List CppType) : Option CppType :=
  E.result_of (add_rvalue_reference F)
    (Args.map fun A => add_rvalue_reference (adjust_parameter A))

/-- The member `std::iterator_traits<T>::iterator_category`: the random access
tag for a pointer to an object, what the program declares for a class, absent
for any other type. -/
def std_iterator_category (E : Env) : CppType → Option CppType
  | .pointer q T =>
      if q = CV.none && is_object T then some (tagT .random_access) else none
  | .cls q n => E.iterator_category q n
  | _ => none

/-! ## The detection idiom -/

/-- What substituting the arguments into an alias template yields: the type it
names; a substitution failure, when an invalid type or expression arises in the
immediate context of the substitution; or an ill-formed program, when the
substitution needs an instantiation and that instantiation fails. -/
inductive Subst where
  | type (T : CppType)
  | failure
  | ill_formed
deriving DecidableEq

/-- An alias template handed to the detector. -/
abbrev Alias := List CppType → Subst

/-- An alias template whose substitution needs no instantiation (the type of an
expression, a nested name): applied to its arguments it names a type, or
substitution fails. -/
abbrev Op := List CppType → Option CppType

/-- The two members of `detail::detector`. -/
structure Detector where
  value_t : Bool
  type : CppType
deriving DecidableEq

/-- The class template `detail::detector<Default, void, Op, Args...>`: the
specialization when `Op<Args...>` is well-formed, the primary template when
substitution fails.  When substituting into `Op<Args...>` is ill-formed outside
the immediate context, matching the specialization is ill-formed too and the
detector has no instantiation. -/
def detector (Default : CppType) (op : Alias) (Args : List CppType) : Option Detector :=
  match op Args with
  | .type T => some ⟨true, T⟩
  | .failure => some ⟨false, Default⟩
  | .ill_formed => none

/-- The alias `detail::is_detected_v` on any alias template. -/
def Alias.is_detected_v (op : Alias) (Args : List CppType) : Option Bool :=
  (detector nonesuchT op Args).map fun d => d.value_t

/-- The alias `detail::detected_t` on any alias template. -/
def Alias.detected_t (op : Alias) (Args : List CppType) : Option CppType :=
  (detector nonesuchT op Args).map fun d => d.type

/-- The detector on an alias template whose substitution needs no
instantiation: it always has its two members. -/
def Op.detector (Default : CppType) (op : Op) (Args : List CppType) : Detector :=
  match op Args with
  | some T => ⟨true, T⟩
  | none => ⟨false, Default⟩

/-- The alias `detail::is_detected` (and `is_detected_v`) on an `Op`. -/
def is_detected_v (op : Op) (Args : List CppType) : Bool :=
  (Op.detector nonesuchT op Args).value_t

/-- The alias `detail::detected_t` on an `Op`. -/
def detected_t (op : Op) (Args : List CppType) : CppType :=
  (Op.detector nonesuchT op Args).type

/-- The alias `detail::detected_or_t` on an `Op`. -/
def detected_or_t (Default : CppType) (op : Op) (Args : List CppType) : CppType :=
  (Op.detector Default op Args).type

/-- The concept `Same`. -/
def Same (T U : CppType) : Bool := decide (T = U)

/-- The alias `detail::is_detected_exact_v`. -/
def is_detected_exact_v (Expected : CppType) (op : Op) (Args : List CppType) : Bool :=
  Same Expected (detected_t op Args)

/-- The alias `detail::is_detected_convertible_v`. -/
def is_detected_convertible_v (E : Env) (To : CppType) (op : Op)
    (Args : List CppType) : Bool :=
  is_convertible E (detected_t op Args) To

/-! ## Core language concepts [7.3] -/

/-- The concept `DerivedFrom`. -/
def DerivedFrom (E : Env) (T U : CppType) : Bool :=
  is_base_of E U T &&
  is_convertible E (.pointer CV.none (remove_cv T)) (.pointer CV.none (remove_cv U))

/-- The concept `ConvertibleTo`. -/
def ConvertibleTo (E : Env) (From To : CppType) : Bool := is_convertible E From To

/-- The concept `Integral`. -/
def Integral (I : CppType) : Bool := is_integral I

/-- The concept `SignedIntegral`. -/
def SignedIntegral (I : CppType) : Bool := Integral I && is_signed I

/-- The concept `UnsignedIntegral`. -/
def UnsignedIntegral (I : CppType) : Bool := Integral I && !SignedIntegral I

/-- The concept `Assignable`. -/
def Assignable (E : Env) (T U : CppType) : Bool := is_assignable E T U

/-- A parameter `T& t` deduced from `std::declval<A>()`: an lvalue binds, and so
does a `const` value (with `T` deduced `const`); inside the function `t` is an
lvalue. -/
def by_lvalue_reference (A : CppType) : Option CppType :=
  match A with
  | .lref T => some (.lref T)
  | .rref T => if is_const T then some (.lref T) else none
  | T => if is_const T then some (.lref T) else none

/-- The alias `detail::adl_swap_t`: the type of `swap(t, u)` inside
`adl_swap(T& t, U& u)`. -/
def adl_swap_t (E : Env) : Op
  | [T, U] =>
      (by_lvalue_reference T).bind fun t =>
      (by_lvalue_reference U).bind fun u =>
      expr E .swap [t, u]
  | _ => none

/-- The concept `Swappable`. -/
def Swappable (E : Env) (T : CppType) : Bool :=
  is_detected_v (adl_swap_t E) [add_lvalue_reference T, add_lvalue_reference T]

/-- The concept `SwappableWith`. -/
def SwappableWith (E : Env) (T U : CppType) : Bool :=
  is_detected_v (adl_swap_t E) [add_lvalue_reference T, add_lvalue_reference U] &&
  is_detected_v (adl_swap_t E) [add_lvalue_reference U, add_lvalue_reference T]

/-- The concept `Destructible`. -/
def Destructible (E : Env) (T : CppType) : Bool := is_nothrow_destructible E T

/-- The concept `Constructible`. -/
def Constructible (E : Env) (T : CppType) (Args : List CppType) : Bool :=
  Destructible E T && is_constructible E T Args

/-- The concept `DefaultConstructible`. -/
def DefaultConstructible (E : Env) (T : CppType) : Bool := Constructible E T []

/-- The concept `MoveConstructible`. -/
def MoveConstructible (E : Env) (T : CppType) : Bool :=
  Constructible E T [T] && ConvertibleTo E T T

/-- The concept `CopyConstructible`. -/
def CopyConstructible (E : Env) (T : CppType) : Bool :=
  MoveConstructible E T &&
  Constructible E T [add_lvalue_reference T] &&
  ConvertibleTo E (add_lvalue_reference T) T &&
  Constructible E T [add_lvalue_reference (add_const T)] &&
  ConvertibleTo E (add_lvalue_reference (add_const T)) T &&
  Constructible E T [add_const T] && ConvertibleTo E (add_const T) T

/-! ## Comparison concepts [7.4] -/

/-- A parameter `T t` deduced from `std::declval<A>()`: its type is `A` decayed,
the call needs the implicit conversion of the argument to it, and inside the
function `t` is an lvalue.  No parameter has type `void`. -/
def by_value (E : Env) (A : CppType) : Option CppType :=
  if is_void (decay A) then none
  else if is_convertible E A (decay A) then some (.lref (decay A))
  else none

/-- The shape shared by `equal_to_t`, `less_than_t`, ...: the type of the binary
expression on the two parameters of `auto f(T t, U u) -> decltype(t op u)`. -/
def binary_op_t (E : Env) (k : ExprKind) : Op
  | [T, U] =>
      (by_value E T).bind fun t =>
      (by_value E U).bind fun u =>
      expr E k [t, u]
  | _ => none

/-- The shape shared by `pre_inc_t`, `post_inc_t`, `pre_dec_t`, `post_dec_t` and
`deref_t`: the type of the unary expression on the parameter of
`auto f(T t) -> decltype(op t)`. -/
def unary_op_t (E : Env) (k : ExprKind) : Op
  | [T] => (by_value E T).bind fun t => expr E k [t]
  | _ => none

/-- The alias `detail::equal_to_t`. -/
def equal_to_t (E : Env) : Op := binary_op_t E .eq

/-- The alias `detail::not_equal_to_t`. -/
def not_equal_to_t (E : Env) : Op := binary_op_t E .ne

/-- The alias `detail::less_than_t`. -/
def less_than_t (E : Env) : Op := binary_op_t E .lt

/-- The alias `detail::greater_than_t`. -/
def greater_than_t (E : Env) : Op := binary_op_t E .gt

/-- The alias `detail::less_than_eq_t`. -/
def less_than_eq_t (E : Env) : Op := binary_op_t E .le

/-- The alias `detail::greater_than_eq_t`. -/
def greater_than_eq_t (E : Env) : Op := binary_op_t E .ge

/-- The alias `detail::pre_inc_t`. -/
def pre_inc_t (E : Env) : Op := unary_op_t E .pre_inc

/-- The alias `detail::post_inc_t`. -/
def post_inc_t (E : Env) : Op := unary_op_t E .post_inc

/-- The alias `detail::pre_dec_t`. -/
def pre_dec_t (E : Env) : Op := unary_op_t E .pre_dec

/-- The alias `detail::post_dec_t`. -/
def post_dec_t (E : Env) : Op := unary_op_t E .post_dec

/-- The alias `detail::deref_t`. -/
def deref_t (E : Env) : Op := unary_op_t E .deref

/-- The concept `Boolean`. -/
def Boolean (E : Env) (B : CppType) : Bool := ConvertibleTo E B boolT

/-- The concept `WeaklyComparibleWith`. -/
def WeaklyComparibleWith (E : Env) (T U : CppType) : Bool :=
  Boolean E (detected_t (equal_to_t E) [T, U]) &&
  Boolean E (detected_t (not_equal_to_t E) [T, U]) &&
  Boolean E (detected_t (equal_to_t E) [U, T]) &&
  Boolean E (detected_t (not_equal_to_t E) [U, T])

/-- The concept `EqualityComparible`. -/
def EqualityComparible (E : Env) (T : CppType) : Bool := WeaklyComparibleWith E T T

/-- The concept `EqualityComparibleWith`. -/
def EqualityComparibleWith (E : Env) (T U : CppType) : Bool :=
  EqualityComparible E T && EqualityComparible E U && WeaklyComparibleWith E T U

/-- The concept `StrictTotallyOrdered`. -/
def StrictTotallyOrdered (E : Env) (T : CppType) : Bool :=
  EqualityComparible E T &&
  Boolean E (detected_t (less_than_t E) [T, T]) &&
  Boolean E (detected_t (less_than_eq_t E) [T, T]) &&
  Boolean E (detected_t (greater_than_t E) [T, T]) &&
  Boolean E (detected_t (greater_than_eq_t E) [T, T])

/-- The concept `StrictTotallyOrderedWith`. -/
def StrictTotallyOrderedWith (E : Env) (T U : CppType) : Bool :=
  StrictTotallyOrdered E T &&
  StrictTotallyOrdered E U &&
  EqualityComparibleWith E T U &&
  Boolean E (detected_t (less_than_t E) [T, U]) &&
  Boolean E (detected_t (less_than_eq_t E) [T, U]) &&
  Boolean E (detected_t (greater_than_t E) [T, U]) &&
  Boolean E (detected_t (greater_than_eq_t E) [T, U]) &&
  Boolean E (detected_t (less_than_t E) [U, T]) &&
  Boolean E (detected_t (less_than_eq_t E) [U, T]) &&
  Boolean E (detected_t (greater_than_t E) [U, T]) &&
  Boolean E (detected_t (greater_than_eq_t E) [U, T])

/-! ## Object concepts [7.5] -/

/-- The concept `Movable`. -/
def Movable (E : Env) (T : CppType) : Bool :=
  is_object T &&
  MoveConstructible E T &&
  Assignable E (add_lvalue_reference T) T &&
  Swappable E T

/-- The concept `Copyable`. -/
def Copyable (E : Env) (T : CppType) : Bool :=
  CopyConstructible E T &&
  Movable E T &&
  Assignable E (add_lvalue_reference T) (add_lvalue_reference (add_const T))

/-- The concept `Semiregular`. -/
def Semiregular (E : Env) (T : CppType) : Bool :=
  Copyable E T && DefaultConstructible E T

/-- The concept `Regular`. -/
def Regular (E : Env) (T : CppType) : Bool :=
  Semiregular E T && EqualityComparible E T

/-! ## Callable concepts [7.6] -/

/-- The trait `detail::is_callable<F(Args...)>`. -/
def is_callable (E : Env) (F : CppType) (Args : List CppType) : Bool :=
  (result_of_t E F Args).isSome

/-- The concept `Callable`. -/
def Callable (E : Env) (F : CppType) (Args : List CppType) : Bool :=
  is_callable E F Args

/-- The concept `RegularCallable`. -/
def RegularCallable (E : Env) (F : CppType) (Args : List CppType) : Bool :=
  Callable E F Args

/-- The trait `detail::is_predicate<F(Args...)>`: the specialization is chosen
when its `enable_if_t` condition is well-formed and true. -/
def is_predicate (E : Env) (F : CppType) (Args : List CppType) : Bool :=
  match result_of_t E F Args with
  | some R => Callable E F Args && Boolean E R
  | none => false

/-- The concept `Predicate`. -/
def Predicate (E : Env) (F : CppType) (Args : List CppType) : Bool :=
  is_predicate E F Args

/-- The concept `Relation`. -/
def Relation (E : Env) (R T U : CppType) : Bool :=
  Predicate E R [T, T] &&
  Predicate E R [U, U] &&
  Predicate E R [T, U] &&
  Predicate E R [U, T]

/-- The concept `StrictWeakOrder`. -/
def StrictWeakOrder (E : Env) (R T U : CppType) : Bool := Relation E R T U

/-! ## The trait resolver [9.1] -/

/-- The outcome of instantiating a trait class template (`difference_type<T>`,
`value_type<T>`): it has a member `type`, or it is empty, or the instantiation
itself is ill-formed (two specializations match and neither is more specialized,
or a base class cannot be formed). -/
inductive Trait where
  | ill_formed
  | absent
  | type (T : CppType)
deriving DecidableEq

/-- The member `type` of the trait, if it has one. -/
def Trait.type? : Trait → Option CppType
  | .type T => some T
  | _ => none

/-- Naming a member of the trait instantiates it: an ill-formed instantiation
stops the compilation, inside the detector too. -/
def Trait.instantiate : Trait → Option Unit
  | .ill_formed => none
  | _ => some ()

/-- Substituting into `typename trait<T>::type`: the member `type`, a
substitution failure when the trait has none, an ill-formed program when the
trait cannot be instantiated. -/
def Trait.member_type : Trait → Subst
  | .type T => .type T
  | .absent => .failure
  | .ill_formed => .ill_formed

/-- The type `T&` named outside the detector: there is no reference to `void`,
and a program that names one is ill-formed. -/
def lvalue_reference (T : CppType) : Option CppType :=
  if is_void T then none else some (add_lvalue_reference T)

/-- The operand `std::declval<T&>()`: there is no reference to `void`. -/
def declval_lvalue (T : CppType) : Option CppType :=
  if is_void T then none else some (add_lvalue_reference T)

/-- The alias `detail::member_difference_type_t`. -/
def member_difference_type_t (E : Env) : Op
  | [T] => member E .difference_type T
  | _ => none

/-- The alias `detail::member_value_type_t`. -/
def member_value_type_t (E : Env) : Op
  | [T] => member E .value_type T
  | _ => none

/-- The alias `detail::member_element_type_t`. -/
def member_element_type_t (E : Env) : Op
  | [T] => member E .element_type T
  | _ => none

/-- The specializations of `difference_type<T>` for a type that is not `const`:
`T*` (an unqualified pointer), a nested `difference_type`, and the type of a
subtraction, tried on `const T&` and then made signed from the subtraction of
two `T`. -/
def difference_type_unqualified (E : Env) (T : CppType) : Trait :=
  match T with
  | .pointer q U =>
      if q = CV.none then (if is_object U then .type ptrdiff_t else .absent)
      else .absent
  | _ =>
      if is_detected_v (member_difference_type_t E) [T] then
        .type (detected_t (member_difference_type_t E) [T])
      else
        match expr E .minus [add_lvalue_reference (add_const T),
                             add_lvalue_reference (add_const T)] with
        | some D =>
            if Integral D then
              match expr E .minus [add_rvalue_reference T, add_rvalue_reference T] with
              | some R =>
                  match make_signed R with
                  | some S => .type S
                  | none => .ill_formed
              | none => .ill_formed
            else .absent
        | none => .absent

/-- The condition of the structural specialization of `difference_type<T>`:
`!std::is_pointer<T>::value && !is_detected_v<member_difference_type_t, T> &&
Integral<decltype(std::declval<const T&>() - std::declval<const T&>())>`; it is
the argument of `std::enable_if_t`, so an ill-formed subtraction only takes the
specialization out. -/
def difference_type_structural (E : Env) (T : CppType) : Bool :=
  !is_pointer T &&
  !is_detected_v (member_difference_type_t E) [T] &&
  match expr E .minus [add_lvalue_reference (add_const T),
                       add_lvalue_reference (add_const T)] with
  | some D => Integral D
  | none => false

/-- The class template `difference_type<T>`.  The specialization for `const I`
forwards to `decay_t<I>`.  It is more specialized than the one for a nested
`difference_type`, whose second argument `void_t<...>` is `void`; against the
structural one, whose second argument is an `enable_if_t`, neither is more
specialized: a `const` type that meets the structural condition matches both
and the instantiation is ambiguous. -/
def difference_type (E : Env) (T : CppType) : Trait :=
  if is_const T then
    if difference_type_structural E T then .ill_formed
    else difference_type_unqualified E (decay (remove_const T))
  else difference_type_unqualified E T

/-- The alias `difference_type_t` as the detector receives it. -/
def Alias.difference_type_t (E : Env) : Alias
  | [T] => (difference_type E T).member_type
  | _ => .failure

/-- The alias `difference_type_t` named outside the detector: the type it names;
there is none, and the program is ill-formed, when the trait has no member
`type` and when the trait cannot be instantiated. -/
def difference_type_t (E : Env) : List CppType → Option CppType
  | [T] => (difference_type E T).type?
  | _ => none

/-- The specialization `value_type<T*>`. -/
def value_type_pointer (U : CppType) : Trait :=
  if is_object U then .type (remove_cv U) else .absent

/-- The specializations of `value_type<T>` for a type that is not `const`: a
pointer, an array (forwarding to the decayed type, a pointer), a nested
`value_type`, a nested `element_type`.  A class with both nested names matches
two specializations, neither more specialized. -/
def value_type_unqualified (E : Env) (T : CppType) : Trait :=
  match T with
  | .pointer q U => if q = CV.none then value_type_pointer U else .absent
  | .array U _ => value_type_pointer U
  | _ =>
      match is_detected_v (member_value_type_t E) [T],
            is_detected_v (member_element_type_t E) [T] with
      | true, true => .ill_formed
      | true, false =>
          if is_object (detected_t (member_value_type_t E) [T]) then
            .type (detected_t (member_value_type_t E) [T])
          else .absent
      | false, true =>
          if is_object (detected_t (member_element_type_t E) [T]) then
            .type (remove_cv (detected_t (member_element_type_t E) [T]))
          else .absent
      | false, false => .absent

/-- The class template `value_type<T>`.  The specialization for `const I`
forwards to `decay_t<I>`.  The ones for an array, for a nested `value_type` and
for a nested `element_type` have an `enable_if_t` as second argument, and
against each of them neither is more specialized: a `const` array and a `const`
class with one of the nested names match two specializations and the
instantiation is ambiguous. -/
def value_type (E : Env) (T : CppType) : Trait :=
  if is_const T then
    if is_array T || is_detected_v (member_value_type_t E) [T]
        || is_detected_v (member_element_type_t E) [T] then .ill_formed
    else value_type_unqualified E (decay (remove_const T))
  else value_type_unqualified E T

/-- The alias `value_type_t` as the detector receives it. -/
def Alias.value_type_t (E : Env) : Alias
  | [T] => (value_type E T).member_type
  | _ => .failure

/-- The alias `value_type_t` named outside the detector: the type it names;
there is none, and the program is ill-formed, when the trait has no member
`type` and when the trait cannot be instantiated. -/
def value_type_t (E : Env) : List CppType → Option CppType
  | [T] => (value_type E T).type?
  | _ => none

/-- The alias `iterator_category_t`, read from `std::iterator_traits`. -/
def iterator_category_t (E : Env) : Op
  | [T] => std_iterator_category E T
  | _ => none

/-- The alias `reference_t`: the type of `*std::declval<T&>()`. -/
def reference_t (E : Env) : Op
  | [T] => (declval_lvalue T).bind fun t => expr E .deref [t]
  | _ => none

/-- The alias `rvalue_reference_t`: the type of `iter_move(std::declval<T&>())`,
that is of `std::move(*e)` for the lvalue `e`. -/
def rvalue_reference_t (E : Env) : Op
  | [T] =>
      (declval_lvalue T).bind fun e =>
      (expr E .deref [e]).bind fun R =>
      if is_void R then none else some (.rref (remove_reference R))
  | _ => none

/-- The concept `Readable`: three detections.  That of `value_type_t`
instantiates `value_type<In>`, and there is no value when the instantiation is
ill-formed. -/
def Readable (E : Env) (In : CppType) : Option Bool := do
  let value ← Alias.is_detected_v (Alias.value_type_t E) [In]
  pure (value &&
        is_detected_v (reference_t E) [In] &&
        is_detected_v (rvalue_reference_t E) [In])

/-- A `const_cast<C>(e)` to a reference type `C` from an expression of type
`src`: the two differ in qualifiers only, an lvalue reference needs an lvalue
and an rvalue reference a glvalue or a class value. -/
def const_cast_ok (C src : CppType) : Bool :=
  decide (remove_cv (referred C) = remove_cv (referred src)) &&
  match C, src with
  | .lref _, .lref _ => true
  | .lref _, _ => false
  | .rref _, .lref _ => true
  | .rref _, .rref _ => true
  | .rref _, .cls _ _ => true
  | .rref _, .dangling _ _ => true
  | .rref _, .legacy_iterator_traits _ _ => true
  | .rref _, .tag _ _ => true
  | .rref _, .nonesuch _ => true
  | .rref _, .array _ _ => true
  | _, _ => false

/-- The alias `detail::write_ops_t`: the three assignments of
`write_ops_test(Out&& o, T&& t)`, where `o` is an lvalue. -/
def write_ops_t (E : Env) : Op
  | [Out, T] =>
      (declval_lvalue Out).bind fun o =>
      (expr E .deref [o]).bind fun R =>
      (expr E .assign [R, add_rvalue_reference T]).bind fun _ =>
      let C := add_rvalue_reference (add_const R)
      if const_cast_ok C R then
        (expr E .assign [C, add_rvalue_reference T]).bind fun _ =>
        (expr E .deref [add_rvalue_reference Out]).bind fun R3 =>
        if const_cast_ok C R3 then expr E .assign [C, add_rvalue_reference T]
        else none
      else none
  | _ => none

/-- The concept `Writable`. -/
def Writable (E : Env) (Out T : CppType) : Bool :=
  is_detected_v (write_ops_t E) [Out, T]

/-- The concept `WeaklyIncrementable`.  The initializer names `I&`, as the
expected type of the increment and as the argument of `post_inc_t`, and
instantiates `difference_type<I>` through the detector: there is no value on
`void` and when that instantiation is ill-formed. -/
def WeaklyIncrementable (E : Env) (I : CppType) : Option Bool := do
  let reference ← lvalue_reference I
  let difference ← detector nonesuchT (Alias.difference_type_t E) [I]
  pure (Semiregular E I &&
        difference.value_t &&
        SignedIntegral difference.type &&
        is_detected_exact_v reference (pre_inc_t E) [I] &&
        is_detected_v (post_inc_t E) [reference])

/-- The concept `Incrementable`. -/
def Incrementable (E : Env) (I : CppType) : Option Bool := do
  let weakly ← WeaklyIncrementable E I
  pure (Regular E I &&
        weakly &&
        is_detected_exact_v I (post_inc_t E) [I])

/-- The class template `detail::legacy_iterator_traits` as the detector sees
it: naming a specialization of a class template does not instantiate it, so the
name is always well-formed. -/
def legacy_iterator_traits : Op
  | [T] => some (.legacy_iterator_traits CV.none T)
  | _ => none

/-- The concept `Iterator`. -/
def Iterator (E : Env) (I : CppType) : Option Bool := do
  let weakly ← WeaklyIncrementable E I
  pure (is_detected_v (deref_t E) [I] &&
        !is_void (detected_t (deref_t E) [I]) &&
        weakly &&
        is_detected_v legacy_iterator_traits [I])

/-- The concept `InputIterator`. -/
def InputIterator (E : Env) (I : CppType) : Option Bool := do
  let iterator ← Iterator E I
  let readable ← Readable E I
  pure (iterator &&
        readable &&
        DerivedFrom E (detected_t (iterator_category_t E) [I]) (tagT .input) &&
        EqualityComparible E I)

/-- The alias `detail::output_iter_ops_t`: the type of `*i++ = std::forward<T>(t)`
inside `output_iter_ops(I i, T&& t)`. -/
def output_iter_ops_t (E : Env) : Op
  | [I, T] =>
      (by_value E I).bind fun i =>
      (expr E .post_inc [i]).bind fun p =>
      (expr E .deref [p]).bind fun d =>
      expr E .assign [d, add_rvalue_reference T]
  | _ => none

/-- The concept `OutputIterator`. -/
def OutputIterator (E : Env) (I T : CppType) : Option Bool := do
  let iterator ← Iterator E I
  pure (iterator &&
        Writable E I T &&
        is_detected_v (output_iter_ops_t E) [I, T])

/-- The concept `ForwardIterator`. -/
def ForwardIterator (E : Env) (I : CppType) : Option Bool := do
  let input ← InputIterator E I
  let incrementable ← Incrementable E I
  pure (input &&
        ConvertibleTo E (detected_t (iterator_category_t E) [I]) (tagT .forward) &&
        incrementable)

/-- The concept `BidirectionalIterator`. -/
def BidirectionalIterator (E : Env) (I : CppType) : Option Bool := do
  let forward ← ForwardIterator E I
  pure (forward &&
        DerivedFrom E (detected_t (iterator_category_t E) [I]) (tagT .bidirectional) &&
        is_detected_exact_v (add_lvalue_reference I) (pre_dec_t E) [I] &&
        is_detected_exact_v I (post_dec_t E) [I])

/-- The alias `detail::random_access_iter`: the trailing return type of
`random_access_iter_ops(I i, const I j, const difference_type_t<I> n)`.  The
template parameter is deduced as the decayed argument; the six expressions must
be well-formed; the last operand of the comma expression is the constant
`Same<decltype(j[n]), reference_t<I>>`, an lvalue of type `const bool` whatever
its value. -/
def random_access_iter (E : Env) : Op
  | [A] =>
      (difference_type_t E [A]).bind fun Darg =>
      (by_value E A).bind fun i =>
      let I := decay A
      let j := CppType.lref (add_const I)
      (difference_type_t E [I]).bind fun D =>
      if is_convertible E (add_rvalue_reference Darg) (remove_cv D) then
        let n := CppType.lref (add_const D)
        (expr E .plus_assign [i, n]).bind fun _ =>
        (expr E .plus [j, n]).bind fun _ =>
        (expr E .plus [n, j]).bind fun _ =>
        (expr E .minus_assign [i, n]).bind fun _ =>
        (expr E .minus [j, n]).bind fun _ =>
        (expr E .subscript [j, n]).bind fun S =>
        (reference_t E [I]).bind fun R =>
        let _same := Same S R
        some (.lref (.bool CV.const))
      else none
  | _ => none

/-- The concept `RandomAccessIterator`. -/
def RandomAccessIterator (E : Env) (I : CppType) : Option Bool := do
  let bidirectional ← BidirectionalIterator E I
  pure (bidirectional &&
        DerivedFrom E (detected_t (iterator_category_t E) [I]) (tagT .random_access) &&
        StrictTotallyOrdered E I &&
        is_detected_v (random_access_iter E) [I])

/-! ## Indirect callable concepts [9.4]

The initializers below name `value_type_t<I>` and `reference_t<I>` directly, not
through the detector: when the alias has no type the variable template cannot
be instantiated, whatever the value of the operands before it. -/

/-- The concept `IndirectUnaryCallable`. -/
def IndirectUnaryCallable (E : Env) (F I : CppType) : Option Bool := do
  let readable ← Readable E I
  let V ← value_type_t E [I]
  let R ← reference_t E [I]
  pure (readable &&
        CopyConstructible E F &&
        Callable E (add_lvalue_reference F) [V] &&
        Callable E (add_lvalue_reference F) [R])

/-- The concept `IndirectRegularUnaryCallable`. -/
def IndirectRegularUnaryCallable (E : Env) (F I : CppType) : Option Bool := do
  let readable ← Readable E I
  let V ← value_type_t E [I]
  let R ← reference_t E [I]
  pure (readable &&
        CopyConstructible E F &&
        RegularCallable E (add_lvalue_reference F) [V] &&
        RegularCallable E (add_lvalue_reference F) [R])

/-- The concept `IndirectUnaryPredicate`. -/
def IndirectUnaryPredicate (E : Env) (F I : CppType) : Option Bool := do
  let readable ← Readable E I
  let V ← value_type_t E [I]
  let R ← reference_t E [I]
  pure (readable &&
        CopyConstructible E F &&
        Predicate E (add_lvalue_reference F) [add_lvalue_reference V] &&
        Predicate E (add_lvalue_reference F) [R])

/-- The concept `IndirectRelation`. -/
def IndirectRelation (E : Env) (F I1 I2 : CppType) : Option Bool := do
  let readable1 ← Readable E I1
  let readable2 ← Readable E I2
  let V1 ← value_type_t E [I1]
  let V2 ← value_type_t E [I2]
  let R1 ← reference_t E [I1]
  let R2 ← reference_t E [I2]
  pure (readable1 && readable2 &&
        CopyConstructible E F &&
        Relation E (add_lvalue_reference F) (add_lvalue_reference V1) (add_lvalue_reference V2) &&
        Relation E (add_lvalue_reference F) (add_lvalue_reference V1) R2 &&
        Relation E (add_lvalue_reference F) R1 (add_lvalue_reference V2) &&
        Relation E (add_lvalue_reference F) R1 R2)

/-- The concept `IndirectStrictWeakOrder`. -/
def IndirectStrictWeakOrder (E : Env) (F I1 I2 : CppType) : Option Bool := do
  let readable1 ← Readable E I1
  let readable2 ← Readable E I2
  let V1 ← value_type_t E [I1]
  let V2 ← value_type_t E [I2]
  let R1 ← reference_t E [I1]
  let R2 ← reference_t E [I2]
  pure (readable1 && readable2 &&
        CopyConstructible E F &&
        StrictWeakOrder E (add_lvalue_reference F) (add_lvalue_reference V1)
          (add_lvalue_reference V2) &&
        StrictWeakOrder E (add_lvalue_reference F) (add_lvalue_reference V1) R2 &&
        StrictWeakOrder E (add_lvalue_reference F) R1 (add_lvalue_reference V2) &&
        StrictWeakOrder E (add_lvalue_reference F) R1 R2)

/-! ## Common algorithm requirements [9.5] -/

/-- The concept `IndirectlyMovable`. -/
def IndirectlyMovable (E : Env) (In Out : CppType) : Option Bool := do
  let readable ← Readable E In
  let RR ← rvalue_reference_t E [In]
  pure (readable && Writable E Out RR)

/-- The concept `IndirectlyMovableStorable`. -/
def IndirectlyMovableStorable (E : Env) (In Out : CppType) : Option Bool := do
  let movable ← IndirectlyMovable E In Out
  let V ← value_type_t E [In]
  let RR ← rvalue_reference_t E [In]
  pure (movable &&
        Writable E Out V &&
        Movable E V &&
        Constructible E V [RR] &&
        Assignable E (add_lvalue_reference V) RR)

/-- The concept `IndirectlyCopyable`. -/
def IndirectlyCopyable (E : Env) (In Out : CppType) : Option Bool := do
  let readable ← Readable E In
  let R ← reference_t E [In]
  pure (readable && Writable E Out R)

/-- The concept `IndirectlyCopyableStorable`. -/
def IndirectlyCopyableStorable (E : Env) (In Out : CppType) : Option Bool := do
  let copyable ← IndirectlyCopyable E In Out
  let V ← value_type_t E [In]
  let R ← reference_t E [In]
  pure (copyable &&
        Writable E Out (add_lvalue_reference (add_const V)) &&
        Copyable E V &&
        Constructible E V [R] &&
        Assignable E (add_lvalue_reference V) R)

/-- The concept `IndirectlySwappable`. -/
def IndirectlySwappable (E : Env) (I1 I2 : CppType) : Option Bool := do
  let readable1 ← Readable E I1
  let readable2 ← Readable E I2
  pure (readable1 && readable2)

/-- The concept `IndirectlyComparable`. -/
def IndirectlyComparable (E : Env) (I1 I2 R : CppType) : Option Bool :=
  IndirectRelation E R I1 I2

/-- The concept `Permutable`. -/
def Permutable (E : Env) (I : CppType) : Option Bool := do
  let forward ← ForwardIterator E I
  let storable ← IndirectlyMovableStorable E I I
  let swappable ← IndirectlySwappable E I I
  pure (forward && storable && swappable)

/-- The concept `Mergeable`. -/
def Mergeable (E : Env) (I1 I2 Out R : CppType) : Option Bool := do
  let input1 ← InputIterator E I1
  let input2 ← InputIterator E I2
  let weakly ← WeaklyIncrementable E Out
  let copyable1 ← IndirectlyCopyable E I1 Out
  let copyable2 ← IndirectlyCopyable E I2 Out
  let order ← IndirectStrictWeakOrder E R I1 I2
  pure (input1 && input2 && weakly && copyable1 && copyable2 && order)

/-- The concept `Sortable`. -/
def Sortable (E : Env) (I R : CppType) : Option Bool := do
  let permutable ← Permutable E I
  let order ← IndirectStrictWeakOrder E R I I
  pure (permutable && order)

/-! ## Ranges [10.0] -/

/-- The alias `iterator_t`: the type of `detail::adl_begin(std::declval<Rng&>())`,
that is of the unqualified `begin` on the lvalue. -/
def iterator_t (E : Env) : Op
  | [Rng] => (declval_lvalue Rng).bind fun r => expr E .begin [r]
  | _ => none

/-- The alias `sentinel_t`: the type of `detail::adl_end(std::declval<Rng&>())`. -/
def sentinel_t (E : Env) : Op
  | [Rng] => (declval_lvalue Rng).bind fun r => expr E .end_ [r]
  | _ => none

/-- The alias `range_value_type_t`, `value_type_t<iterator_t<Rng>>`, as
substituted into a declaration or handed to the detector. -/
def Alias.range_value_type_t (E : Env) : Alias
  | [Rng] =>
      match iterator_t E [Rng] with
      | some I => Alias.value_type_t E [I]
      | none => .failure
  | _ => .failure

/-- The alias `range_difference_type_t`, `difference_type_t<iterator_t<Rng>>`, as
substituted into a declaration or handed to the detector. -/
def Alias.range_difference_type_t (E : Env) : Alias
  | [Rng] =>
      match iterator_t E [Rng] with
      | some I => Alias.difference_type_t E [I]
      | none => .failure
  | _ => .failure

/-- The concept `Range`. -/
def Range (E : Env) (T : CppType) : Option Bool := do
  let iterator ← Iterator E (detected_t (iterator_t E) [T])
  pure (iterator &&
        Same (detected_t (iterator_t E) [T]) (detected_t (sentinel_t E) [T]))

/-- The concept `BoundedRange`. -/
def BoundedRange (E : Env) (T : CppType) : Option Bool := Range E T

/-- The concept `InputRange`. -/
def InputRange (E : Env) (T : CppType) : Option Bool := do
  let range ← Range E T
  let input ← InputIterator E (detected_t (iterator_t E) [T])
  pure (range && input)

/-- The concept `OutputRange`. -/
def OutputRange (E : Env) (R T : CppType) : Option Bool := do
  let range ← Range E R
  let output ← OutputIterator E (detected_t (iterator_t E) [R]) T
  pure (range && output)

/-- The concept `ForwardRange`. -/
def ForwardRange (E : Env) (T : CppType) : Option Bool := do
  let range ← Range E T
  let forward ← ForwardIterator E (detected_t (iterator_t E) [T])
  pure (range && forward)

/-- The concept `BidirectionalRange`. -/
def BidirectionalRange (E : Env) (T : CppType) : Option Bool := do
  let range ← Range E T
  let bidirectional ← BidirectionalIterator E (detected_t (iterator_t E) [T])
  pure (range && bidirectional)

/-- The concept `RandomAccessRange`. -/
def RandomAccessRange (E : Env) (T : CppType) : Option Bool := do
  let range ← Range E T
  let random ← RandomAccessIterator E (detected_t (iterator_t E) [T])
  pure (range && random)

/-! ## The dangling wrapper -/

/-- The alias `safe_iterator_t`: `std::conditional_t` between the cursor type
and its `dangling` wrapper, on `std::is_lvalue_reference<Range>`. -/
def safe_iterator_t (E : Env) : Op
  | [Range] =>
      (iterator_t E [Range]).bind fun I =>
      some (if is_lvalue_reference Range then I else .dangling CV.none I)
  | _ => none

/-! ## The aggregate overloads of the algorithms -/

/-- The algorithms that have an overload taking aggregates (`Range&&`), in the
order of the header; `transform_binary` is the overload of `transform` on two
aggregates. -/
inductive Algorithm where
  | all_of
  | any_of
  | none_of
  | for_each
  | count
  | count_if
  | mismatch
  | equal
  | find
  | find_if
  | find_if_not
  | find_end
  | find_first_of
  | adjacent_find
  | search
  | search_n
  | copy
  | copy_if
  | copy_backward
  | move
  | move_backward
  | fill
  | transform
  | transform_binary
  | generate
  | remove
  | remove_if
  | remove_copy
  | remove_copy_if
  | replace
  | replace_if
  | replace_copy
  | replace_copy_if
  | swap_ranges
  | reverse
  | reverse_copy
  | rotate
  | rotate_copy
  | shuffle
  | unique
  | unique_copy
  | is_partitioned
  | partition
  | partition_copy
  | stable_partition
  | partition_point
  | is_sorted
  | is_sorted_until
  | sort
  | partial_sort
  | partial_sort_copy
  | stable_sort
  | nth_element
  | lower_bound
  | upper_bound
  | binary_search
  | equal_range
  | merge
  | inplace_merge
  | includes
  | set_difference
  | set_intersection
  | set_symmetric_difference
  | set_union
  | is_heap
  | is_heap_until
  | make_heap
  | push_heap
  | pop_heap
  | sort_heap
  | max
  | max_element
  | min
  | min_element
  | minmax
  | minmax_element
  | lexicographical_compare
  | is_permutation
  | next_permutation
  | prev_permutation
  | iota
  | accumulate
  | inner_product
  | adjacent_difference
  | partial_sum
deriving DecidableEq

/-- What the return statement of an aggregate overload yields: a cursor into its
aggregate parameter number `k` (counted from 0), a pair of such cursors, or
anything else (a truth value, a count, an element, a cursor the caller passed,
nothing). -/
inductive Returned where
  | cursor (k : Nat)
  | cursor_pair (k l : Nat)
  | other
deriving DecidableEq

/-- The declared return type of an aggregate overload, as far as it mentions
`safe_iterator_t` of the type of aggregate parameter number `k`. -/
inductive Declared where
  | safe_iterator_t (k : Nat)
  | pair_safe_iterator_t (k l : Nat)
  | other
deriving DecidableEq

/-- One aggregate overload: its name, the number of its aggregate parameters,
what its body returns and the return type it declares. -/
structure AggregateOverload where
  name : Algorithm
  aggregates : Nat
  returned : Returned
  declared : Declared
deriving DecidableEq

/-- The aggregate overloads of the header, line by line. -/
def aggregate_overloads : List AggregateOverload := [
  AggregateOverload.mk Algorithm.all_of 1 Returned.other Declared.other,
  AggregateOverload.mk Algorithm.any_of 1 Returned.other Declared.other,
  AggregateOverload.mk Algorithm.none_of 1 Returned.other Declared.other,
  AggregateOverload.mk Algorithm.for_each 1 Returned.other Declared.other,
  AggregateOverload.mk Algorithm.count 1 Returned.other Declared.other,
  AggregateOverload.mk Algorithm.count_if 1 Returned.other Declared.other,
  AggregateOverload.mk Algorithm.mismatch 2 (Returned.cursor_pair 0 1) (Declared.pair_safe_iterator_t 0 1),
  AggregateOverload.mk Algorithm.equal 2 Returned.other Declared.other,
  AggregateOverload.mk Algorithm.find 1 (Returned.cursor 0) (Declared.safe_iterator_t 0),
  AggregateOverload.mk Algorithm.find_if 1 (Returned.cursor 0) (Declared.safe_iterator_t 0),
  AggregateOverload.mk Algorithm.find_if_not 1 (Returned.cursor 0) (Declared.safe_iterator_t 0),
  AggregateOverload.mk Algorithm.find_end 2 (Returned.cursor 0) (Declared.safe_iterator_t 0),
  AggregateOverload.mk Algorithm.find_first_of 2 (Returned.cursor 0) (Declared.safe_iterator_t 0),
  AggregateOverload.mk Algorithm.adjacent_find 1 (Returned.cursor 0) (Declared.safe_iterator_t 0),
  AggregateOverload.mk Algorithm.search 2 (Returned.cursor 0) (Declared.safe_iterator_t 0),
  AggregateOverload.mk Algorithm.search_n 1 (Returned.cursor 0) (Declared.safe_iterator_t 0),
  AggregateOverload.mk Algorithm.copy 1 Returned.other Declared.other,
  AggregateOverload.mk Algorithm.copy_if 1 Returned.other Declared.other,
  AggregateOverload.mk Algorithm.copy_backward 1 Returned.other Declared.other,
  AggregateOverload.mk Algorithm.move 1 Returned.other Declared.other,
  AggregateOverload.mk Algorithm.move_backward 1 Returned.other Declared.other,
  AggregateOverload.mk Algorithm.fill 1 Returned.other Declared.other,
  AggregateOverload.mk Algorithm.transform 1 Returned.other Declared.other,
  AggregateOverload.mk Algorithm.transform_binary 2 Returned.other Declared.other,
  AggregateOverload.mk Algorithm.generate 1 Returned.other Declared.other,
  AggregateOverload.mk Algorithm.remove 1 (Returned.cursor 0) (Declared.safe_iterator_t 0),
  AggregateOverload.mk Algorithm.remove_if 1 (Returned.cursor 0) (Declared.safe_iterator_t 0),
  AggregateOverload.mk Algorithm.remove_copy 1 Returned.other Declared.other,
  AggregateOverload.mk Algorithm.remove_copy_if 1 Returned.other Declared.other,
  AggregateOverload.mk Algorithm.replace 1 Returned.other Declared.other,
  AggregateOverload.mk Algorithm.replace_if 1 Returned.other Declared.other,
  AggregateOverload.mk Algorithm.replace_copy 1 Returned.other Declared.other,
  AggregateOverload.mk Algorithm.replace_copy_if 1 Returned.other Declared.other,
  AggregateOverload.mk Algorithm.swap_ranges 2 (Returned.cursor_pair 0 1) (Declared.pair_safe_iterator_t 0 1),
  AggregateOverload.mk Algorithm.reverse 1 Returned.other Declared.other,
  AggregateOverload.mk Algorithm.reverse_copy 1 Returned.other Declared.other,
  AggregateOverload.mk Algorithm.rotate 1 Returned.other Declared.other,
  AggregateOverload.mk Algorithm.rotate_copy 1 Returned.other Declared.other,
  AggregateOverload.mk Algorithm.shuffle 1 Returned.other Declared.other,
  AggregateOverload.mk Algorithm.unique 1 (Returned.cursor 0) (Declared.safe_iterator_t 0),
  AggregateOverload.mk Algorithm.unique_copy 1 Returned.other Declared.other,
  AggregateOverload.mk Algorithm.is_partitioned 1 Returned.other Declared.other,
  AggregateOverload.mk Algorithm.partition 1 (Returned.cursor 0) (Declared.safe_iterator_t 0),
  AggregateOverload.mk Algorithm.partition_copy 1 Returned.other Declared.other,
  AggregateOverload.mk Algorithm.stable_partition 1 (Returned.cursor 0) (Declared.safe_iterator_t 0),
  AggregateOverload.mk Algorithm.partition_point 1 (Returned.cursor 0) (Declared.safe_iterator_t 0),
  AggregateOverload.mk Algorithm.is_sorted 1 Returned.other Declared.other,
  AggregateOverload.mk Algorithm.is_sorted_until 1 (Returned.cursor 0) (Declared.safe_iterator_t 0),
  AggregateOverload.mk Algorithm.sort 1 Returned.other Declared.other,
  AggregateOverload.mk Algorithm.partial_sort 1 Returned.other Declared.other,
  AggregateOverload.mk Algorithm.partial_sort_copy 2 (Returned.cursor 1) (Declared.safe_iterator_t 1),
  AggregateOverload.mk Algorithm.stable_sort 1 Returned.other Declared.other,
  AggregateOverload.mk Algorithm.nth_element 1 Returned.other Declared.other,
  AggregateOverload.mk Algorithm.lower_bound 1 (Returned.cursor 0) (Declared.safe_iterator_t 0),
  AggregateOverload.mk Algorithm.upper_bound 1 (Returned.cursor 0) (Declared.safe_iterator_t 0),
  AggregateOverload.mk Algorithm.binary_search 1 Returned.other Declared.other,
  AggregateOverload.mk Algorithm.equal_range 1 (Returned.cursor_pair 0 0) (Declared.pair_safe_iterator_t 0 0),
  AggregateOverload.mk Algorithm.merge 2 Returned.other Declared.other,
  AggregateOverload.mk Algorithm.inplace_merge 1 Returned.other Declared.other,
  AggregateOverload.mk Algorithm.includes 2 Returned.other Declared.other,
  AggregateOverload.mk Algorithm.set_difference 2 Returned.other Declared.other,
  AggregateOverload.mk Algorithm.set_intersection 2 Returned.other Declared.other,
  AggregateOverload.mk Algorithm.set_symmetric_difference 2 Returned.other Declared.other,
  AggregateOverload.mk Algorithm.set_union 2 Returned.other Declared.other,
  AggregateOverload.mk Algorithm.is_heap 1 Returned.other Declared.other,
  AggregateOverload.mk Algorithm.is_heap_until 1 (Returned.cursor 0) (Declared.safe_iterator_t 0),
  AggregateOverload.mk Algorithm.make_heap 1 Returned.other Declared.other,
  AggregateOverload.mk Algorithm.push_heap 1 Returned.other Declared.other,
  AggregateOverload.mk Algorithm.pop_heap 1 Returned.other Declared.other,
  AggregateOverload.mk Algorithm.sort_heap 1 Returned.other Declared.other,
  AggregateOverload.mk Algorithm.max 1 Returned.other Declared.other,
  AggregateOverload.mk Algorithm.max_element 1 (Returned.cursor 0) (Declared.safe_iterator_t 0),
  AggregateOverload.mk Algorithm.min 1 Returned.other Declared.other,
  AggregateOverload.mk Algorithm.min_element 1 (Returned.cursor 0) (Declared.safe_iterator_t 0),
  AggregateOverload.mk Algorithm.minmax 1 Returned.other Declared.other,
  AggregateOverload.mk Algorithm.minmax_element 1 (Returned.cursor_pair 0 0) (Declared.pair_safe_iterator_t 0 0),
  AggregateOverload.mk Algorithm.lexicographical_compare 2 Returned.other Declared.other,
  AggregateOverload.mk Algorithm.is_permutation 2 Returned.other Declared.other,
  AggregateOverload.mk Algorithm.next_permutation 1 Returned.other Declared.other,
  AggregateOverload.mk Algorithm.prev_permutation 1 Returned.other Declared.other,
  AggregateOverload.mk Algorithm.iota 1 Returned.other Declared.other,
  AggregateOverload.mk Algorithm.accumulate 1 Returned.other Declared.other,
  AggregateOverload.mk Algorithm.inner_product 2 Returned.other Declared.other,
  AggregateOverload.mk Algorithm.adjacent_difference 1 Returned.other Declared.other,
  AggregateOverload.mk Algorithm.partial_sum 1 Returned.other Declared.other]

/-- The declared return type wraps what the body returns: `safe_iterator_t` of
the aggregate parameter for a cursor into it, the pair of them for a pair. -/
def AggregateOverload.protects (o : AggregateOverload) : Bool :=
  match o.returned with
  | .cursor k => decide (o.declared = .safe_iterator_t k) && decide (k < o.aggregates)
  | .cursor_pair k l =>
      decide (o.declared = .pair_safe_iterator_t k l) && decide (k < o.aggregates)
        && decide (l < o.aggregates)
  | .other => true

/-- The aggregate overload the header declares under a name. -/
def aggregate_overload (a : Algorithm) : Option AggregateOverload :=
  aggregate_overloads.find? fun o => decide (o.name = a)

/-- The template argument deduced for a parameter `Range&&` from an argument:
`T&` for an lvalue of type `T` (a named aggregate), `T` for an rvalue (a
temporary). -/
def deduce_forwarding (argument : CppType) : CppType :=
  match argument with
  | .lref T => .lref T
  | .rref T => T
  | T => T

/-- The cursor types in the return type an aggregate overload declares, on the
types `Ranges` deduced for its aggregate parameters: `safe_iterator_t<Range>` of
the parameter named, the two members of the `std::pair` of them; none when the
declared type names no `safe_iterator_t`. -/
def AggregateOverload.return_type (E : Env) (o : AggregateOverload)
    (Ranges : List CppType) : Option (List CppType) :=
  match o.declared with
  | .safe_iterator_t k => do
      let Range ← Ranges[k]?
      let I ← safe_iterator_t E [Range]
      pure [I]
  | .pair_safe_iterator_t k l => do
      let Range1 ← Ranges[k]?
      let Range2 ← Ranges[l]?
      let I1 ← safe_iterator_t E [Range1]
      let I2 ← safe_iterator_t E [Range2]
      pure [I1, I2]
  | .other => none

namespace Fixture

/-- The element type of a cursor of the program: the pointee of a pointer to an
object, `int` for classes 1 and 2. -/
def element : CppType → Option CppType
  | .pointer _ U => if is_object U then some U else none
  | .cls _ 1 => some intT
  | .cls _ 2 => some intT
  | _ => none

/-- A type that is a cursor of the program. -/
def is_cursor (T : CppType) : Bool := (element T).isSome

/-- The built-in scalar types: `bool`, integers and pointers. -/
def is_scalar (T : CppType) : Bool := is_integral T || is_pointer T

/-- Expression typing in the program. -/
def expr (k : ExprKind) (operands : List CppType) : Option CppType :=
  match k, operands.map referred with
  | .eq, [a, b] | .ne, [a, b] | .lt, [a, b] | .gt, [a, b] | .le, [a, b] | .ge, [a, b] =>
      if (is_cursor a && decide (remove_cv a = remove_cv b))
          || (is_integral a && is_integral b) then some boolT else none
  | .pre_inc, [a] | .pre_dec, [a] =>
      if (is_cursor a || is_integral a) && !is_const a then some (.lref a) else none
  | .post_inc, [a] | .post_dec, [a] =>
      if (is_cursor a || is_integral a) && !is_const a then some (remove_cv a) else none
  | .deref, [a] => (element a).map CppType.lref
  | .plus, [a, b] =>
      if is_cursor a && is_integral b then some (remove_cv a)
      else if is_integral a && is_cursor b then some (remove_cv b)
      else if is_integral a && is_integral b then some intT
      else none
  | .minus, [a, b] =>
      if is_cursor a && decide (remove_cv a = remove_cv b) then some ptrdiff_t
      else if is_cursor a && is_integral b then some (remove_cv a)
      else if is_integral a && is_integral b then some (remove_cv a)
      else none
  | .plus_assign, [a, b] | .minus_assign, [a, b] =>
      if is_cursor a && !is_const a && is_integral b then some (.lref a) else none
  | .subscript, [a, b] =>
      if is_integral b then
        match a with
        | .cls _ 2 => some intT
        | _ => (element a).map CppType.lref
      else none
  | .assign, [a, b] =>
      if (is_scalar a || is_cursor a) && !is_const a
          && decide (remove_cv a = remove_cv b) then some (.lref a) else none
  | .swap, [a, b] =>
      if decide (a = b) && !is_const a && is_object a then some (.void CV.none) else none
  | .begin, [.cls q 0] | .end_, [.cls q 0] | .begin, [.cls q 5] =>
      some (.pointer CV.none (.integral ⟨q.c, false⟩ true 2))
  | .end_, [.cls _ 5] => some (.cls CV.none 2)
  | _, _ => none

/-- Implicit conversion in the program: between a type and itself up to
qualifiers and references (a value does not bind to a reference to non-const),
among the integer types, and from a scalar to `bool`. -/
def convertible (From To : CppType) : Bool :=
  let f := remove_cv (referred From)
  let t := remove_cv (referred To)
  match To with
  | .lref X => decide (f = t) && (is_lvalue_reference From || is_const X)
      && (is_const X || !is_const (referred From))
  | _ => (decide (f = t) && is_object f) || (is_integral f && is_integral t)
      || (is_scalar f && decide (t = boolT))

/-- Nested type names in the program. -/
def member : MemberName → Nat → Option CppType
  | .difference_type, 1 => some ptrdiff_t
  | .difference_type, 2 => some ptrdiff_t
  | .value_type, 0 => some intT
  | .value_type, 1 => some intT
  | .value_type, 2 => some intT
  | _, _ => none

/-- Invocation in the program: class 4 is callable on one or two arguments
convertible to `int` and returns `bool`. -/
def result_of (F : CppType) (Args : List CppType) : Option CppType :=
  match remove_cv (referred F) with
  | .cls _ 4 =>
      if (Args.length = 1 || Args.length = 2)
          && Args.all (fun A => convertible A intT) then some boolT else none
  | _ => none

/-- The category the classes of the program declare. -/
def iterator_category : CV → Nat → Option CppType
  | _, 1 => some (tagT .forward)
  | _, 2 => some (tagT .random_access)
  | _, _ => none

/-- The program. -/
def env : Env where
  expr := expr
  member := member
  convertible := convertible
  constructible := fun T Args =>
    match Args with
    | [] => is_object T
    | [A] => convertible A T
    | _ => false
  assignable := fun T U =>
    match T with
    | .lref X => !is_const X && convertible U X
    | _ => false
  nothrow_destructible := fun T => is_object T || is_reference T
  base_of := fun B D =>
    match B, D with
    | .cls _ n, .cls _ m => decide (n = m)
    | _, _ => false
  result_of := result_of
  iterator_category := iterator_category

/-- The type `int*`. -/
def int_ptr : CppType := .pointer CV.none intT

end Fixture

/-! ## A second concrete program

The first program with other nested names: class 1 declares `difference_type`
as `int` (its subtraction still yields `std::ptrdiff_t`), class 6 declares both
`value_type` and `element_type` as `int`, class 7 declares `value_type` as
`const int`, class 8 declares `element_type` as `const int`. -/

namespace Fixture

/-- Nested type names in the second program. -/
def member2 : MemberName → Nat → Option CppType
  | .difference_type, 1 => some intT
  | .value_type, 6 => some intT
  | .element_type, 6 => some intT
  | .value_type, 7 => some (.integral CV.const true 2)
  | .element_type, 8 => some (.integral CV.const true 2)
  | name, n => member name n

/-- The second program. -/
def env2 : Env where
  expr := expr
  member := member2
  convertible := env.convertible
  constructible := env.constructible
  assignable := env.assignable
  nothrow_destructible := env.nothrow_destructible
  base_of := env.base_of
  result_of := result_of
  iterator_category := iterator_category

end Fixture

/-! ## Values: the dangling wrapper

At run time a sequence is the list of its elements and a cursor into it is a
position, counted from the start of the underlying sequence. -/

/-- The class template `dangling<T>`: one private member, `value_`; the
constructor `dangling(T t) : value_(t)` is `dangling.mk`. -/
structure dangling (T : Type) where
  value_ : T

/-- The member `T get_unsafe() { return value_; }`.  It is not declared `const`:
the call is given with the wrapper as it is after the call. -/
def dangling.get_unsafe {T : Type} (d : dangling T) : T × dangling T :=
  (d.value_, d)

/-- A value of type `safe_iterator_t<Range>`: the cursor itself when `Range` is
an lvalue reference, its wrapper otherwise. -/
inductive SafeIterator (T : Type) where
  | cursor (c : T)
  | wrapped (d : dangling T)

/-- The conversion a `return` statement makes to `safe_iterator_t<Range>`: none
for a named aggregate, the constructor of `dangling` for a temporary. -/
def to_safe_iterator {T : Type} (named : Bool) (c : T) : SafeIterator T :=
  if named then .cursor c else .wrapped (dangling.mk c)

/-- The cursor a `safe_iterator_t` value stands for, taken out of the wrapper
with `get_unsafe`. -/
def SafeIterator.position {T : Type} : SafeIterator T → T
  | .cursor c => c
  | .wrapped d => ( dangling.get_unsafe d).1

/-! ## Values: sequences and the sequential primitives -/

/-- The function `detail::adl_begin` on an aggregate: the position of its first
element. -/
def adl_begin {α : Type} (_range : List α) : Nat := 0

/-- The function `detail::adl_end` on an aggregate: the position past its last
element. -/
def adl_end {α : Type} (range : List α) : Nat := range.length

/-- The elements that the cursor pair `[first, last)` delimits in the sequence
`s`. -/
def between {α : Type} (s : List α) (first last : Nat) : List α :=
  (s.take last).drop first

/-- The function object `std::equal_to<>`, the default relation. -/
def equal_to {α : Type} [DecidableEq α] (a b : α) : Bool := decide (a = b)

/-- Modelled from the spec: the scan of `std::mismatch`, a sequential primitive of
the standard library that the header calls and does not define.  It advances
over both sequences while neither is exhausted and the relation holds, and
counts the steps. -/
def common_prefix_length {α β : Type} (pred : α → β → Bool) : List α → List β → Nat
  | a :: as, b :: bs => if pred a b then common_prefix_length pred as bs + 1 else 0
  | _, _ => 0

/-- Modelled from the spec: `std::mismatch(first1, last1, first2, last2, pred)`,
not defined in the header: both cursors advanced by the steps of the scan. -/
def std_mismatch {α β : Type} (s1 : List α) (first1 last1 : Nat) (s2 : List β)
    (first2 last2 : Nat) (pred : α → β → Bool) : Nat × Nat :=
  (first1 + common_prefix_length pred (between s1 first1 last1) (between s2 first2 last2),
   first2 + common_prefix_length pred (between s1 first1 last1) (between s2 first2 last2))

/-- Modelled from the spec: the scan of `std::equal` on two delimited sequences,
not defined in the header: both are exhausted together and the relation holds
at every step. -/
def all_match {α β : Type} (pred : α → β → Bool) : List α → List β → Bool
  | [], [] => true
  | a :: as, b :: bs => pred a b && all_match pred as bs
  | _, _ => false

/-- Modelled from the spec: `std::equal(first1, last1, first2, last2, pred)`, not
defined in the header. -/
def std_equal {α β : Type} (s1 : List α) (first1 last1 : Nat) (s2 : List β)
    (first2 last2 : Nat) (pred : α → β → Bool) : Bool :=
  all_match pred (between s1 first1 last1) (between s2 first2 last2)

/-- Modelled from the spec: the scan of `std::find`, not defined in the header:
the steps taken before the first element that compares equal to the value, all
of them when there is none. -/
def first_match {α β : Type} (eq : α → β → Bool) : List α → β → Nat
  | [], _ => 0
  | a :: as, v => if eq a v then 0 else first_match eq as v + 1

/-- Modelled from the spec: `std::find(first, last, value)`, not defined in the
header; `eq` is `operator==` between an element and the value. -/
def std_find {α β : Type} (s : List α) (first last : Nat) (value : β)
    (eq : α → β → Bool) : Nat :=
  first + first_match eq (between s first last) value

/-- The second sequence is matched, element by element, by the front of the
first. -/
def matches_at {α β : Type} (pred : α → β → Bool) : List α → List β → Bool
  | _, [] => true
  | [], _ :: _ => false
  | a :: as, b :: bs => pred a b && matches_at pred as bs

/-- Modelled from the spec: the scan of `std::search`, not defined in the header:
the steps taken before the first position at which the second sequence is
matched, all of them when there is none. -/
def first_occurrence {α β : Type} (pred : α → β → Bool) : List α → List β → Nat
  | [], _ => 0
  | a :: as, B => if matches_at pred (a :: as) B then 0 else first_occurrence pred as B + 1

/-- Modelled from the spec: `std::search(first1, last1, first2, last2, pred)`, not
defined in the header. -/
def std_search {α β : Type} (s1 : List α) (first1 last1 : Nat) (s2 : List β)
    (first2 last2 : Nat) (pred : α → β → Bool) : Nat :=
  first1 + first_occurrence pred (between s1 first1 last1) (between s2 first2 last2)

/-! ## Values: the algorithms of the header -/

/-- The explicit-length `mismatch` on two cursor pairs. -/
def mismatch {α β : Type} (s1 : List α) (first1 last1 : Nat) (s2 : List β)
    (first2 last2 : Nat) (pred : α → β → Bool) : Nat × Nat :=
  std_mismatch s1 first1 last1 s2 first2 last2 pred

/-- The explicit-length `equal` on two cursor pairs. -/
def equal {α β : Type} (s1 : List α) (first1 last1 : Nat) (s2 : List β)
    (first2 last2 : Nat) (pred : α → β → Bool) : Bool :=
  std_equal s1 first1 last1 s2 first2 last2 pred

/-- The algorithm `find` on a cursor pair. -/
def find {α β : Type} (s : List α) (first last : Nat) (value : β)
    (eq : α → β → Bool) : Nat :=
  std_find s first last value eq

/-- The algorithm `search` on two cursor pairs. -/
def search {α β : Type} (s1 : List α) (first1 last1 : Nat) (s2 : List β)
    (first2 last2 : Nat) (pred : α → β → Bool) : Nat :=
  std_search s1 first1 last1 s2 first2 last2 pred

namespace Aggregate

/-- The overload `mismatch(Range1&& range1, Range2&& range2, pred)`; `named1` and
`named2` say whether `Range1` and `Range2` are lvalue references. -/
def mismatch {α β : Type} (named1 named2 : Bool) (range1 : List α) (range2 : List β)
    (pred : α → β → Bool) : SafeIterator Nat × SafeIterator Nat :=
  (to_safe_iterator named1
     (std_mismatch range1 (adl_begin range1) (adl_end range1)
        range2 (adl_begin range2) (adl_end range2) pred).1,
   to_safe_iterator named2
     (std_mismatch range1 (adl_begin range1) (adl_end range1)
        range2 (adl_begin range2) (adl_end range2) pred).2)

/-- The overload `equal(Range1&& range1, Range2&& range2, pred)`, what it returns
when it is called; whether a call reaches it is `equal_candidates`. -/
def equal {α β : Type} (range1 : List α) (range2 : List β) (pred : α → β → Bool) : Bool :=
  std_equal range1 (adl_begin range1) (adl_end range1)
    range2 (adl_begin range2) (adl_end range2) pred

/-- The overload `find(Range&& range, const T& value)`. -/
def find {α β : Type} (named : Bool) (range : List α) (value : β)
    (eq : α → β → Bool) : SafeIterator Nat :=
  to_safe_iterator named (std_find range (adl_begin range) (adl_end range) value eq)

/-- The overload `search(Range1&& range1, Range2&& range2, pred)`. -/
def search {α β : Type} (named1 : Bool) (range1 : List α) (range2 : List β)
    (pred : α → β → Bool) : SafeIterator Nat :=
  to_safe_iterator named1
    (std_search range1 (adl_begin range1) (adl_end range1)
       range2 (adl_begin range2) (adl_end range2) pred)

end Aggregate

/-- The number `k` is the length of the longest common prefix of `A` and `B` under
`pred`: it does not exceed either length, the relation holds below `k`, and at
`k` one sequence ends or the relation fails. -/
def LongestCommonPrefix {α β : Type} (pred : α → β → Bool) (A : List α) (B : List β)
    (k : Nat) : Prop :=
  k ≤ min A.length B.length ∧
  (∀ i, i < k → ∃ a b, A[i]? = some a ∧ B[i]? = some b ∧ pred a b = true) ∧
  (k = min A.length B.length ∨
    ∃ a b, A[k]? = some a ∧ B[k]? = some b ∧ pred a b = false)

/-- The sequence `B` occurs in `A` at position `i`: it fits, and `pred(A[i+j], B[j])`
holds for every `j`. -/
def OccursAt {α β : Type} (pred : α → β → Bool) (A : List α) (B : List β) (i : Nat) : Prop :=
  i + B.length ≤ A.length ∧
  ∀ j, j < B.length → ∃ a b, A[i + j]? = some a ∧ B[j]? = some b ∧ pred a b = true

/-- The two sequences have the same length and `pred` relates them position by
position. -/
def Pointwise {α β : Type} (pred : α → β → Bool) (A : List α) (B : List β) : Prop :=
  A.length = B.length ∧
  ∀ i, i < A.length → ∃ a b, A[i]? = some a ∧ B[i]? = some b ∧ pred a b = true

/-- The position `r` is the first one in `A` whose element compares equal to `v`,
or the length of `A` when there is none. -/
def FirstMatch {α β : Type} (eq : α → β → Bool) (A : List α) (v : β) (r : Nat) : Prop :=
  r ≤ A.length ∧
  (r < A.length → ∃ a, A[r]? = some a ∧ eq a v = true) ∧
  (∀ i, i < r → ∃ a, A[i]? = some a ∧ eq a v = false) ∧
  (r = A.length ↔ ∀ a ∈ A, eq a v = false)

/-- The position `r` is the least one at which `B` occurs in `A`, or the length
of `A` when `B` occurs nowhere. -/
def FirstOccurrence {α β : Type} (pred : α → β → Bool) (A : List α) (B : List β)
    (r : Nat) : Prop :=
  r ≤ A.length ∧
  ((∃ i, OccursAt pred A B i) → OccursAt pred A B r ∧ ∀ i, OccursAt pred A B i → r ≤ i) ∧
  ((¬ ∃ i, OccursAt pred A B i) → r = A.length)

/-! ## Values: orders, minima and set operations -/

/-- A strict weak order: irreflexive, transitive, and with a transitive
incomparability. -/
def IsStrictWeakOrder {α : Type} (comp : α → α → Bool) : Prop :=
  (∀ a, comp a a = false) ∧
  (∀ a b c, comp a b = true → comp b c = true → comp a c = true) ∧
  (∀ a b c, comp a b = false → comp b a = false → comp b c = false → comp c b = false →
    comp a c = false ∧ comp c a = false)

/-- Modelled from the spec: the scan of `std::min_element`, not defined in the
header: `best` is the smallest element met so far and `at_` its position, `i`
is the position of the head of the rest; a later element replaces the candidate
only when it is smaller. -/
def min_scan {α : Type} (comp : α → α → Bool) : α → Nat → Nat → List α → Nat
  | _, at_, _, [] => at_
  | best, at_, i, a :: as =>
      if comp a best then min_scan comp a i (i + 1) as
      else min_scan comp best at_ (i + 1) as

/-- Modelled from the spec: `std::min_element(first, last, comp)`, not defined in
the header: `last` on an empty sequence, otherwise the position of the first
smallest element. -/
def std_min_element {α : Type} (s : List α) (first last : Nat)
    (comp : α → α → Bool) : Nat :=
  match between s first last with
  | [] => last
  | a :: as => first + min_scan comp a 0 1 as

/-- The algorithm `min_element` on a cursor pair. -/
def min_element {α : Type} (s : List α) (first last : Nat) (comp : α → α → Bool) : Nat :=
  std_min_element s first last comp

/-- The overload `min_element(ForwardRng&& range, comp)`. -/
def Aggregate.min_element {α : Type} (named : Bool) (range : List α)
    (comp : α → α → Bool) : SafeIterator Nat :=
  to_safe_iterator named (std_min_element range (adl_begin range) (adl_end range) comp)

/-- The position `r` is the end position `n` of an empty sequence, or the
position of an element of `A` than which no element of `A` is smaller. -/
def MinimalAt {α : Type} (comp : α → α → Bool) (A : List α) (r : Nat) : Prop :=
  (A = [] → r = A.length) ∧
  (A ≠ [] → ∃ m, A[r]? = some m ∧ ∀ (j : Nat) (a : α), A[j]? = some a → comp a m = false)

/-- Modelled from the spec: the merge of `std::set_symmetric_difference`, not
defined in the header: the smaller head is written and passed, two equivalent
heads are both passed and none is written, and the rest of the sequence that
is left is written. -/
def symmetric_difference {α : Type} (comp : α → α → Bool) : List α → List α → List α
  | [], B => B
  | a :: A, [] => a :: A
  | a :: A, b :: B =>
      if comp a b then a :: symmetric_difference comp A (b :: B)
      else if comp b a then b :: symmetric_difference comp (a :: A) B
      else symmetric_difference comp A B
termination_by A B => A.length + B.length

/-- Writing the values one after the other through an output cursor at position
`ofirst` of the destination; the result is the destination and the cursor past
the last value written, and there is none when the destination has no room. -/
def store_all {α : Type} (dst : List α) (ofirst : Nat) : List α → Option (List α × Nat)
  | [] => some (dst, ofirst)
  | x :: xs =>
      if ofirst < dst.length then store_all (dst.set ofirst x) (ofirst + 1) xs else none

/-- Modelled from the spec: `std::set_symmetric_difference(first1, last1, first2,
last2, ofirst, comp)`, not defined in the header. -/
def std_set_symmetric_difference {α : Type} (s1 : List α) (first1 last1 : Nat)
    (s2 : List α) (first2 last2 : Nat) (dst : List α) (ofirst : Nat)
    (comp : α → α → Bool) : Option (List α × Nat) :=
  store_all dst ofirst
    (symmetric_difference comp (between s1 first1 last1) (between s2 first2 last2))

/-- The algorithm `set_symmetric_difference` on two cursor pairs. -/
def set_symmetric_difference {α : Type} (s1 : List α) (first1 last1 : Nat)
    (s2 : List α) (first2 last2 : Nat) (dst : List α) (ofirst : Nat)
    (comp : α → α → Bool) : Option (List α × Nat) :=
  std_set_symmetric_difference s1 first1 last1 s2 first2 last2 dst ofirst comp

/-- The overload `set_symmetric_difference(InputRng1&& range1, InputRng2&& range2,
ofirst, comp)`; `named1` and `named2` say whether the aggregates are passed as
lvalues. The result is the output cursor, never wrapped. -/
def Aggregate.set_symmetric_difference {α : Type} (_named1 _named2 : Bool)
    (range1 range2 : List α) (dst : List α) (ofirst : Nat)
    (comp : α → α → Bool) : Option (List α × Nat) :=
  std_set_symmetric_difference range1 (adl_begin range1) (adl_end range1)
    range2 (adl_begin range2) (adl_end range2) dst ofirst comp

/-- The sequence is sorted under `comp`: no element is smaller than an earlier
one. -/
def SortedBy {α : Type} (comp : α → α → Bool) (A : List α) : Prop :=
  A.Pairwise (fun a b => comp b a = false)

/-- The number of elements of `A` with the key of `x`, that is equivalent to `x`
under `comp`. -/
def count_key {α : Type} (comp : α → α → Bool) (x : α) (A : List α) : Nat :=
  A.countP (fun a => !comp a x && !comp x a)

/-! ## Values: permutations, selection and partial sorting -/

/-- Modelled from the spec: the sequence without its first element that `a`
matches under `pred`, none when `a` matches no element. -/
def remove_match {α β : Type} (pred : α → β → Bool) (a : α) : List β → Option (List β)
  | [] => none
  | b :: bs => if pred a b then some bs else (remove_match pred a bs).map (b :: ·)

/-- Modelled from the spec: the elements of the second sequence are a
rearrangement of the elements of the first under `pred`: each element of the
first takes a match of its own out of the second, and none is left. -/
def is_rearrangement {α β : Type} (pred : α → β → Bool) : List α → List β → Bool
  | [], B => B.isEmpty
  | a :: A, B =>
      match remove_match pred a B with
      | none => false
      | some B' => is_rearrangement pred A B'

/-- Modelled from the spec: `std::is_permutation(first1, last1, first2, last2,
pred)`, not defined in the header. -/
def std_is_permutation {α β : Type} (s1 : List α) (first1 last1 : Nat) (s2 : List β)
    (first2 last2 : Nat) (pred : α → β → Bool) : Bool :=
  is_rearrangement pred (between s1 first1 last1) (between s2 first2 last2)

/-- The explicit-length `is_permutation` on two cursor pairs. -/
def is_permutation {α β : Type} (s1 : List α) (first1 last1 : Nat) (s2 : List β)
    (first2 last2 : Nat) (pred : α → β → Bool) : Bool :=
  std_is_permutation s1 first1 last1 s2 first2 last2 pred

/-- The overload `is_permutation(ForwardRng1&& range1, ForwardRng2&& range2, pred)`:
the end of the first cursor pair is `detail::adl_end(range2)`. -/
def Aggregate.is_permutation {α β : Type} (range1 : List α) (range2 : List β)
    (pred : α → β → Bool) : Bool :=
  std_is_permutation range1 (adl_begin range1) (adl_end range2)
    range2 (adl_begin range2) (adl_end range2) pred

/-- Modelled from the spec: insertion of `x` before the first element it is
smaller than. -/
def insert_sorted {α : Type} (comp : α → α → Bool) (x : α) : List α → List α
  | [] => [x]
  | y :: ys => if comp x y then x :: y :: ys else y :: insert_sorted comp x ys

/-- Modelled from the spec: the sequence sorted under `comp`. -/
def sort_by {α : Type} (comp : α → α → Bool) : List α → List α
  | [] => []
  | x :: xs => insert_sorted comp x (sort_by comp xs)

/-- Modelled from the spec: `std::nth_element(first, nth, last, comp)`, not
defined in the header.  It requires `[first, nth)` and `[nth, last)` to be
cursor pairs of the sequence and has no effect when `nth` is `last`; otherwise
the element at `nth` is the one of the sorted sequence, none before it is
greater and none after it is smaller: of the arrangements that qualify the model
takes the sorted one.  There is no result when the requirement fails. -/
def std_nth_element {α : Type} (s : List α) (first nth last : Nat)
    (comp : α → α → Bool) : Option (List α) :=
  if first ≤ nth ∧ nth ≤ last ∧ last ≤ s.length then
    if nth = last then some s
    else some (s.take first ++ sort_by comp (between s first last) ++ s.drop last)
  else none

/-- The algorithm `nth_element` on a cursor triple. -/
def nth_element {α : Type} (s : List α) (first nth last : Nat)
    (comp : α → α → Bool) : Option (List α) :=
  std_nth_element s first nth last comp

/-- The overload `nth_element(Range&& range, iterator_t<Range> nth, comp)`: it
passes `detail::adl_end(range)` second and `nth` third. -/
def Aggregate.nth_element {α : Type} (range : List α) (nth : Nat)
    (comp : α → α → Bool) : Option (List α) :=
  std_nth_element range (adl_begin range) (adl_end range) nth comp

/-- Modelled from the spec: `std::partial_sort_copy(first, last, rfirst, rlast,
comp)`, not defined in the header: the smallest elements of the input, as many
as the result sequence holds, are written in sorted order at `rfirst`; the
result is the result sequence and the cursor past the last element written. -/
def std_partial_sort_copy {α : Type} (input : List α) (first last : Nat)
    (result : List α) (rfirst rlast : Nat) (comp : α → α → Bool) : Option (List α × Nat) :=
  store_all result rfirst
    ((sort_by comp (between input first last)).take (between result rfirst rlast).length)

/-- Modelled from the spec: `std::partial_sort`, not defined in the header.  Its
overloads take three cursors `first, middle, last` of one sequence (and a
comparison) and return nothing: the smallest elements are sorted into
`[first, middle)`.  A call with another number of cursors matches no
overload. -/
def std_partial_sort {α : Type} (s : List α) (cursors : List Nat)
    (comp : α → α → Bool) : Option (List α) :=
  match cursors with
  | [first, middle, last] =>
      if first ≤ middle ∧ middle ≤ last ∧ last ≤ s.length then
        some (s.take first ++ sort_by comp (between s first last) ++ s.drop last)
      else none
  | _ => none

/-- The cursor-pair form `partial_sort_copy(first, last, rfirst, rlast, comp)`.
Its body is `return std::partial_sort(first, last, rfirst, rlast, comp)`: the
call passes four cursors, and what `std::partial_sort` returns is `void`, which
is no `Iter2`. -/
def partial_sort_copy {α : Type} (input : List α) (first last : Nat)
    (_result : List α) (rfirst rlast : Nat) (comp : α → α → Bool) : Option (List α × Nat) :=
  (std_partial_sort input [first, last, rfirst, rlast] comp).bind fun _ => none

/-- The overload `partial_sort_copy(Range1&& input, Range2&& result, comp)`. -/
def Aggregate.partial_sort_copy {α : Type} (named2 : Bool) (input result : List α)
    (comp : α → α → Bool) : Option (List α × SafeIterator Nat) :=
  (std_partial_sort_copy input (adl_begin input) (adl_end input)
    result (adl_begin result) (adl_end result) comp).map
    fun r => (r.1, to_safe_iterator named2 r.2)

/-! ## Values: the insert iterators -/

/-- The member functions of a container type that the insert iterators name; a
member the type does not declare is absent. -/
structure ContainerOps (C α : Type) where
  /-- The member `push_back`. -/
  push_back : Option (C → α → C)
  /-- The member `push_front`. -/
  push_front : Option (C → α → C)
  /-- The member `front_back`. -/
  front_back : Option (C → α → C)

/-- Modelled from the spec: a sequence container of the standard library with
both ends open (`std::list`, `std::deque`), not defined in the header:
`push_front` prepends, `push_back` appends, and no member is called
`front_back`. -/
def std_list (α : Type) : ContainerOps (List α) α where
  push_back := some fun c v => c ++ [v]
  push_front := some fun c v => v :: c
  front_back := none

/-- The class template `front_insert_iterator`: it holds the address of the
container, here the container it designates. -/
structure front_insert_iterator (C : Type) where
  /-- The container `*cont_`. -/
  cont_ : C

/-- The function `front_inserter`. -/
def front_inserter {C : Type} (x : C) : front_insert_iterator C := ⟨x⟩

/-- The member `operator=(const value_type_t<Container>& value)`: it calls
`cont_->push_front(value)` and returns `*this`. -/
def front_insert_iterator.assign_copy {C α : Type} (ops : ContainerOps C α)
    (it : front_insert_iterator C) (value : α) : Option (front_insert_iterator C) :=
  ops.push_front.map fun push => ⟨push it.cont_ value⟩

/-- The member `operator=(value_type_t<Container>&& value)`: it calls
`cont_->front_back(std::move(value))` and returns `*this`. -/
def front_insert_iterator.assign_move {C α : Type} (ops : ContainerOps C α)
    (it : front_insert_iterator C) (value : α) : Option (front_insert_iterator C) :=
  ops.front_back.map fun push => ⟨push it.cont_ value⟩

/-! ## Values: projections -/

/-- Modelled from the spec: the overload of `find` on a cursor pair that takes a
projection, declared in `nanorange/algorithm/find.hpp`, which the tests include
and which is not among the sources: the projection is applied to each element
and its result is compared with the value. -/
def Projected.find {α β γ : Type} (s : List α) (first last : Nat) (value : β)
    (eq : γ → β → Bool) (proj : α → γ) : Nat :=
  first + first_match (fun a v => eq (proj a) v) (between s first last) value

/-- Modelled from the spec: the overload of `find` on an aggregate that takes a
projection; it forwards to the cursor pair of the aggregate. -/
def Projected.Aggregate.find {α β γ : Type} (named : Bool) (range : List α) (value : β)
    (eq : γ → β → Bool) (proj : α → γ) : SafeIterator Nat :=
  to_safe_iterator named
    (Projected.find range (adl_begin range) (adl_end range) value eq proj)

/-- The struct `S` of the tests, with its integer field. -/
structure S where
  /-- The field `i_`. -/
  i_ : Int

/-! ## Values: the loops of the header -/

/-- The outcome of a loop that is run for a bounded number of steps. -/
inductive Outcome (σ : Type) where
  /-- The loop was left with this result. -/
  | done (result : σ)
  /-- An element outside its sequence was read or written. -/
  | undefined
  /-- The bound was reached before the loop was left. -/
  | running

/-- The loop of the explicit-length `swap_ranges`:
`while (first1 != last1 && first2 != last2) { std::iter_swap(first1, first2);
++first1; ++first2; }`, then the pair of the two cursors. -/
def swap_ranges_loop {α : Type} (last1 last2 : Nat) :
    Nat → List α → Nat → List α → Nat → Outcome (List α × List α × Nat × Nat)
  | 0, s1, first1, s2, first2 =>
      if first1 ≠ last1 ∧ first2 ≠ last2 then .running
      else .done (s1, s2, first1, first2)
  | steps + 1, s1, first1, s2, first2 =>
      if first1 ≠ last1 ∧ first2 ≠ last2 then
        match s1[first1]?, s2[first2]? with
        | some a, some b =>
            swap_ranges_loop last1 last2 steps (s1.set first1 b) (first1 + 1)
              (s2.set first2 a) (first2 + 1)
        | _, _ => .undefined
      else .done (s1, s2, first1, first2)

/-- The explicit-length `swap_ranges` on two cursor pairs, run for at most `steps`
steps. -/
def swap_ranges {α : Type} (steps : Nat) (s1 : List α) (first1 last1 : Nat)
    (s2 : List α) (first2 last2 : Nat) : Outcome (List α × List α × Nat × Nat) :=
  swap_ranges_loop last1 last2 steps s1 first1 s2 first2

/-- The result of a loop that was left, through `f`. -/
def Outcome.map {σ τ : Type} (f : σ → τ) : Outcome σ → Outcome τ
  | .done r => .done (f r)
  | .undefined => .undefined
  | .running => .running

/-- The overload `swap_ranges(Range1&& range1, Range2&& range2)`: the explicit-length
form on the cursor pairs of the two aggregates, its cursors wrapped for an
aggregate that is no lvalue. -/
def Aggregate.swap_ranges {α : Type} (named1 named2 : Bool) (steps : Nat)
    (range1 range2 : List α) : Outcome (List α × List α × SafeIterator Nat × SafeIterator Nat) :=
  (NanoRange.swap_ranges steps range1 (adl_begin range1) (adl_end range1)
    range2 (adl_begin range2) (adl_end range2)).map
    fun r => (r.1, r.2.1, to_safe_iterator named1 r.2.2.1, to_safe_iterator named2 r.2.2.2)

/-- The loop of the six-parameter `transform`:
`while (first1 != last1 && first2 != last2) { *ofirst = op(*first1, *first2);
++ofirst; ++first1; ++first2; }`, then the output cursor. -/
def transform_loop {α β γ : Type} (op : α → β → γ) (s1 : List α) (last1 : Nat)
    (s2 : List β) (last2 : Nat) : Nat → Nat → Nat → List γ → Nat → Outcome (List γ × Nat)
  | 0, first1, first2, dst, ofirst =>
      if first1 ≠ last1 ∧ first2 ≠ last2 then .running else .done (dst, ofirst)
  | steps + 1, first1, first2, dst, ofirst =>
      if first1 ≠ last1 ∧ first2 ≠ last2 then
        match s1[first1]?, s2[first2]? with
        | some a, some b =>
            if ofirst < dst.length then
              transform_loop op s1 last1 s2 last2 steps (first1 + 1) (first2 + 1)
                (dst.set ofirst (op a b)) (ofirst + 1)
            else .undefined
        | _, _ => .undefined
      else .done (dst, ofirst)

/-- The explicit-length binary `transform` on two cursor pairs and an output
cursor, run for at most `steps` steps. -/
def transform {α β γ : Type} (steps : Nat) (s1 : List α) (first1 last1 : Nat)
    (s2 : List β) (first2 last2 : Nat) (dst : List γ) (ofirst : Nat)
    (op : α → β → γ) : Outcome (List γ × Nat) :=
  transform_loop op s1 last1 s2 last2 steps first1 first2 dst ofirst

/-- The overload `transform(Range1&& range1, Range2&& range2, Iter3 ofirst, op)`. -/
def Aggregate.transform {α β γ : Type} (steps : Nat) (range1 : List α) (range2 : List β)
    (dst : List γ) (ofirst : Nat) (op : α → β → γ) : Outcome (List γ × Nat) :=
  NanoRange.transform steps range1 (adl_begin range1) (adl_end range1)
    range2 (adl_begin range2) (adl_end range2) dst ofirst op

/-- The last operand of the requirement of the three overloads of
`inner_product`, `std::is_assignable<T, std::result_of_t<BinOp1&(T,
std::result_of_t<BinOp2&(V1, V2)>)>>::value`, on the element types `V1` and `V2`
of the two sequences: there is no value, and the overload is dropped, when one
of the two `std::result_of_t` names no type. -/
def inner_product_assignable (E : Env) (T BinOp1 BinOp2 V1 V2 : CppType) : Option Bool :=
  match result_of_t E (add_lvalue_reference BinOp2) [V1, V2] with
  | none => none
  | some R2 =>
      match result_of_t E (add_lvalue_reference BinOp1) [T, R2] with
      | none => none
      | some R1 => some (is_assignable E T R1)

/-- The requirement of `inner_product(InputIt1 first1, InputIt1 last1, InputIt2
first2, InputIt2 last2, T value, BinOp1 op1, BinOp2 op2)`:
`InputIterator<InputIt1> && InputIterator<InputIt2> && std::is_assignable<T,
...>::value` on `value_type_t<InputIt1>` and `value_type_t<InputIt2>`.  The
overload is dropped (false) when an alias named in the declaration has no type;
there is no value when a trait or a concept cannot be instantiated. -/
def inner_product_requires (E : Env) (InputIt1 InputIt2 T BinOp1 BinOp2 : CppType) :
    Option Bool :=
  match Alias.value_type_t E [InputIt1] with
  | .ill_formed => none
  | .failure => some false
  | .type V1 =>
      match Alias.value_type_t E [InputIt2] with
      | .ill_formed => none
      | .failure => some false
      | .type V2 =>
          match inner_product_assignable E T BinOp1 BinOp2 V1 V2 with
          | none => some false
          | some assignable => do
              let input1 ← InputIterator E InputIt1
              let input2 ← InputIterator E InputIt2
              pure (input1 && input2 && assignable)

/-- The requirement of `inner_product(InputRng1&& range1, InputRng2&& range2, T
value, BinOp1 op1, BinOp2 op2)`: `InputRange<InputRng1> && InputRange<InputRng2>
&& std::is_assignable<T, ...>::value` on `range_value_type_t<InputRng1>` and
`range_value_type_t<InputRng2>`. -/
def Aggregate.inner_product_requires (E : Env) (InputRng1 InputRng2 T BinOp1 BinOp2 : CppType) :
    Option Bool :=
  match Alias.range_value_type_t E [InputRng1] with
  | .ill_formed => none
  | .failure => some false
  | .type V1 =>
      match Alias.range_value_type_t E [InputRng2] with
      | .ill_formed => none
      | .failure => some false
      | .type V2 =>
          match inner_product_assignable E T BinOp1 BinOp2 V1 V2 with
          | none => some false
          | some assignable => do
              let input1 ← InputRange E InputRng1
              let input2 ← InputRange E InputRng2
              pure (input1 && input2 && assignable)

/-- The requirement of the deprecated `inner_product(InputIt1 first1, InputIt1
last1, InputIt2 first2, T value, BinOp1 op1, BinOp2 op2)`, the same expression
as that of the explicit-length form. -/
def Deprecated.inner_product_requires (E : Env) (InputIt1 InputIt2 T BinOp1 BinOp2 : CppType) :
    Option Bool :=
  match Alias.value_type_t E [InputIt1] with
  | .ill_formed => none
  | .failure => some false
  | .type V1 =>
      match Alias.value_type_t E [InputIt2] with
      | .ill_formed => none
      | .failure => some false
      | .type V2 =>
          match inner_product_assignable E T BinOp1 BinOp2 V1 V2 with
          | none => some false
          | some assignable => do
              let input1 ← InputIterator E InputIt1
              let input2 ← InputIterator E InputIt2
              pure (input1 && input2 && assignable)

/-- The loop of the explicit-length `inner_product`:
`while (first1 != last1 && first2 != last2) { value = op1(value, op2(*first1,
*first2)); ++first1; ++first2; }`, then `value`. -/
def inner_product_loop {α β ρ τ : Type} (op1 : τ → ρ → τ) (op2 : α → β → ρ)
    (s1 : List α) (last1 : Nat) (s2 : List β) (last2 : Nat) :
    Nat → Nat → Nat → τ → Outcome τ
  | 0, first1, first2, value =>
      if first1 ≠ last1 ∧ first2 ≠ last2 then .running else .done value
  | steps + 1, first1, first2, value =>
      if first1 ≠ last1 ∧ first2 ≠ last2 then
        match s1[first1]?, s2[first2]? with
        | some a, some b =>
            inner_product_loop op1 op2 s1 last1 s2 last2 steps (first1 + 1) (first2 + 1)
              (op1 value (op2 a b))
        | _, _ => .undefined
      else .done value

/-- The explicit-length `inner_product` on two cursor pairs, with the template
arguments `InputIt1`, `InputIt2`, `T` (the type of `value`), `BinOp1` and
`BinOp2` deduced from the call: the overload takes part in the call only when
its requirement holds, and there is no result when it does not; its body is the
loop, run for at most `steps` steps. -/
def inner_product (E : Env) (InputIt1 InputIt2 T BinOp1 BinOp2 : CppType)
    {α β ρ τ : Type} (steps : Nat) (s1 : List α) (first1 last1 : Nat)
    (s2 : List β) (first2 last2 : Nat) (value : τ) (op1 : τ → ρ → τ)
    (op2 : α → β → ρ) : Option (Outcome τ) :=
  if inner_product_requires E InputIt1 InputIt2 T BinOp1 BinOp2 = some true then
    some (inner_product_loop op1 op2 s1 last1 s2 last2 steps first1 first2 value)
  else none

/-- The overload `inner_product(InputRng1&& range1, InputRng2&& range2, value, op1,
op2)`, with its template arguments: under its requirement, the call of the
explicit-length form on the cursors `adl_begin` and `adl_end` return, of type
`iterator_t` of the aggregates. -/
def Aggregate.inner_product (E : Env) (InputRng1 InputRng2 T BinOp1 BinOp2 : CppType)
    {α β ρ τ : Type} (steps : Nat) (range1 : List α)
    (range2 : List β) (value : τ) (op1 : τ → ρ → τ) (op2 : α → β → ρ) :
    Option (Outcome τ) :=
  if Aggregate.inner_product_requires E InputRng1 InputRng2 T BinOp1 BinOp2 = some true then
    match iterator_t E [InputRng1], iterator_t E [InputRng2] with
    | some I1, some I2 =>
        NanoRange.inner_product E I1 I2 T BinOp1 BinOp2 steps
          range1 (adl_begin range1) (adl_end range1)
          range2 (adl_begin range2) (adl_end range2) value op1 op2
    | _, _ => none
  else none

/-! ## Values: the three-cursor forms -/

/-- Modelled from the spec: the binary `std::transform(first1, last1, first2,
ofirst, op)`, not defined in the header.  It assumes that the second sequence is at
least as long as the first: as many elements as the first sequence has are read
from `first2` on, and there is no result when the second sequence ends
before. -/
def std_transform {α β γ : Type} (s1 : List α) (first1 last1 : Nat) (s2 : List β)
    (first2 : Nat) (dst : List γ) (ofirst : Nat) (op : α → β → γ) : Option (List γ × Nat) :=
  if first2 + (between s1 first1 last1).length ≤ s2.length then
    store_all dst ofirst
      (List.zipWith op (between s1 first1 last1)
        (between s2 first2 (first2 + (between s1 first1 last1).length)))
  else none

/-- Modelled from the spec: `std::inner_product(first1, last1, first2, value, op1,
op2)`, not defined in the header, under the same assumption. -/
def std_inner_product {α β ρ τ : Type} (s1 : List α) (first1 last1 : Nat) (s2 : List β)
    (first2 : Nat) (value : τ) (op1 : τ → ρ → τ) (op2 : α → β → ρ) : Option τ :=
  if first2 + (between s1 first1 last1).length ≤ s2.length then
    some (((between s1 first1 last1).zip
        (between s2 first2 (first2 + (between s1 first1 last1).length))).foldl
      (fun acc p => op1 acc (op2 p.1 p.2)) value)
  else none

/-- Modelled from the spec: `std::swap_ranges(first1, last1, first2)`, not defined
in the header, under the same assumption: the two sequences after the exchange
and the cursor of the second past the last element exchanged. -/
def std_swap_ranges {α : Type} (s1 : List α) (first1 last1 : Nat) (s2 : List α)
    (first2 : Nat) : Option (List α × List α × Nat) :=
  if first2 + (between s1 first1 last1).length ≤ s2.length then
    (store_all s1 first1
      (between s2 first2 (first2 + (between s1 first1 last1).length))).bind fun r1 =>
    (store_all s2 first2 (between s1 first1 last1)).map fun r2 => (r1.1, r2.1, r2.2)
  else none

namespace Deprecated

/-- The deprecated `transform(first1, last1, first2, ofirst, op)`. -/
def transform {α β γ : Type} (s1 : List α) (first1 last1 : Nat) (s2 : List β)
    (first2 : Nat) (dst : List γ) (ofirst : Nat) (op : α → β → γ) : Option (List γ × Nat) :=
  std_transform s1 first1 last1 s2 first2 dst ofirst op

/-- The deprecated `inner_product(first1, last1, first2, value, op1, op2)`, with
its template arguments: no result when its requirement does not hold, what
`std::inner_product` yields when it does. -/
def inner_product (E : Env) (InputIt1 InputIt2 T BinOp1 BinOp2 : CppType)
    {α β ρ τ : Type} (s1 : List α) (first1 last1 : Nat) (s2 : List β)
    (first2 : Nat) (value : τ) (op1 : τ → ρ → τ) (op2 : α → β → ρ) :
    Option (Option τ) :=
  if Deprecated.inner_product_requires E InputIt1 InputIt2 T BinOp1 BinOp2 = some true then
    some (std_inner_product s1 first1 last1 s2 first2 value op1 op2)
  else none

/-- The deprecated `swap_ranges(first1, last1, first2)`. -/
def swap_ranges {α : Type} (s1 : List α) (first1 last1 : Nat) (s2 : List α)
    (first2 : Nat) : Option (List α × List α × Nat) :=
  std_swap_ranges s1 first1 last1 s2 first2

end Deprecated

/-! ## The requirements of the two shapes of an overload

What `REQUIRES(...)` yields for the template arguments of an overload: true or
false, the overload being dropped when false, also when an alias named in the
requirement has no type; or nothing, when a concept in it cannot be
instantiated. -/

/-- The requirement of `next_permutation(BidirIt first, BidirIt last, Comp)`. -/
def next_permutation_requires (E : Env) (BidirIt Comp : CppType) : Option Bool := do
  let bidirectional ← BidirectionalIterator E BidirIt
  let sortable ← Sortable E BidirIt Comp
  pure (bidirectional && sortable)

/-- The requirement of `next_permutation(BidirRng&& range, Comp)`:
`BidirectionalRange<BidirRng> && Sortable<iterator_t<iterator_t<BidirRng>>, Comp>`. -/
def Aggregate.next_permutation_requires (E : Env) (BidirRng Comp : CppType) : Option Bool :=
  match (iterator_t E [BidirRng]).bind fun I => iterator_t E [I] with
  | none => some false
  | some II => do
      let bidirectional ← BidirectionalRange E BidirRng
      let sortable ← Sortable E II Comp
      pure (bidirectional && sortable)

/-- The requirement of `prev_permutation(BidirIt first, BidirIt last, Comp)`. -/
def prev_permutation_requires (E : Env) (BidirIt Comp : CppType) : Option Bool := do
  let bidirectional ← BidirectionalIterator E BidirIt
  let sortable ← Sortable E BidirIt Comp
  pure (bidirectional && sortable)

/-- The requirement of `prev_permutation(BidirRng&& range, Comp)`:
`BidirectionalRange<BidirRng> && Sortable<iterator_t<BidirRng>, Comp>`. -/
def Aggregate.prev_permutation_requires (E : Env) (BidirRng Comp : CppType) : Option Bool :=
  match iterator_t E [BidirRng] with
  | none => some false
  | some I => do
      let bidirectional ← BidirectionalRange E BidirRng
      let sortable ← Sortable E I Comp
      pure (bidirectional && sortable)

/-- The requirement of `find_first_of(Iter1 first1, Iter1 last1, Iter2 first2,
Iter2 last2, Pred)`. -/
def find_first_of_requires (E : Env) (Iter1 Iter2 Pred : CppType) : Option Bool := do
  let input ← InputIterator E Iter1
  let forward ← ForwardIterator E Iter2
  let relation ← IndirectRelation E Pred Iter1 Iter2
  pure (input && forward && relation)

/-- The requirement of `find_first_of(Range1&& range1, Range2&& range2, Pred)`. -/
def Aggregate.find_first_of_requires (E : Env) (Range1 Range2 Pred : CppType) :
    Option Bool :=
  match iterator_t E [Range1], iterator_t E [Range2] with
  | some I1, some I2 => do
      let input1 ← InputRange E Range1
      let input2 ← InputRange E Range2
      let relation ← IndirectRelation E Pred I1 I2
      pure (input1 && input2 && relation)
  | _, _ => some false

/-- The requirement of `remove_copy_if(Iter1 first, Iter1 last, Iter2 ofirst,
Pred)`. -/
def remove_copy_if_requires (E : Env) (Iter1 Iter2 Pred : CppType) : Option Bool := do
  let forward ← ForwardIterator E Iter1
  let weakly ← WeaklyIncrementable E Iter2
  let predicate ← IndirectUnaryPredicate E Pred Iter1
  let copyable ← IndirectlyCopyable E Iter1 Iter2
  pure (forward && weakly && predicate && copyable)

/-- The requirement of `remove_copy_if(Range1&& range, Iter2 ofirst, Pred)`. -/
def Aggregate.remove_copy_if_requires (E : Env) (Range1 Iter2 Pred : CppType) :
    Option Bool :=
  match iterator_t E [Range1] with
  | none => some false
  | some I1 => do
      let input ← InputRange E Range1
      let weakly ← WeaklyIncrementable E Iter2
      let predicate ← IndirectUnaryPredicate E Pred I1
      let copyable ← IndirectlyCopyable E I1 Iter2
      pure (input && weakly && predicate && copyable)

/-- The requirement of `minmax_element(ForwardIt first, ForwardIt last, Comp)`. -/
def minmax_element_requires (E : Env) (ForwardIt Comp : CppType) : Option Bool := do
  let forward ← ForwardIterator E ForwardIt
  let order ← IndirectStrictWeakOrder E Comp ForwardIt ForwardIt
  pure (forward && order)

/-- The requirement of `minmax(ForwardRng&& range, Comp)`:
`Copyable<value_type_t<iterator_t<ForwardRng>>> &&
IndirectStrictWeakOrder<Comp, iterator_t<ForwardRng>>`. -/
def Aggregate.minmax_requires (E : Env) (ForwardRng Comp : CppType) : Option Bool :=
  match iterator_t E [ForwardRng] with
  | none => some false
  | some I =>
      match Alias.value_type_t E [I] with
      | .ill_formed => none
      | .failure => some false
      | .type V => do
          let order ← IndirectStrictWeakOrder E Comp I I
          pure (Copyable E V && order)

/-- The requirement of `min(ForwardRng&& range, Comp)`:
`ForwardRange<ForwardRng> && IndirectStrictWeakOrder<Comp, iterator_t<ForwardRng>> &&
Copyable<value_type_t<iterator_t<ForwardRng>>>`. -/
def Aggregate.min_requires (E : Env) (ForwardRng Comp : CppType) : Option Bool :=
  match iterator_t E [ForwardRng] with
  | none => some false
  | some I =>
      match Alias.value_type_t E [I] with
      | .ill_formed => none
      | .failure => some false
      | .type V => do
          let forward ← ForwardRange E ForwardRng
          let order ← IndirectStrictWeakOrder E Comp I I
          pure (forward && order && Copyable E V)

/-! ## A third concrete program

The first program with a single-pass cursor: class 1 declares
`std::input_iterator_tag` as its category, and class 9 is an aggregate whose
`begin` and `end` return class 1. -/

namespace Fixture

/-- Expression typing in the third program. -/
def expr3 (k : ExprKind) (operands : List CppType) : Option CppType :=
  match k, operands.map referred with
  | .begin, [.cls _ 9] | .end_, [.cls _ 9] => some (.cls CV.none 1)
  | _, _ => expr k operands

/-- The category the classes of the third program declare. -/
def iterator_category3 : CV → Nat → Option CppType
  | _, 1 => some (tagT .input)
  | q, n => iterator_category q n

/-- The third program. -/
def env3 : Env where
  expr := expr3
  member := member
  convertible := env.convertible
  constructible := env.constructible
  assignable := env.assignable
  nothrow_destructible := env.nothrow_destructible
  base_of := env.base_of
  result_of := result_of
  iterator_category := iterator_category3

end Fixture

/-! ## The overloads of `equal` in a call -/

/-- The requirement of `equal(Iter1 first1, Iter1 last1, Iter2 first2, Iter2
last2, BinaryPredicate pred)`. -/
def equal_requires (E : Env) (Iter1 Iter2 BinaryPredicate : CppType) : Option Bool := do
  let input1 ← InputIterator E Iter1
  let input2 ← InputIterator E Iter2
  let comparable ← IndirectlyComparable E Iter1 Iter2 BinaryPredicate
  pure (input1 && input2 && comparable)

/-- The requirement of the deprecated `equal(Iter1 first1, Iter1 last1, Iter2
first2, BinaryPredicate pred)`, the same expression. -/
def Deprecated.equal_requires (E : Env) (Iter1 Iter2 BinaryPredicate : CppType) :
    Option Bool := do
  let input1 ← InputIterator E Iter1
  let input2 ← InputIterator E Iter2
  let comparable ← IndirectlyComparable E Iter1 Iter2 BinaryPredicate
  pure (input1 && input2 && comparable)

/-- The requirement of `equal(Range1&& range1, Range2&& range2, BinaryPredicate
pred)`. -/
def Aggregate.equal_requires (E : Env) (Range1 Range2 BinaryPredicate : CppType) :
    Option Bool :=
  match iterator_t E [Range1], iterator_t E [Range2] with
  | some I1, some I2 => do
      let input1 ← InputRange E Range1
      let input2 ← InputRange E Range2
      let comparable ← IndirectlyComparable E I1 I2 BinaryPredicate
      pure (input1 && input2 && comparable)
  | _, _ => some false

/-- The three function templates named `equal`. -/
inductive EqualOverload where
  | deprecated
  | cursors
  | aggregate
deriving DecidableEq

/-- The overloads of `equal` that are viable for a call on arguments of the given
types, `equal_to` being the type `std::equal_to<>` of the defaulted predicate.
Every template of the name is tried: the arguments have to be as many as the
parameters that have no default, parameters of one template parameter passed by
value have to agree on the decayed type, a parameter `Range&&` deduces as a
forwarding reference; then the requirement is evaluated on the arguments
deduced, and a requirement that cannot be instantiated makes the call
ill-formed, whatever the other overloads are. -/
def equal_candidates (E : Env) (equal_to : CppType) (arguments : List CppType) :
    Option (List EqualOverload) := do
  let deprecated ←
    match arguments with
    | [first1, last1, first2] =>
        if decay first1 = decay last1 then
          Deprecated.equal_requires E (decay first1) (decay first2) equal_to
        else some false
    | [first1, last1, first2, pred] =>
        if decay first1 = decay last1 then
          Deprecated.equal_requires E (decay first1) (decay first2) (decay pred)
        else some false
    | _ => some false
  let cursors ←
    match arguments with
    | [first1, last1, first2, last2] =>
        if decay first1 = decay last1 ∧ decay first2 = decay last2 then
          equal_requires E (decay first1) (decay first2) equal_to
        else some false
    | [first1, last1, first2, last2, pred] =>
        if decay first1 = decay last1 ∧ decay first2 = decay last2 then
          equal_requires E (decay first1) (decay first2) (decay pred)
        else some false
    | _ => some false
  let aggregate ←
    match arguments with
    | [range1, range2] =>
        Aggregate.equal_requires E (deduce_forwarding range1) (deduce_forwarding range2)
          equal_to
    | [range1, range2, pred] =>
        Aggregate.equal_requires E (deduce_forwarding range1) (deduce_forwarding range2)
          (decay pred)
    | _ => some false
  pure ((if deprecated then [.deprecated] else []) ++ (if cursors then [.cursors] else [])
    ++ (if aggregate then [.aggregate] else []))

/-- The call `equal(range1, range2, pred)` on two aggregates and a predicate, of
types `Range1`, `Range2` and `Pred`: the value the aggregate overload returns
when it is the one viable overload of the call, nothing when the call does not
compile. -/
def Call.equal (E : Env) (equal_to Range1 Range2 Pred : CppType) {α β : Type}
    (range1 : List α) (range2 : List β) (pred : α → β → Bool) : Option Bool :=
  match equal_candidates E equal_to [Range1, Range2, Pred] with
  | some [.aggregate] => some (Aggregate.equal range1 range2 pred)
  | _ => none

/-! ## A concrete program with function objects

The first program with the function objects of `<functional>`: class 10 is
`std::plus<>` and class 11 is `std::multiplies<>`, callable on two arithmetic
arguments; class 12 is an arithmetic class (a number of any size), which
`std::plus<>` adds to a class 12 or to an integer, and which is assignable from
a class 12, as an lvalue and as an rvalue. -/

namespace Fixture

/-- Invocation in the fourth program. -/
def result_of4 (F : CppType) (Args : List CppType) : Option CppType :=
  match remove_cv (referred F), Args with
  | .cls _ 10, [a, b] =>
      if convertible a intT && convertible b intT then some intT
      else if decide (remove_cv (referred a) = .cls CV.none 12)
          && (convertible b intT || decide (remove_cv (referred b) = .cls CV.none 12)) then
        some (.cls CV.none 12)
      else none
  | .cls _ 11, [a, b] =>
      if convertible a intT && convertible b intT then some intT else none
  | _, _ => result_of F Args

/-- Assignment in the fourth program. -/
def assignable4 (T U : CppType) : Bool :=
  match referred T with
  | .cls q 12 => !q.c && decide (remove_cv (referred U) = .cls CV.none 12)
  | _ => env.assignable T U

/-- The fourth program. -/
def env4 : Env where
  expr := expr
  member := member
  convertible := env.convertible
  constructible := env.constructible
  assignable := assignable4
  nothrow_destructible := env.nothrow_destructible
  base_of := env.base_of
  result_of := result_of4
  iterator_category := iterator_category

end Fixture

/-! ## Lemmas on the detector and on the refinement steps -/

open Fixture

theorem detector_none (D : CppType) (op : Op) (Args : List CppType)
    (h : op Args = none) : Op.detector D op Args = ⟨false, D⟩ := by
  simp [Op.detector, h]

theorem detector_some (D : CppType) (op : Op) (Args : List CppType) (T : CppType)
    (h : op Args = some T) : Op.detector D op Args = ⟨true, T⟩ := by
  simp [Op.detector, h]

theorem detected_t_some (op : Op) (Args : List CppType) (T : CppType)
    (h : op Args = some T) : detected_t op Args = T := by
  simp [detected_t, detector_some _ op Args T h]

theorem detected_t_none (op : Op) (Args : List CppType)
    (h : op Args = none) : detected_t op Args = nonesuchT := by
  simp [detected_t, detector_none _ op Args h]

theorem is_detected_v_eq (op : Op) (Args : List CppType) :
    is_detected_v op Args = (op Args).isSome := by
  unfold is_detected_v Op.detector
  cases op Args <;> rfl

/-- Where `Readable` compiles, it is the conjunction of the three detections,
that of `value_type_t` being whether the trait has a member `type`. -/
theorem Readable_eq (E : Env) (In : CppType) :
    Readable E In = (do
      (value_type E In).instantiate
      pure (is_detected_v (value_type_t E) [In] &&
            is_detected_v (reference_t E) [In] &&
            is_detected_v (rvalue_reference_t E) [In])) := by
  unfold Readable Alias.is_detected_v detector Alias.value_type_t
  cases h : value_type E In <;>
    simp [Trait.member_type, Trait.instantiate, is_detected_v_eq, value_type_t, Trait.type?, h]

/-- Where `WeaklyIncrementable` compiles, it is the conjunction of the five
conditions, the detection of `difference_type_t` being whether the trait has a
member `type`. -/
theorem WeaklyIncrementable_eq (E : Env) (I : CppType) (hv : is_void I = false) :
    WeaklyIncrementable E I = (do
      (difference_type E I).instantiate
      pure (Semiregular E I &&
            is_detected_v (difference_type_t E) [I] &&
            SignedIntegral (detected_t (difference_type_t E) [I]) &&
            is_detected_exact_v (add_lvalue_reference I) (pre_inc_t E) [I] &&
            is_detected_v (post_inc_t E) [add_lvalue_reference I])) := by
  unfold WeaklyIncrementable lvalue_reference detector Alias.difference_type_t
  cases h : difference_type E I <;>
    simp [hv, Trait.member_type, Trait.instantiate, is_detected_v_eq, difference_type_t,
      Trait.type?, h, detected_t, Op.detector]

theorem Boolean_nonesuch (E : Env) : Boolean E nonesuchT = false := by
  simp [Boolean, ConvertibleTo, is_convertible, nonesuchT, boolT]

/-- A detected type that converts to `bool` was detected: the marker
`nonesuch` does not convert. -/
theorem detected_of_Boolean (E : Env) (op : Op) (Args : List CppType)
    (h : Boolean E (detected_t op Args) = true) :
    ∃ T, op Args = some T ∧ Boolean E T = true := by
  cases hop : op Args with
  | none => rw [detected_t_none op Args hop, Boolean_nonesuch] at h; cases h
  | some T => rw [detected_t_some op Args T hop] at h; exact ⟨T, rfl, h⟩

theorem by_value_nonesuch (E : Env) : by_value E nonesuchT = none := by
  simp [by_value, nonesuchT, decay, remove_reference, remove_cv, map_cv, is_void,
    is_convertible]

theorem Iterator_nonesuch (E : Env) : Iterator E nonesuchT ≠ some true := by
  unfold Iterator
  have hd : is_detected_v (deref_t E) [nonesuchT] = false := by
    simp [is_detected_v_eq, deref_t, unary_op_t, by_value_nonesuch]
  cases WeaklyIncrementable E nonesuchT <;> simp [hd]

theorem bidirectional_of_random_access (E : Env) (I : CppType)
    (h : RandomAccessIterator E I = some true) : BidirectionalIterator E I = some true := by
  unfold RandomAccessIterator at h
  cases hb : BidirectionalIterator E I <;> simp_all

theorem forward_of_bidirectional (E : Env) (I : CppType)
    (h : BidirectionalIterator E I = some true) : ForwardIterator E I = some true := by
  unfold BidirectionalIterator at h
  cases hb : ForwardIterator E I <;> simp_all

theorem input_of_forward (E : Env) (I : CppType)
    (h : ForwardIterator E I = some true) : InputIterator E I = some true := by
  unfold ForwardIterator at h
  cases hb : InputIterator E I <;> cases hc : Incrementable E I <;> simp_all

theorem iterator_of_input (E : Env) (I : CppType)
    (h : InputIterator E I = some true) : Iterator E I = some true := by
  unfold InputIterator at h
  cases hb : Iterator E I <;> cases hc : Readable E I <;> simp_all

theorem weakly_incrementable_of_iterator (E : Env) (I : CppType)
    (h : Iterator E I = some true) : WeaklyIncrementable E I = some true := by
  unfold Iterator at h
  cases hb : WeaklyIncrementable E I <;> simp_all

/-- A range has a `begin`: the marker `nonesuch` is no iterator. -/
theorem begin_of_range (E : Env) (T : CppType) (h : Range E T = some true) :
    ∃ I, iterator_t E [T] = some I ∧ detected_t (iterator_t E) [T] = I := by
  cases hI : iterator_t E [T] with
  | some I => exact ⟨I, rfl, detected_t_some _ _ I hI⟩
  | none =>
      exfalso
      unfold Range at h
      rw [detected_t_none _ _ hI] at h
      have hn := Iterator_nonesuch E
      cases hit : Iterator E nonesuchT with
      | none => simp [hit] at h
      | some b =>
          cases b with
          | true => exact hn hit
          | false => simp [hit] at h

/-- Two strict operands of `&&`: the conjunction is true exactly when both are. -/
theorem strict_and_eq_true (a b : Option Bool) :
    (a.bind fun x => b.bind fun y => some (x && y)) = some true ↔
      a = some true ∧ b = some true := by
  cases a <;> cases b <;> simp

theorem range_level_iff (E : Env) (T : CppType) (level range_level : Option Bool)
    (hdef : range_level = (Range E T).bind fun r => level.bind fun x => some (r && x)) :
    range_level = some true ↔ Range E T = some true ∧ level = some true := by
  rw [hdef]; exact strict_and_eq_true _ _

/-! ## C1: the iterator refinement chain -/

/-- C1. The iterator concepts form a refinement chain: a random access iterator
is a bidirectional iterator, which is a forward iterator, which is an input
iterator, which is an iterator, which is weakly incrementable. -/
theorem iterator_refinement_chain (E : Env) (I : CppType) :
    (RandomAccessIterator E I = some true → BidirectionalIterator E I = some true) ∧
    (BidirectionalIterator E I = some true → ForwardIterator E I = some true) ∧
    (ForwardIterator E I = some true → InputIterator E I = some true) ∧
    (InputIterator E I = some true → Iterator E I = some true) ∧
    (Iterator E I = some true → WeaklyIncrementable E I = some true) :=
  ⟨bidirectional_of_random_access E I, forward_of_bidirectional E I,
   input_of_forward E I, iterator_of_input E I, weakly_incrementable_of_iterator E I⟩

/-- C1 at `int*` in the concrete program: the strongest concept holds and every
weaker one follows. -/
theorem iterator_refinement_chain_witness :
    RandomAccessIterator env int_ptr = some true ∧
    BidirectionalIterator env int_ptr = some true ∧
    ForwardIterator env int_ptr = some true ∧
    InputIterator env int_ptr = some true ∧
    Iterator env int_ptr = some true ∧
    WeaklyIncrementable env int_ptr = some true :=
  have c := iterator_refinement_chain env int_ptr
  have h4 : RandomAccessIterator env int_ptr = some true := by rfl
  have h3 := c.1 h4
  have h2 := c.2.1 h3
  have h1 := c.2.2.1 h2
  have h0 := c.2.2.2.1 h1
  ⟨h4, h3, h2, h1, h0, c.2.2.2.2 h0⟩

/-! ## C2: the range refinement chain -/

/-- C2. The range concepts form a refinement chain, and each of them holds
exactly when `Range<T>` holds and the cursor type that `begin` yields on `T`
satisfies the iterator concept of the same level. -/
theorem range_refinement_chain (E : Env) (T : CppType) :
    (RandomAccessRange E T = some true → BidirectionalRange E T = some true) ∧
    (BidirectionalRange E T = some true → ForwardRange E T = some true) ∧
    (ForwardRange E T = some true → InputRange E T = some true) ∧
    (InputRange E T = some true → Range E T = some true) ∧
    (RandomAccessRange E T = some true ↔
      ∃ I, iterator_t E [T] = some I ∧ Range E T = some true ∧
        RandomAccessIterator E I = some true) ∧
    (BidirectionalRange E T = some true ↔
      ∃ I, iterator_t E [T] = some I ∧ Range E T = some true ∧
        BidirectionalIterator E I = some true) ∧
    (ForwardRange E T = some true ↔
      ∃ I, iterator_t E [T] = some I ∧ Range E T = some true ∧
        ForwardIterator E I = some true) ∧
    (InputRange E T = some true ↔
      ∃ I, iterator_t E [T] = some I ∧ Range E T = some true ∧
        InputIterator E I = some true) ∧
    (Range E T = some true ↔
      ∃ I, iterator_t E [T] = some I ∧ Range E T = some true ∧
        Iterator E I = some true) := by
  have hra := range_level_iff E T (RandomAccessIterator E (detected_t (iterator_t E) [T]))
    (RandomAccessRange E T) rfl
  have hbi := range_level_iff E T (BidirectionalIterator E (detected_t (iterator_t E) [T]))
    (BidirectionalRange E T) rfl
  have hfw := range_level_iff E T (ForwardIterator E (detected_t (iterator_t E) [T]))
    (ForwardRange E T) rfl
  have hin := range_level_iff E T (InputIterator E (detected_t (iterator_t E) [T]))
    (InputRange E T) rfl
  have lift : ∀ level : CppType → Option Bool,
      (Range E T = some true ∧ level (detected_t (iterator_t E) [T]) = some true ↔
        ∃ I, iterator_t E [T] = some I ∧ Range E T = some true ∧ level I = some true) := by
    intro level
    constructor
    · rintro ⟨hr, hl⟩
      obtain ⟨I, hI, hd⟩ := begin_of_range E T hr
      exact ⟨I, hI, hr, hd ▸ hl⟩
    · rintro ⟨I, hI, hr, hl⟩
      exact ⟨hr, (detected_t_some _ _ I hI).symm ▸ hl⟩
  have hrange : Range E T = some true →
      Iterator E (detected_t (iterator_t E) [T]) = some true := by
    intro h
    unfold Range at h
    cases hit : Iterator E (detected_t (iterator_t E) [T]) <;> simp_all
  refine ⟨?_, ?_, ?_, ?_, hra.trans (lift _), hbi.trans (lift _), hfw.trans (lift _),
    hin.trans (lift _), ?_⟩
  · intro h
    exact hbi.2 ⟨(hra.1 h).1, bidirectional_of_random_access E _ (hra.1 h).2⟩
  · intro h
    exact hfw.2 ⟨(hbi.1 h).1, forward_of_bidirectional E _ (hbi.1 h).2⟩
  · intro h
    exact hin.2 ⟨(hfw.1 h).1, input_of_forward E _ (hfw.1 h).2⟩
  · intro h
    exact (hin.1 h).1
  · exact Iff.trans ⟨fun h => ⟨h, hrange h⟩, fun h => h.1⟩ (lift _)

/-- C2 at the aggregate class 0 of the concrete program, whose `begin` yields
`int*`: the strongest range concept holds, the weaker ones follow, and the
cursor type is a random access iterator. -/
theorem range_refinement_chain_witness :
    RandomAccessRange env (.cls CV.none 0) = some true ∧
    BidirectionalRange env (.cls CV.none 0) = some true ∧
    ForwardRange env (.cls CV.none 0) = some true ∧
    InputRange env (.cls CV.none 0) = some true ∧
    Range env (.cls CV.none 0) = some true ∧
    ∃ I, iterator_t env [.cls CV.none 0] = some I ∧ Range env (.cls CV.none 0) = some true ∧
      RandomAccessIterator env I = some true :=
  have c := range_refinement_chain env (.cls CV.none 0)
  have h4 : RandomAccessRange env (.cls CV.none 0) = some true := by rfl
  have h3 := c.1 h4
  have h2 := c.2.1 h3
  have h1 := c.2.2.1 h2
  ⟨h4, h3, h2, h1, c.2.2.2.1 h1, c.2.2.2.2.1.1 h4⟩

/-! ## C3: the category tag gates every level -/

theorem derived_forward_bidirectional (E : Env) :
    DerivedFrom E (tagT .forward) (tagT .bidirectional) = false := by
  simp [DerivedFrom, is_base_of, tagT, IterTag.derives]

/-- C3. An iterator concept of a level holds only if the declared category is
derived from (for the forward level: convertible to) the tag of that level; and
a type that is an input iterator and incrementable and declares
`std::forward_iterator_tag` is a forward iterator and is neither a bidirectional
nor a random access iterator, whichever operations it provides. -/
theorem category_gates_iterator_level (E : Env) (I : CppType) :
    (InputIterator E I = some true →
      DerivedFrom E (detected_t (iterator_category_t E) [I]) (tagT .input) = true) ∧
    (ForwardIterator E I = some true →
      ConvertibleTo E (detected_t (iterator_category_t E) [I]) (tagT .forward) = true) ∧
    (BidirectionalIterator E I = some true →
      DerivedFrom E (detected_t (iterator_category_t E) [I]) (tagT .bidirectional) = true) ∧
    (RandomAccessIterator E I = some true →
      DerivedFrom E (detected_t (iterator_category_t E) [I]) (tagT .random_access) = true) ∧
    (iterator_category_t E [I] = some (tagT .forward) →
      InputIterator E I = some true → Incrementable E I = some true →
      ForwardIterator E I = some true ∧
      BidirectionalIterator E I = some false ∧
      RandomAccessIterator E I = some false) := by
  refine ⟨?_, ?_, ?_, ?_, ?_⟩
  · intro h
    unfold InputIterator at h
    cases hb : Iterator E I <;> cases hc : Readable E I <;> simp_all
  · intro h
    unfold ForwardIterator at h
    cases hb : InputIterator E I <;> cases hc : Incrementable E I <;> simp_all
  · intro h
    unfold BidirectionalIterator at h
    cases hb : ForwardIterator E I <;> simp_all
  · intro h
    unfold RandomAccessIterator at h
    cases hb : BidirectionalIterator E I <;> simp_all
  · intro hcat hin hinc
    have hd := detected_t_some _ _ _ hcat
    have hfw : ForwardIterator E I = some true := by
      unfold ForwardIterator
      simp [hin, hinc, hd, ConvertibleTo, is_convertible, tagT, IterTag.derives, CV.none]
    have hbi : BidirectionalIterator E I = some false := by
      unfold BidirectionalIterator
      simp [hfw, hd, derived_forward_bidirectional]
    refine ⟨hfw, hbi, ?_⟩
    unfold RandomAccessIterator
    simp [hbi]

/-- C3 at class 1 of the concrete program, which has the decrement operators,
the total order and every random access expression, and declares the forward
tag: it is a forward iterator and nothing more. -/
theorem category_gates_iterator_level_witness :
    (is_detected_exact_v (.lref (.cls CV.none 1)) (pre_dec_t env) [.cls CV.none 1] = true ∧
     is_detected_exact_v (.cls CV.none 1) (post_dec_t env) [.cls CV.none 1] = true ∧
     StrictTotallyOrdered env (.cls CV.none 1) = true ∧
     is_detected_v (random_access_iter env) [.cls CV.none 1] = true) ∧
    iterator_category_t env [.cls CV.none 1] = some (tagT .forward) ∧
    ForwardIterator env (.cls CV.none 1) = some true ∧
    BidirectionalIterator env (.cls CV.none 1) = some false ∧
    RandomAccessIterator env (.cls CV.none 1) = some false ∧
    ConvertibleTo env (detected_t (iterator_category_t env) [.cls CV.none 1])
      (tagT .forward) = true :=
  have c := category_gates_iterator_level env (.cls CV.none 1)
  have h := c.2.2.2.2 (by rfl) (by rfl) (by rfl)
  ⟨⟨by rfl, by rfl, by rfl, by rfl⟩, by rfl, h.1, h.2.1, h.2.2, c.2.1 h.1⟩

/-! ## C4: the type of the subscript -/

/-- C4, the code at a failing input.  Class 2 of the concrete program has a
subscript of type `int` and a dereference of type `int&`; the two differ, and
the class satisfies `RandomAccessIterator`: in `random_access_iter_ops` the
constant `Same<decltype(j[n]), reference_t<I>>` is the last operand of a comma
expression whose type alone is taken, so its value is never required to be
true. -/
theorem random_access_subscript_unchecked :
    expr env .subscript [.lref (.cls CV.const 2), .lref (add_const ptrdiff_t)] = some intT ∧
    reference_t env [.cls CV.none 2] = some (.lref intT) ∧
    Same intT (.lref intT) = false ∧
    is_detected_v (random_access_iter env) [.cls CV.none 2] = true ∧
    RandomAccessIterator env (.cls CV.none 2) = some true :=
  ⟨by rfl, by rfl, by rfl, by rfl, by rfl⟩

/-! ## C5: a missing element type stops the compilation -/

/-- Without an element type the five concepts cannot be instantiated. -/
theorem indirect_concepts_need_value_type (E : Env) (F I I2 Out : CppType)
    (h : value_type_t E [I] = none) :
    IndirectUnaryCallable E F I = none ∧
    IndirectUnaryPredicate E F I = none ∧
    IndirectRelation E F I I2 = none ∧
    IndirectStrictWeakOrder E F I I2 = none ∧
    IndirectlyCopyableStorable E I Out = none := by
  refine ⟨?_, ?_, ?_, ?_, ?_⟩
  · unfold IndirectUnaryCallable
    cases Readable E I <;> simp [h]
  · unfold IndirectUnaryPredicate
    cases Readable E I <;> simp [h]
  · unfold IndirectRelation
    cases Readable E I <;> cases Readable E I2 <;> simp [h]
  · unfold IndirectStrictWeakOrder
    cases Readable E I <;> cases Readable E I2 <;> simp [h]
  · unfold IndirectlyCopyableStorable
    cases IndirectlyCopyable E I Out <;> simp [h]

/-- C5, the code at a failing input.  The empty class 3 of the concrete program
has no element type and is not readable; the five concepts evaluated on it are
not `false`: their initializers name `value_type_t<I>` outside the detector and
do not compile. -/
theorem indirect_concepts_ill_formed :
    value_type_t env [.cls CV.none 3] = none ∧
    Readable env (.cls CV.none 3) = some false ∧
    IndirectUnaryCallable env (.cls CV.none 4) (.cls CV.none 3) = none ∧
    IndirectUnaryPredicate env (.cls CV.none 4) (.cls CV.none 3) = none ∧
    IndirectRelation env (.cls CV.none 4) (.cls CV.none 3) int_ptr = none ∧
    IndirectStrictWeakOrder env (.cls CV.none 4) (.cls CV.none 3) int_ptr = none ∧
    IndirectlyCopyableStorable env (.cls CV.none 3) int_ptr = none :=
  ⟨by rfl, by rfl,
   indirect_concepts_need_value_type env (.cls CV.none 4) (.cls CV.none 3) int_ptr int_ptr
     (by rfl)⟩

/-! ## C6: the detector is total -/

theorem difference_type_unqualified_defined (E : Env) (T : CppType)
    (hm : expr E .minus [add_lvalue_reference (add_const T),
      add_lvalue_reference (add_const T)] = none) :
    difference_type_unqualified E T ≠ .ill_formed := by
  cases T with
  | pointer q U =>
      simp only [difference_type_unqualified]
      split_ifs <;> simp
  | _ =>
      simp only [difference_type_unqualified, hm]
      split_ifs <;> simp

theorem expr_nonesuch_minus (E : Env) :
    expr E .minus [add_lvalue_reference (add_const nonesuchT),
      add_lvalue_reference (add_const nonesuchT)] = none := by
  simp [expr, no_operation, referred, nonesuchT, add_const, map_cv, add_lvalue_reference,
    remove_reference]

theorem difference_type_nonesuch (E : Env) : difference_type E nonesuchT ≠ .ill_formed := by
  have h := difference_type_unqualified_defined E nonesuchT (expr_nonesuch_minus E)
  have hc : is_const nonesuchT = false := by rfl
  simpa [difference_type, hc] using h

theorem Iterator_nonesuch_false (E : Env) : Iterator E nonesuchT = some false := by
  have hd : is_detected_v (deref_t E) [nonesuchT] = false := by
    simp [is_detected_v_eq, deref_t, unary_op_t, by_value_nonesuch]
  have hi := difference_type_nonesuch E
  unfold Iterator
  rw [WeaklyIncrementable_eq E nonesuchT (by rfl)]
  cases hdt : difference_type E nonesuchT with
  | ill_formed => exact absurd hdt hi
  | absent => simp [hd, Trait.instantiate]
  | type T => simp [hd, Trait.instantiate]

theorem member_decay_remove_const (E : Env) (name : MemberName) (T : CppType)
    (h : is_const T = true) : member E name (decay (remove_const T)) = member E name T := by
  cases T <;> simp_all [is_const, cv, CV.none, member, decay, remove_const, remove_reference,
    remove_cv, map_cv]

/-- C7. The object concepts are the stated compositions: `Movable` is object
type, move constructible, `T&` assignable from `T`, and swappable; `Copyable` is
copy constructible, movable and `T&` assignable from `const T&`; `Semiregular`
is copyable and default constructible; `Regular` is semiregular and equality
comparable.  Hence regular implies semiregular implies copyable implies
movable. -/
theorem object_concepts_compose (E : Env) (T : CppType) :
    (Movable E T = true ↔
      is_object T = true ∧ MoveConstructible E T = true ∧
      Assignable E (add_lvalue_reference T) T = true ∧ Swappable E T = true) ∧
    (Copyable E T = true ↔
      CopyConstructible E T = true ∧ Movable E T = true ∧
      Assignable E (add_lvalue_reference T) (add_lvalue_reference (add_const T)) = true) ∧
    (Semiregular E T = true ↔ Copyable E T = true ∧ DefaultConstructible E T = true) ∧
    (Regular E T = true ↔ Semiregular E T = true ∧ EqualityComparible E T = true) ∧
    (Regular E T = true → Semiregular E T = true) ∧
    (Semiregular E T = true → Copyable E T = true) ∧
    (Copyable E T = true → Movable E T = true) := by
  refine ⟨?_, ?_, ?_, ?_, ?_, ?_, ?_⟩
  · simp [Movable, and_assoc]
  · simp [Copyable, and_assoc]
  · simp [Semiregular]
  · simp [Regular]
  · intro h; simp [Regular] at h; exact h.1
  · intro h; simp [Semiregular] at h; exact h.1
  · intro h; simp [Copyable] at h; exact h.1.2

/-- C7 at `int*` in the concrete program: it is regular, hence semiregular,
copyable and movable, with every component of `Movable`. -/
theorem object_concepts_compose_witness :
    Regular env int_ptr = true ∧ Semiregular env int_ptr = true ∧
    Copyable env int_ptr = true ∧ Movable env int_ptr = true ∧
    (is_object int_ptr = true ∧ MoveConstructible env int_ptr = true ∧
      Assignable env (add_lvalue_reference int_ptr) int_ptr = true ∧
      Swappable env int_ptr = true) :=
  have c := object_concepts_compose env int_ptr
  have h3 : Regular env int_ptr = true := by rfl
  have h2 := c.2.2.2.2.1 h3
  have h1 := c.2.2.2.2.2.1 h2
  have h0 := c.2.2.2.2.2.2 h1
  ⟨h3, h2, h1, h0, c.1.1 h0⟩

/-! ## C8: the cross-type comparison concepts are symmetric -/

theorem WeaklyComparibleWith_comm (E : Env) (A B : CppType) :
    WeaklyComparibleWith E A B = WeaklyComparibleWith E B A := by
  unfold WeaklyComparibleWith
  generalize Boolean E (detected_t (equal_to_t E) [A, B]) = a
  generalize Boolean E (detected_t (not_equal_to_t E) [A, B]) = b
  generalize Boolean E (detected_t (equal_to_t E) [B, A]) = c
  generalize Boolean E (detected_t (not_equal_to_t E) [B, A]) = d
  cases a <;> cases b <;> cases c <;> cases d <;> rfl

theorem EqualityComparibleWith_comm (E : Env) (A B : CppType) :
    EqualityComparibleWith E A B = EqualityComparibleWith E B A := by
  unfold EqualityComparibleWith
  rw [WeaklyComparibleWith_comm E A B]
  generalize EqualityComparible E A = a
  generalize EqualityComparible E B = b
  cases a <;> cases b <;> rfl

/-- C8. The cross-type comparison concepts do not depend on the order of their
two type arguments, and each requires its operators to be well-formed with a
result convertible to `bool` in both operand orders. -/
theorem cross_type_comparison_symmetric (E : Env) (A B : CppType) :
    WeaklyComparibleWith E A B = WeaklyComparibleWith E B A ∧
    EqualityComparibleWith E A B = EqualityComparibleWith E B A ∧
    StrictTotallyOrderedWith E A B = StrictTotallyOrderedWith E B A ∧
    (WeaklyComparibleWith E A B = true →
      (∃ T, equal_to_t E [A, B] = some T ∧ Boolean E T = true) ∧
      (∃ T, not_equal_to_t E [A, B] = some T ∧ Boolean E T = true) ∧
      (∃ T, equal_to_t E [B, A] = some T ∧ Boolean E T = true) ∧
      (∃ T, not_equal_to_t E [B, A] = some T ∧ Boolean E T = true)) ∧
    (EqualityComparibleWith E A B = true → WeaklyComparibleWith E A B = true) ∧
    (StrictTotallyOrderedWith E A B = true →
      EqualityComparibleWith E A B = true ∧
      (∃ T, less_than_t E [A, B] = some T ∧ Boolean E T = true) ∧
      (∃ T, less_than_eq_t E [A, B] = some T ∧ Boolean E T = true) ∧
      (∃ T, greater_than_t E [A, B] = some T ∧ Boolean E T = true) ∧
      (∃ T, greater_than_eq_t E [A, B] = some T ∧ Boolean E T = true) ∧
      (∃ T, less_than_t E [B, A] = some T ∧ Boolean E T = true) ∧
      (∃ T, less_than_eq_t E [B, A] = some T ∧ Boolean E T = true) ∧
      (∃ T, greater_than_t E [B, A] = some T ∧ Boolean E T = true) ∧
      (∃ T, greater_than_eq_t E [B, A] = some T ∧ Boolean E T = true)) := by
  refine ⟨WeaklyComparibleWith_comm E A B, EqualityComparibleWith_comm E A B, ?_, ?_, ?_, ?_⟩
  · unfold StrictTotallyOrderedWith
    rw [EqualityComparibleWith_comm E A B]
    generalize StrictTotallyOrdered E A = a
    generalize StrictTotallyOrdered E B = b
    generalize EqualityComparibleWith E B A = c
    generalize Boolean E (detected_t (less_than_t E) [A, B]) = d1
    generalize Boolean E (detected_t (less_than_eq_t E) [A, B]) = d2
    generalize Boolean E (detected_t (greater_than_t E) [A, B]) = d3
    generalize Boolean E (detected_t (greater_than_eq_t E) [A, B]) = d4
    generalize Boolean E (detected_t (less_than_t E) [B, A]) = e1
    generalize Boolean E (detected_t (less_than_eq_t E) [B, A]) = e2
    generalize Boolean E (detected_t (greater_than_t E) [B, A]) = e3
    generalize Boolean E (detected_t (greater_than_eq_t E) [B, A]) = e4
    cases a <;> cases b <;> cases c <;> cases d1 <;> cases d2 <;> cases d3 <;> cases d4 <;>
      cases e1 <;> cases e2 <;> cases e3 <;> cases e4 <;> rfl
  · intro h
    simp only [WeaklyComparibleWith, Bool.and_eq_true] at h
    exact ⟨detected_of_Boolean E _ _ h.1.1.1, detected_of_Boolean E _ _ h.1.1.2,
      detected_of_Boolean E _ _ h.1.2, detected_of_Boolean E _ _ h.2⟩
  · intro h
    simp only [EqualityComparibleWith, Bool.and_eq_true] at h
    exact h.2
  · intro h
    simp only [StrictTotallyOrderedWith, Bool.and_eq_true] at h
    obtain ⟨⟨⟨⟨⟨⟨⟨⟨⟨⟨_, _⟩, h3⟩, h4⟩, h5⟩, h6⟩, h7⟩, h8⟩, h9⟩, h10⟩, h11⟩ := h
    exact ⟨h3, detected_of_Boolean E _ _ h4, detected_of_Boolean E _ _ h5,
      detected_of_Boolean E _ _ h6, detected_of_Boolean E _ _ h7,
      detected_of_Boolean E _ _ h8, detected_of_Boolean E _ _ h9,
      detected_of_Boolean E _ _ h10, detected_of_Boolean E _ _ h11⟩

/-- C8 at `int` and `std::ptrdiff_t` in the concrete program: the concepts hold
in both orders and the operators are detected in both orders. -/
theorem cross_type_comparison_symmetric_witness :
    StrictTotallyOrderedWith env intT ptrdiff_t = true ∧
    StrictTotallyOrderedWith env ptrdiff_t intT = true ∧
    WeaklyComparibleWith env intT ptrdiff_t = true ∧
    ((∃ T, equal_to_t env [intT, ptrdiff_t] = some T ∧ Boolean env T = true) ∧
      (∃ T, not_equal_to_t env [intT, ptrdiff_t] = some T ∧ Boolean env T = true) ∧
      (∃ T, equal_to_t env [ptrdiff_t, intT] = some T ∧ Boolean env T = true) ∧
      (∃ T, not_equal_to_t env [ptrdiff_t, intT] = some T ∧ Boolean env T = true)) ∧
    (∃ T, less_than_t env [ptrdiff_t, intT] = some T ∧ Boolean env T = true) :=
  have c := cross_type_comparison_symmetric env intT ptrdiff_t
  have h : StrictTotallyOrderedWith env intT ptrdiff_t = true := by rfl
  have hw := c.2.2.2.2.1 (c.2.2.2.2.2 h).1
  ⟨h, c.2.2.1 ▸ h, hw, c.2.2.2.1 hw, (c.2.2.2.2.2 h).2.2.2.2.2.1⟩

/-! ## C9: indirect predicates check the element type and the reference type -/

/-- A cursor whose element type resolves can be asked whether it is readable. -/
theorem readable_defined (E : Env) (I V : CppType) (h : value_type_t E [I] = some V) :
    ∃ b, Readable E I = some b := by
  rw [Readable_eq]
  unfold value_type_t at h
  cases hv : value_type E I with
  | ill_formed => simp [hv, Trait.type?] at h
  | absent => simp [hv, Trait.type?] at h
  | type T => simp [Trait.instantiate]

/-- C9. `IndirectUnaryPredicate<F, I>` holds only if `F&` is a predicate on
(an lvalue of) the element type of `I` and on its reference type;
`IndirectRelation<F, I1, I2>` and `IndirectStrictWeakOrder<F, I1, I2>` hold only
if `F&` is a relation for the four pairings of element and reference type of
the two cursors; and when the element and reference types resolve and `F&`
fails one of these checks, the concept is false. -/
theorem indirect_predicates_check_value_and_reference (E : Env) (F I1 I2 : CppType) :
    (IndirectUnaryPredicate E F I1 = some true →
      ∃ V R, value_type_t E [I1] = some V ∧ reference_t E [I1] = some R ∧
        Predicate E (add_lvalue_reference F) [add_lvalue_reference V] = true ∧
        Predicate E (add_lvalue_reference F) [R] = true) ∧
    (IndirectRelation E F I1 I2 = some true →
      ∃ V1 V2 R1 R2, value_type_t E [I1] = some V1 ∧ value_type_t E [I2] = some V2 ∧
        reference_t E [I1] = some R1 ∧ reference_t E [I2] = some R2 ∧
        Relation E (add_lvalue_reference F) (add_lvalue_reference V1)
          (add_lvalue_reference V2) = true ∧
        Relation E (add_lvalue_reference F) (add_lvalue_reference V1) R2 = true ∧
        Relation E (add_lvalue_reference F) R1 (add_lvalue_reference V2) = true ∧
        Relation E (add_lvalue_reference F) R1 R2 = true) ∧
    (IndirectStrictWeakOrder E F I1 I2 = some true →
      ∃ V1 V2 R1 R2, value_type_t E [I1] = some V1 ∧ value_type_t E [I2] = some V2 ∧
        reference_t E [I1] = some R1 ∧ reference_t E [I2] = some R2 ∧
        StrictWeakOrder E (add_lvalue_reference F) (add_lvalue_reference V1)
          (add_lvalue_reference V2) = true ∧
        StrictWeakOrder E (add_lvalue_reference F) (add_lvalue_reference V1) R2 = true ∧
        StrictWeakOrder E (add_lvalue_reference F) R1 (add_lvalue_reference V2) = true ∧
        StrictWeakOrder E (add_lvalue_reference F) R1 R2 = true) ∧
    (∀ V R, value_type_t E [I1] = some V → reference_t E [I1] = some R →
      (Predicate E (add_lvalue_reference F) [add_lvalue_reference V] = false ∨
        Predicate E (add_lvalue_reference F) [R] = false) →
      IndirectUnaryPredicate E F I1 = some false) ∧
    (∀ V1 V2 R1 R2, value_type_t E [I1] = some V1 → value_type_t E [I2] = some V2 →
      reference_t E [I1] = some R1 → reference_t E [I2] = some R2 →
      (Relation E (add_lvalue_reference F) (add_lvalue_reference V1)
          (add_lvalue_reference V2) = false ∨
        Relation E (add_lvalue_reference F) (add_lvalue_reference V1) R2 = false ∨
        Relation E (add_lvalue_reference F) R1 (add_lvalue_reference V2) = false ∨
        Relation E (add_lvalue_reference F) R1 R2 = false) →
      IndirectRelation E F I1 I2 = some false ∧
      IndirectStrictWeakOrder E F I1 I2 = some false) := by
  refine ⟨?_, ?_, ?_, ?_, ?_⟩
  · intro h
    unfold IndirectUnaryPredicate at h
    cases hr : Readable E I1 <;> cases hv : value_type_t E [I1] <;>
      cases hf : reference_t E [I1] <;> simp_all
  · intro h
    unfold IndirectRelation at h
    cases hr1 : Readable E I1 <;> cases hr2 : Readable E I2 <;>
      cases hv1 : value_type_t E [I1] <;> cases hv2 : value_type_t E [I2] <;>
      cases hf1 : reference_t E [I1] <;> cases hf2 : reference_t E [I2] <;> simp_all
  · intro h
    unfold IndirectStrictWeakOrder at h
    cases hr1 : Readable E I1 <;> cases hr2 : Readable E I2 <;>
      cases hv1 : value_type_t E [I1] <;> cases hv2 : value_type_t E [I2] <;>
      cases hf1 : reference_t E [I1] <;> cases hf2 : reference_t E [I2] <;> simp_all
  · intro V R hv hf hfail
    obtain ⟨b, hb⟩ := readable_defined E I1 V hv
    unfold IndirectUnaryPredicate
    rcases hfail with h | h <;> simp [hb, hv, hf, h]
  · intro V1 V2 R1 R2 hv1 hv2 hf1 hf2 hfail
    obtain ⟨b1, hb1⟩ := readable_defined E I1 V1 hv1
    obtain ⟨b2, hb2⟩ := readable_defined E I2 V2 hv2
    unfold IndirectRelation IndirectStrictWeakOrder StrictWeakOrder
    rcases hfail with h | h | h | h <;> simp [hb1, hb2, hv1, hv2, hf1, hf2, h]

/-- C9 in the concrete program, for the function object class 4 on `int`: the
relation holds on two `int*` cursors with its four checks, and it is false as
soon as the second cursor is a pointer to the empty class 3, on which the
function object cannot be called. -/
theorem indirect_predicates_check_value_and_reference_witness :
    IndirectRelation env (.cls CV.none 4) int_ptr int_ptr = some true ∧
    (∃ V1 V2 R1 R2, value_type_t env [int_ptr] = some V1 ∧
        value_type_t env [int_ptr] = some V2 ∧
        reference_t env [int_ptr] = some R1 ∧ reference_t env [int_ptr] = some R2 ∧
        Relation env (add_lvalue_reference (.cls CV.none 4)) (add_lvalue_reference V1)
          (add_lvalue_reference V2) = true ∧
        Relation env (add_lvalue_reference (.cls CV.none 4)) (add_lvalue_reference V1) R2
          = true ∧
        Relation env (add_lvalue_reference (.cls CV.none 4)) R1 (add_lvalue_reference V2)
          = true ∧
        Relation env (add_lvalue_reference (.cls CV.none 4)) R1 R2 = true) ∧
    IndirectRelation env (.cls CV.none 4) int_ptr (.pointer CV.none (.cls CV.none 3))
      = some false ∧
    IndirectStrictWeakOrder env (.cls CV.none 4) int_ptr (.pointer CV.none (.cls CV.none 3))
      = some false :=
  have c := indirect_predicates_check_value_and_reference env (.cls CV.none 4) int_ptr int_ptr
  have d := indirect_predicates_check_value_and_reference env (.cls CV.none 4) int_ptr
    (.pointer CV.none (.cls CV.none 3))
  have h : IndirectRelation env (.cls CV.none 4) int_ptr int_ptr = some true := by rfl
  have f := d.2.2.2.2 intT (.cls CV.none 3) (.lref intT) (.lref (.cls CV.none 3))
    (by rfl) (by rfl) (by rfl) (by rfl) (Or.inr (Or.inr (Or.inr (by rfl))))
  ⟨h, c.2.1 h, f.1, f.2⟩

/-! ## C10: the safe result type -/

theorem ne_dangling (I : CppType) (q : CV) : I ≠ .dangling q I := by
  intro h
  have := congrArg sizeOf h
  simp at this

/-- C10. `safe_iterator_t<R>` is `iterator_t<R>` when `R` is an lvalue reference
and `dangling<iterator_t<R>>` otherwise; for one aggregate type `R` the result
for the named aggregate (`R&`) is the cursor type, the result for the temporary
(`R`) is its wrapper, and the two differ.  Every algorithm has its aggregate
overload in the header; `find`, `find_if`, `search` and `min_element` return a
cursor into their first aggregate and declare `safe_iterator_t` of its type,
`mismatch` returns a pair of cursors into its two aggregates and declares the
pair of their `safe_iterator_t`; so do all twenty-five aggregate overloads whose
body returns a cursor (a pair of cursors) into its aggregate parameters: the
return type they declare is `safe_iterator_t` of the types deduced for those
parameters. -/
theorem safe_iterator_selects (E : Env) (R : CppType) :
    (is_lvalue_reference R = true → safe_iterator_t E [R] = iterator_t E [R]) ∧
    (is_lvalue_reference R = false →
      safe_iterator_t E [R] = (iterator_t E [R]).map (CppType.dangling CV.none)) ∧
    (is_reference R = false → ∀ I, iterator_t E [R] = some I →
      safe_iterator_t E [.lref R] = some I ∧
      safe_iterator_t E [R] = some (.dangling CV.none I) ∧
      I ≠ .dangling CV.none I) ∧
    (∀ a : Algorithm, ∃ o ∈ aggregate_overloads, o.name = a) ∧
    (aggregate_overload .find = some ⟨.find, 1, .cursor 0, .safe_iterator_t 0⟩ ∧
      aggregate_overload .find_if = some ⟨.find_if, 1, .cursor 0, .safe_iterator_t 0⟩ ∧
      aggregate_overload .search = some ⟨.search, 2, .cursor 0, .safe_iterator_t 0⟩ ∧
      aggregate_overload .min_element
        = some ⟨.min_element, 1, .cursor 0, .safe_iterator_t 0⟩ ∧
      aggregate_overload .mismatch
        = some ⟨.mismatch, 2, .cursor_pair 0 1, .pair_safe_iterator_t 0 1⟩) ∧
    (aggregate_overloads.filter fun o => decide (o.returned ≠ .other)).length = 25 ∧
    (∀ o ∈ aggregate_overloads,
      (∀ k, o.returned = .cursor k → o.declared = .safe_iterator_t k ∧ k < o.aggregates) ∧
      (∀ k l, o.returned = .cursor_pair k l →
        o.declared = .pair_safe_iterator_t k l ∧ k < o.aggregates ∧ l < o.aggregates)) ∧
    (∀ o ∈ aggregate_overloads, ∀ Ranges : List CppType, Ranges.length = o.aggregates →
      (∀ k, o.returned = .cursor k → ∃ Range, Ranges[k]? = some Range ∧
        o.return_type E Ranges = (safe_iterator_t E [Range]).map fun I => [I]) ∧
      (∀ k l, o.returned = .cursor_pair k l → ∃ Range1 Range2,
        Ranges[k]? = some Range1 ∧ Ranges[l]? = some Range2 ∧
        o.return_type E Ranges = (safe_iterator_t E [Range1]).bind fun I1 =>
          (safe_iterator_t E [Range2]).map fun I2 => [I1, I2])) := by
  have hprot : ∀ o ∈ aggregate_overloads,
      (∀ k, o.returned = .cursor k → o.declared = .safe_iterator_t k ∧ k < o.aggregates) ∧
      (∀ k l, o.returned = .cursor_pair k l →
        o.declared = .pair_safe_iterator_t k l ∧ k < o.aggregates ∧ l < o.aggregates) := by
    intro o ho
    have hp : o.protects = true :=
      (by decide : ∀ o ∈ aggregate_overloads, o.protects = true) o ho
    unfold AggregateOverload.protects at hp
    constructor
    · intro k hk
      simpa [hk] using hp
    · intro k l hk
      simpa [hk, and_assoc] using hp
  refine ⟨?_, ?_, ?_, ?_, ?_, ?_, hprot, ?_⟩
  · intro h
    simp only [safe_iterator_t, h]
    cases iterator_t E [R] <;> simp
  · intro h
    simp only [safe_iterator_t, h]
    cases iterator_t E [R] <;> simp
  · intro hr I hI
    have hnl : is_lvalue_reference R = false := by
      cases R <;> simp_all [is_lvalue_reference, is_reference]
    have hl : iterator_t E [.lref R] = some I := by
      rw [← hI]
      cases R <;> simp_all [iterator_t, declval_lvalue, is_void, add_lvalue_reference,
        is_reference]
    refine ⟨?_, ?_, ne_dangling I _⟩
    · simp [safe_iterator_t, hl, is_lvalue_reference]
    · simp [safe_iterator_t, hI, hnl]
  · intro a
    cases a <;> decide
  · exact ⟨by rfl, by rfl, by rfl, by rfl, by rfl⟩
  · rfl
  · intro o ho Ranges hlen
    obtain ⟨h1, h2⟩ := hprot o ho
    constructor
    · intro k hk
      obtain ⟨hd, hlt⟩ := h1 k hk
      have hk2 : k < Ranges.length := by rw [hlen]; exact hlt
      refine ⟨Ranges[k], List.getElem?_eq_getElem hk2, ?_⟩
      simp only [AggregateOverload.return_type, hd, List.getElem?_eq_getElem hk2,
        Option.bind_eq_bind, Option.some_bind]
      cases safe_iterator_t E [Ranges[k]] <;> rfl
    · intro k l hk
      obtain ⟨hd, hlt1, hlt2⟩ := h2 k l hk
      have hk2 : k < Ranges.length := by rw [hlen]; exact hlt1
      have hl2 : l < Ranges.length := by rw [hlen]; exact hlt2
      refine ⟨Ranges[k], Ranges[l], List.getElem?_eq_getElem hk2,
        List.getElem?_eq_getElem hl2, ?_⟩
      simp only [AggregateOverload.return_type, hd, List.getElem?_eq_getElem hk2,
        List.getElem?_eq_getElem hl2, Option.bind_eq_bind, Option.some_bind]
      cases safe_iterator_t E [Ranges[k]] <;> cases safe_iterator_t E [Ranges[l]] <;> rfl

/-- C10 at the aggregate class 0 of the concrete program, whose cursor type is
`int*`: the named aggregate yields `int*`, the temporary `dangling<int*>`; the
aggregate overload of `find` in the header declares `int*` on the named
aggregate and `dangling<int*>` on the temporary, that of `mismatch` on a named
and a temporary aggregate the pair of `int*` and `dangling<int*>`. -/
theorem safe_iterator_selects_witness :
    safe_iterator_t env [.lref (.cls CV.none 0)] = some int_ptr ∧
    safe_iterator_t env [.cls CV.none 0] = some (.dangling CV.none int_ptr) ∧
    int_ptr ≠ .dangling CV.none int_ptr ∧
    safe_iterator_t env [.lref (.cls CV.none 0)] = iterator_t env [.lref (.cls CV.none 0)] ∧
    aggregate_overload .find = some ⟨.find, 1, .cursor 0, .safe_iterator_t 0⟩ ∧
    ((aggregate_overload .find).bind fun o =>
      o.return_type env [deduce_forwarding (.lref (.cls CV.none 0))]) = some [int_ptr] ∧
    ((aggregate_overload .find).bind fun o =>
      o.return_type env [deduce_forwarding (.cls CV.none 0)])
      = some [.dangling CV.none int_ptr] ∧
    ((aggregate_overload .mismatch).bind fun o =>
      o.return_type env [deduce_forwarding (.lref (.cls CV.none 0)),
        deduce_forwarding (.rref (.cls CV.none 0))])
      = some [int_ptr, .dangling CV.none int_ptr] :=
  have c := safe_iterator_selects env (.cls CV.none 0)
  have d := safe_iterator_selects env (.lref (.cls CV.none 0))
  have h := c.2.2.1 (by rfl) int_ptr (by rfl)
  ⟨h.1, h.2.1, h.2.2, d.1 (by rfl), c.2.2.2.2.1.1, by rfl, by rfl, by rfl⟩

/-! ## C11: wrapping and unwrapping -/

/-- C11. Wrapping then unwrapping is the identity: `dangling<T>(c).get_unsafe()`
returns `c`; `get_unsafe` leaves the wrapper as it was, so a second call returns
the same value; and the wrapper is determined by the one value it holds. -/
theorem dangling_wrap_unwrap {T : Type} (c : T) (d : dangling T) :
    ( dangling.get_unsafe (dangling.mk c)).1 = c ∧
    ( dangling.get_unsafe d).2 = d ∧
    ( dangling.get_unsafe ( dangling.get_unsafe d).2).1 = ( dangling.get_unsafe d).1 ∧
    d = dangling.mk ( dangling.get_unsafe d).1 :=
  ⟨rfl, rfl, rfl, rfl⟩

/-! ## C12: the wrapper is no cursor -/

theorem cv_remove_cv (T : CppType) : cv (remove_cv T) = CV.none := by
  induction T <;> simp_all [remove_cv, map_cv, cv]

theorem is_object_map_cv (f : CV → CV) (T : CppType) :
    is_object (map_cv f T) = is_object T := by
  cases T <;> simp [map_cv, is_object]

theorem by_value_dangling (E : Env) (q : CV) (T t : CppType)
    (h : by_value E (.dangling q T) = some t) : t = .lref (.dangling CV.none T) := by
  unfold by_value at h
  simp [decay, remove_reference, remove_cv, map_cv, is_void] at h
  exact h.2.symm

theorem expr_dangling (E : Env) (k : ExprKind) (hs : k ≠ .swap) (ha : k ≠ .assign)
    (operands : List CppType) (hne : operands ≠ [])
    (hall : ∀ o ∈ operands, ∃ q T, referred o = .dangling q T) :
    expr E k operands = none := by
  unfold expr
  have : operands.all (no_operation k) = true := by
    rw [List.all_eq_true]
    intro o ho
    obtain ⟨q, T, h⟩ := hall o ho
    simp [no_operation, h, hs, ha]
  simp [this, hne]

theorem value_type_dangling (E : Env) (q : CV) (T : CppType) :
    value_type E (.dangling q T) = .absent := by
  have hc : (is_array (.dangling q T) || is_detected_v (member_value_type_t E) [.dangling q T]
      || is_detected_v (member_element_type_t E) [.dangling q T]) = false := by
    simp [is_array, is_detected_v_eq, member_value_type_t, member_element_type_t, member]
  unfold value_type
  rw [hc]
  simp only [Bool.false_eq_true, if_false]
  split_ifs <;>
    simp [value_type_unqualified, decay, remove_const, remove_reference, remove_cv, map_cv,
      is_detected_v_eq, member_value_type_t, member_element_type_t, member]

theorem difference_type_dangling (E : Env) (q : CV) (T : CppType) :
    difference_type E (.dangling q T) = .absent := by
  have hm : ∀ q', expr E .minus [add_lvalue_reference (add_const (.dangling q' T)),
      add_lvalue_reference (add_const (.dangling q' T))] = none := by
    intro q'
    apply expr_dangling E .minus (by decide) (by decide) _ (by simp)
    intro o ho
    simp at ho
    subst ho
    exact ⟨_, T, rfl⟩
  have hs : difference_type_structural E (.dangling q T) = false := by
    simp [difference_type_structural, hm q]
  unfold difference_type
  rw [hs]
  simp only [Bool.false_eq_true, if_false]
  split_ifs <;>
    simp [difference_type_unqualified, decay, remove_const, remove_reference, remove_cv,
      map_cv, is_detected_v_eq, member_difference_type_t, member]
  · rw [hm CV.none]
  · rw [hm q]

/-- C12. The wrapper `dangling<T>` exposes no dereference, comparison or
arithmetic: it satisfies none of `EqualityComparible`, `Readable`,
`WeaklyIncrementable` and `Iterator`, and no expression on wrappers is
well-formed other than the implicit assignment and the generic `std::swap`. -/
theorem dangling_is_no_cursor (E : Env) (q : CV) (T : CppType) :
    EqualityComparible E (.dangling q T) = false ∧
    Readable E (.dangling q T) = some false ∧
    WeaklyIncrementable E (.dangling q T) = some false ∧
    Iterator E (.dangling q T) = some false ∧
    (∀ k operands, k ≠ ExprKind.swap → k ≠ ExprKind.assign → operands ≠ [] →
      (∀ o ∈ operands, ∃ q' T', referred o = CppType.dangling q' T') →
      expr E k operands = none) := by
  have hun : ∀ k, k ≠ ExprKind.swap → k ≠ ExprKind.assign →
      unary_op_t E k [.dangling q T] = none := by
    intro k hs ha
    simp only [unary_op_t]
    cases hb : by_value E (.dangling q T) with
    | none => rfl
    | some t =>
        rw [by_value_dangling E q T t hb]
        exact expr_dangling E k hs ha _ (by simp) (by simp [referred, remove_reference])
  have hbin : binary_op_t E .eq [.dangling q T, .dangling q T] = none := by
    simp only [binary_op_t]
    cases hb : by_value E (.dangling q T) with
    | none => rfl
    | some t =>
        rw [by_value_dangling E q T t hb]
        show expr E .eq [.lref (.dangling CV.none T), .lref (.dangling CV.none T)] = none
        exact expr_dangling E .eq (by decide) (by decide) _ (by simp)
          (by simp [referred, remove_reference])
  have hw : WeaklyIncrementable E (.dangling q T) = some false := by
    rw [WeaklyIncrementable_eq E (.dangling q T) (by rfl)]
    simp [difference_type_dangling, Trait.instantiate, is_detected_v_eq, difference_type_t,
      Trait.type?]
  refine ⟨?_, ?_, hw, ?_, ?_⟩
  · simp [EqualityComparible, WeaklyComparibleWith, equal_to_t, detected_t_none _ _ hbin,
      Boolean_nonesuch]
  · rw [Readable_eq]
    simp [value_type_dangling, Trait.instantiate, is_detected_v_eq, value_type_t, Trait.type?]
  · unfold Iterator
    simp [hw]
  · intro k operands hs ha hne hall
    exact expr_dangling E k hs ha operands hne hall

/-- C12 at `dangling<int*>` in the concrete program: none of the four concepts
holds and the dereference of the wrapper is ill-formed. -/
theorem dangling_is_no_cursor_witness :
    EqualityComparible env (.dangling CV.none int_ptr) = false ∧
    Readable env (.dangling CV.none int_ptr) = some false ∧
    WeaklyIncrementable env (.dangling CV.none int_ptr) = some false ∧
    Iterator env (.dangling CV.none int_ptr) = some false ∧
    NanoRange.expr env .deref [.lref (.dangling CV.none int_ptr)] = none ∧
    Iterator env int_ptr = some true :=
  have c := dangling_is_no_cursor env CV.none int_ptr
  ⟨c.1, c.2.1, c.2.2.1, c.2.2.2.1,
   c.2.2.2.2 .deref [.lref (.dangling CV.none int_ptr)] (by decide) (by decide) (by simp)
     (by simp [referred, remove_reference]),
   by rfl⟩

/-! ## C13: nested declarations and structural inference -/

/-- A nested declaration wins over structural inference: a nested
`difference_type` on a class with any qualification, a nested `value_type` alone
on a class that is not `const`. -/
theorem nested_declaration_wins (E : Env) (q : CV) (n : Nat) :
    (∀ D, E.member .difference_type n = some D →
      difference_type_t E [.cls q n] = some D) ∧
    (∀ V, q.c = false → E.member .value_type n = some V → is_object V = true →
      E.member .element_type n = none → value_type_t E [.cls q n] = some V) := by
  constructor
  · intro D hD
    have hs : difference_type_structural E (.cls q n) = false := by
      simp [difference_type_structural, is_detected_v_eq, member_difference_type_t, member, hD]
    simp only [difference_type_t, difference_type, hs, Bool.false_eq_true, if_false]
    split_ifs <;>
      simp [difference_type_unqualified, decay, remove_const, remove_reference, remove_cv,
        map_cv, is_detected_v_eq, member_difference_type_t, member, hD, Trait.type?,
        detected_t_some]
  · intro V hq hV ho he
    have hc : is_const (.cls q n) = false := hq
    simp only [value_type_t, value_type, hc, Bool.false_eq_true, if_false]
    simp [value_type_unqualified, is_detected_v_eq, member_value_type_t,
      member_element_type_t, member, hV, he, ho, Trait.type?, detected_t, Op.detector]

/-- C13, the code at a failing input.  Class 6 of the second program declares
both `value_type` and `element_type` (as `int`): two specializations of
`value_type<T>` match and neither is more specialized, so the trait cannot be
instantiated and `value_type_t` is not `int`; `Readable` does not compile either.
The part of the claim on `difference_type` holds: class 1 declares it as `int`,
its subtraction yields `std::ptrdiff_t`, and `difference_type_t` is `int`. -/
theorem nested_value_type_ambiguous :
    env2.member .value_type 6 = some intT ∧ is_object intT = true ∧
    env2.member .element_type 6 = some intT ∧
    value_type env2 (.cls CV.none 6) = .ill_formed ∧
    value_type_t env2 [.cls CV.none 6] = none ∧
    Readable env2 (.cls CV.none 6) = none ∧
    env2.member .difference_type 1 = some intT ∧
    expr env2 .minus [.lref (.cls CV.const 1), .lref (.cls CV.const 1)] = some ptrdiff_t ∧
    difference_type_t env2 [.cls CV.none 1] = some intT :=
  ⟨by rfl, by rfl, by rfl, by rfl, by rfl, by rfl, by rfl, by rfl, by rfl⟩

/-! ## C14: const-qualified types -/

theorem cv_const_fix (q : CV) (h : q.c = true) : (⟨true, q.v⟩ : CV) = q := by
  cases q; simp_all

theorem cv_unconst_fix (q : CV) (h : q.c = false) : (⟨false, q.v⟩ : CV) = q := by
  cases q; simp_all

theorem add_const_of_is_const (T : CppType) (h : is_const T = true) : add_const T = T := by
  induction T with
  | array U n ih =>
      simp only [is_const, cv] at h
      simp only [add_const, map_cv]
      exact congrArg (fun X => CppType.array X n) (ih h)
  | lref U _ => rfl
  | rref U _ => rfl
  | _ => simp_all [is_const, cv, add_const, map_cv, cv_const_fix]

theorem add_const_of_is_reference (T : CppType) (h : is_reference T = true) :
    add_const T = T := by
  cases T <;> simp_all [is_reference, add_const, map_cv]

theorem is_const_add_const (T : CppType) :
    is_const (add_const T) = true ∨ add_const T = T := by
  induction T with
  | array U n ih =>
      rcases ih with h | h
      · left; simpa [is_const, cv, add_const, map_cv] using h
      · right
        simp only [add_const, map_cv]
        exact congrArg (fun X => CppType.array X n) h
  | lref U _ => right; rfl
  | rref U _ => right; rfl
  | _ => left; simp [is_const, cv, add_const, map_cv]

theorem remove_const_add_const (T : CppType) (h : is_const T = false) :
    remove_const (add_const T) = T := by
  induction T with
  | array U n ih =>
      simp only [is_const, cv] at h
      simp only [add_const, remove_const, map_cv]
      exact congrArg (fun X => CppType.array X n) (ih h)
  | lref U _ => rfl
  | rref U _ => rfl
  | _ => simp_all [is_const, cv, add_const, remove_const, map_cv, cv_unconst_fix]

theorem is_array_add_const (T : CppType) : is_array (add_const T) = is_array T := by
  cases T <;> simp [is_array, add_const, map_cv]

theorem member_add_const (E : Env) (name : MemberName) (T : CppType) :
    member E name (add_const T) = member E name T := by
  cases T <;> simp [member, add_const, map_cv]

theorem cv_eq_none (q : CV) (hc : q.c = false) (hv : q.v = false) : q = CV.none := by
  cases q; simp_all [CV.none]

/-- An unqualified type that is neither an array nor a reference decays to
itself. -/
theorem decay_plain (T : CppType) (hc : (cv T).c = false) (hv : (cv T).v = false)
    (ha : is_array T = false) (hr : is_reference T = false) : decay T = T := by
  cases T with
  | array U n => simp [is_array] at ha
  | lref U => simp [is_reference] at hr
  | rref U => simp [is_reference] at hr
  | _ =>
      simp only [cv] at hc hv
      obtain rfl := cv_eq_none _ hc hv
      rfl

/-- Where the specialization for `const I` is the only one to match `const T`,
it forwards as intended: the element type of `const T` is that of `T` when `T`
is neither an array nor a class with a nested `value_type` or `element_type`
(nor a `volatile` pointer), and the distance type of `const T` is that of `T`
when `const T` does not meet the structural condition (and `T` is neither
`volatile` nor an array). -/
theorem const_forwards_alike (E : Env) (T : CppType) :
    ((∀ U, T ≠ .pointer ⟨false, true⟩ U) → is_array T = false →
      is_detected_v (member_value_type_t E) [T] = false →
      is_detected_v (member_element_type_t E) [T] = false →
      value_type E (add_const T) = value_type E T) ∧
    ((cv T).v = false → is_array T = false →
      difference_type_structural E (add_const T) = false →
      difference_type E (add_const T) = difference_type E T) := by
  by_cases hc : is_const T = true
  · rw [add_const_of_is_const T hc]
    exact ⟨fun _ _ _ _ => rfl, fun _ _ _ => rfl⟩
  rcases is_const_add_const T with h | h
  swap
  · rw [h]
    exact ⟨fun _ _ _ _ => rfl, fun _ _ _ => rfl⟩
  simp only [Bool.not_eq_true] at hc
  refine ⟨?_, ?_⟩
  · intro hp ha hv he
    have hamb : (is_array (add_const T) || is_detected_v (member_value_type_t E) [add_const T]
        || is_detected_v (member_element_type_t E) [add_const T]) = false := by
      rw [is_detected_v_eq] at hv he ⊢
      rw [is_detected_v_eq]
      simp only [member_value_type_t, member_element_type_t, member_add_const,
        is_array_add_const] at hv he ⊢
      simp [ha, hv, he]
    simp only [value_type, h, hc, hamb, remove_const_add_const T hc, if_true,
      Bool.false_eq_true, if_false]
    cases T with
    | pointer q U =>
        have hq : q = CV.none := by
          cases q with
          | mk c v =>
              cases v with
              | true =>
                  simp [is_const, cv] at hc
                  subst hc
                  exact absurd rfl (hp U)
              | false =>
                  simp [is_const, cv] at hc
                  subst hc
                  rfl
        subst hq
        rfl
    | array U n => simp [is_array] at ha
    | lref U => simp [is_const, cv, add_const, map_cv, CV.none] at h
    | rref U => simp [is_const, cv, add_const, map_cv, CV.none] at h
    | _ => rfl
  · intro hv ha hs
    have hr : is_reference T = false := by
      cases T <;> simp_all [is_reference, is_const, cv, add_const, map_cv, CV.none]
    simp only [difference_type, h, hc, hs, remove_const_add_const T hc, if_true,
      Bool.false_eq_true, if_false]
    rw [decay_plain T hc hv ha hr]

/-- The forwarding at `int*` and at class 3 of the concrete program (no nested
name): the traits of the `const` type are those of the type. -/
theorem const_forwards_alike_witness :
    value_type env (add_const int_ptr) = value_type env int_ptr ∧
    value_type env int_ptr = .type intT ∧
    difference_type env (add_const int_ptr) = difference_type env int_ptr ∧
    difference_type env int_ptr = .type ptrdiff_t ∧
    value_type env (add_const (.cls CV.none 3)) = value_type env (.cls CV.none 3) ∧
    difference_type env (add_const (.cls CV.none 1)) = difference_type env (.cls CV.none 1) ∧
    difference_type env (.cls CV.none 1) = .type ptrdiff_t :=
  have c := const_forwards_alike env int_ptr
  have d := const_forwards_alike env (.cls CV.none 1)
  have e := const_forwards_alike env (.cls CV.none 3)
  ⟨c.1 (by intro U h; cases h) (by rfl) (by rfl) (by rfl), by rfl,
   c.2 (by rfl) (by rfl) (by rfl), by rfl,
   e.1 (by intro U h; cases h) (by rfl) (by rfl) (by rfl),
   d.2 (by rfl) (by rfl) (by rfl), by rfl⟩

/-- The specialization for `const I` forwards to `decay_t<I>`, which drops
`volatile` too: `int* volatile` has no element type and no distance type, while
`int* const volatile` has both. -/
theorem const_volatile_pointer_forwards :
    value_type_t env [.pointer ⟨false, true⟩ intT] = none ∧
    value_type_t env [add_const (.pointer ⟨false, true⟩ intT)] = some intT ∧
    difference_type_t env [.pointer ⟨false, true⟩ intT] = none ∧
    difference_type_t env [add_const (.pointer ⟨false, true⟩ intT)] = some ptrdiff_t :=
  ⟨by rfl, by rfl, by rfl, by rfl⟩

/-- C14, the code at failing inputs.  The specialization for `const I` is there
to make `const T` resolve as `T` does, and against the specializations guarded
by `enable_if_t` it is not more specialized.  Class 1 of the concrete program
declares a nested `value_type` of `int`: the element type of the class is `int`
and instantiating `value_type` on the `const` class is ambiguous, so that
`value_type_t` names nothing and `Readable` does not compile.  The same holds
for the array `const int[3]` against `int[3]`, and for the distance type of
`const int` against that of `int`, on which `WeaklyIncrementable` does not
compile.  The forwarding is reached where no guarded specialization matches: on
`int* const`, and for the distance type of the `const` class 1, whose nested
`difference_type` is guarded by `void_t`. -/
theorem const_specialization_ambiguous :
    (value_type env (.cls CV.none 1) = .type intT ∧
      value_type env (add_const (.cls CV.none 1)) = .ill_formed ∧
      value_type_t env [add_const (.cls CV.none 1)] = none ∧
      Alias.value_type_t env [add_const (.cls CV.none 1)] = .ill_formed ∧
      Readable env (.cls CV.none 1) = some true ∧
      Readable env (add_const (.cls CV.none 1)) = none) ∧
    (value_type env (.array intT 3) = .type intT ∧
      value_type env (add_const (.array intT 3)) = .ill_formed) ∧
    (difference_type env intT = .type intT ∧
      difference_type env (add_const intT) = .ill_formed ∧
      difference_type_t env [add_const intT] = none ∧
      WeaklyIncrementable env (add_const intT) = none) ∧
    (value_type env (add_const int_ptr) = .type intT ∧
      difference_type env (add_const int_ptr) = .type ptrdiff_t ∧
      difference_type env (add_const (.cls CV.none 1)) = .type ptrdiff_t) :=
  ⟨⟨by rfl, by rfl, by rfl, by rfl, by rfl, by rfl⟩, ⟨by rfl, by rfl⟩,
   ⟨by rfl, by rfl, by rfl, by rfl⟩, ⟨by rfl, by rfl, by rfl⟩⟩

/-! ## C15: the resolved element type -/

theorem value_type_unqualified_shape (E : Env) (T V : CppType)
    (h : value_type_unqualified E T = .type V) :
    is_object V = true ∧ (cv V = CV.none ∨ member E .value_type T = some V) := by
  cases T with
  | pointer q U =>
      simp only [value_type_unqualified, value_type_pointer] at h
      split_ifs at h <;> simp at h
      subst h
      exact ⟨by rw [remove_cv, is_object_map_cv]; assumption, Or.inl (cv_remove_cv U)⟩
  | array U n =>
      simp only [value_type_unqualified, value_type_pointer] at h
      split_ifs at h <;> simp at h
      subst h
      exact ⟨by rw [remove_cv, is_object_map_cv]; assumption, Or.inl (cv_remove_cv U)⟩
  | cls q n =>
      simp only [value_type_unqualified, is_detected_v_eq, member_value_type_t,
        member_element_type_t, member, detected_t, Op.detector] at h
      cases hv : E.member .value_type n with
      | none =>
          cases he : E.member .element_type n with
          | none => simp [hv, he] at h
          | some e =>
              simp only [hv, he, Option.isSome] at h
              split_ifs at h with ho
              · injection h with h
                subst h
                exact ⟨by rw [remove_cv, is_object_map_cv]; exact ho,
                  Or.inl (cv_remove_cv _)⟩
      | some v =>
          cases he : E.member .element_type n with
          | none =>
              simp only [hv, he, Option.isSome] at h
              split_ifs at h with ho
              · injection h with h
                subst h
                exact ⟨ho, Or.inr (by simp [member, hv])⟩
          | some e => simp [hv, he] at h
  | _ =>
      simp [value_type_unqualified, is_detected_v_eq, member_value_type_t,
        member_element_type_t, member] at h

/-- A resolved element type is an object type; it is unqualified unless it is
the nested `value_type` of a class, which is taken as declared. -/
theorem value_type_resolved_shape (E : Env) (T V : CppType)
    (h : value_type_t E [T] = some V) :
    is_object V = true ∧ is_reference V = false ∧ is_void V = false ∧
    (cv V = CV.none ∨ member E .value_type T = some V) := by
  have key : is_object V = true ∧ (cv V = CV.none ∨ member E .value_type T = some V) := by
    simp only [value_type_t, value_type] at h
    split_ifs at h with hc hamb
    · simp [Trait.type?] at h
    · cases hu : value_type_unqualified E (decay (remove_const T)) with
      | type W =>
          rw [hu] at h
          simp only [Trait.type?, Option.some.injEq] at h
          subst h
          have := value_type_unqualified_shape E _ _ hu
          rw [member_decay_remove_const E _ T hc] at this
          exact this
      | ill_formed => rw [hu] at h; simp [Trait.type?] at h
      | absent => rw [hu] at h; simp [Trait.type?] at h
    · cases hu : value_type_unqualified E T with
      | type W =>
          rw [hu] at h
          simp only [Trait.type?, Option.some.injEq] at h
          subst h
          exact value_type_unqualified_shape E _ _ hu
      | ill_formed => rw [hu] at h; simp [Trait.type?] at h
      | absent => rw [hu] at h; simp [Trait.type?] at h
  refine ⟨key.1, ?_, ?_, key.2⟩
  · cases V <;> simp_all [is_object, is_reference]
  · cases V <;> simp_all [is_object, is_void]

/-- C15, the code at a failing input.  Class 7 of the second program declares
`value_type` as `const int`, and `value_type_t` is `const int`: the
specialization for a nested `value_type` does not apply `remove_cv_t`.  The
sibling paths do: a nested `element_type` of `const int` (class 8) and a pointer
to `const int` both resolve to `int`. -/
theorem nested_value_type_keeps_const :
    env2.member .value_type 7 = some (.integral CV.const true 2) ∧
    value_type_t env2 [.cls CV.none 7] = some (.integral CV.const true 2) ∧
    is_const (.integral CV.const true 2) = true ∧
    env2.member .element_type 8 = some (.integral CV.const true 2) ∧
    value_type_t env2 [.cls CV.none 8] = some intT ∧
    value_type_t env2 [.pointer CV.none (.integral CV.const true 2)] = some intT :=
  ⟨by rfl, by rfl, by rfl, by rfl, by rfl, by rfl⟩

/-! ## C16: what a range is -/

/-- C16. `Range<T>` holds exactly when `begin` and `end` are both well-formed on
`T&`, yield the same cursor type, and that type satisfies `Iterator`; it is false
for a type with no `begin`, also when there is no `end` either and both detected
types are the marker `nonesuch`. -/
theorem range_iff_begin_end (E : Env) (T : CppType) :
    (Range E T = some true ↔
      ∃ I, iterator_t E [T] = some I ∧ sentinel_t E [T] = some I ∧
        Iterator E I = some true) ∧
    (iterator_t E [T] = none → Range E T = some false) ∧
    (iterator_t E [T] = none → sentinel_t E [T] = none →
      Same (detected_t (iterator_t E) [T]) (detected_t (sentinel_t E) [T]) = true ∧
      Range E T = some false) := by
  have hnone : iterator_t E [T] = none → Range E T = some false := by
    intro hb
    unfold Range
    rw [detected_t_none _ _ hb, Iterator_nonesuch_false]
    rfl
  refine ⟨?_, hnone, ?_⟩
  · constructor
    · intro h
      obtain ⟨I, hI, hd⟩ := begin_of_range E T h
      unfold Range at h
      rw [hd] at h
      cases hit : Iterator E I with
      | none => simp [hit] at h
      | some b =>
          simp only [hit, Option.pure_def, Option.bind_eq_bind, Option.some_bind,
            Option.some.injEq, Bool.and_eq_true, Same, decide_eq_true_eq] at h
          obtain ⟨hb, hs⟩ := h
          subst hb
          refine ⟨I, hI, ?_, hit⟩
          cases he : sentinel_t E [T] with
          | none =>
              rw [detected_t_none _ _ he] at hs
              subst hs
              exact absurd hit (Iterator_nonesuch E)
          | some J =>
              rw [detected_t_some _ _ J he] at hs
              rw [hs]
    · rintro ⟨I, hI, hS, hit⟩
      unfold Range
      simp [detected_t_some _ _ I hI, detected_t_some _ _ I hS, hit, Same]
  · intro hb he
    exact ⟨by simp [detected_t_none _ _ hb, detected_t_none _ _ he, Same], hnone hb⟩

/-- C16 in the concrete program: class 0 (`begin` and `end` yield `int*`) is a
range; the empty class 3 is not, though both its accessors collapse to
`nonesuch`; class 5, whose `end` yields another type than its `begin`, is not. -/
theorem range_iff_begin_end_witness :
    Range env (.cls CV.none 0) = some true ∧
    (∃ I, iterator_t env [.cls CV.none 0] = some I ∧ sentinel_t env [.cls CV.none 0] = some I ∧
      Iterator env I = some true) ∧
    (Same (detected_t (iterator_t env) [.cls CV.none 3])
        (detected_t (sentinel_t env) [.cls CV.none 3]) = true ∧
      Range env (.cls CV.none 3) = some false) ∧
    iterator_t env [.cls CV.none 5] = some int_ptr ∧
    sentinel_t env [.cls CV.none 5] = some (.cls CV.none 2) ∧
    Range env (.cls CV.none 5) = some false :=
  have c := range_iff_begin_end env (.cls CV.none 0)
  have d := range_iff_begin_end env (.cls CV.none 3)
  have h : Range env (.cls CV.none 0) = some true := by rfl
  ⟨h, c.1.1 h, d.2.2 (by rfl) (by rfl), by rfl, by rfl, by rfl⟩

/-! ## C17: mismatch -/

theorem between_all {α : Type} (R : List α) : between R (adl_begin R) (adl_end R) = R := by
  simp [between, adl_begin, adl_end]

theorem between_length {α : Type} (s : List α) (first last : Nat)
    (h2 : last ≤ s.length) : (between s first last).length = last - first := by
  simp [between, List.length_drop, List.length_take, Nat.min_eq_left h2]

theorem position_to_safe_iterator {T : Type} (named : Bool) (c : T) :
    (to_safe_iterator named c).position = c := by
  cases named <;> rfl

theorem common_prefix_spec {α β : Type} (pred : α → β → Bool) (A : List α) (B : List β) :
    LongestCommonPrefix pred A B (common_prefix_length pred A B) := by
  unfold LongestCommonPrefix
  induction A generalizing B with
  | nil => simp [common_prefix_length]
  | cons a as ih =>
      cases B with
      | nil => simp [common_prefix_length]
      | cons b bs =>
          obtain ⟨h2, h3, h4⟩ := ih bs
          by_cases hp : pred a b = true
          · simp only [common_prefix_length, hp, if_true]
            refine ⟨by simpa using h2, ?_, ?_⟩
            · intro i hi
              cases i with
              | zero => exact ⟨a, b, by simp, by simp, hp⟩
              | succ j => simpa using h3 j (by omega)
            · rcases h4 with h | h
              · left
                simp only [h, List.length_cons]
                omega
              · right; simpa using h
          · simp only [common_prefix_length, hp]
            simp
            exact Or.inr (by simpa using hp)

/-- The longest common prefix is unique. -/
theorem longest_common_prefix_unique {α β : Type} (pred : α → β → Bool) (A : List α)
    (B : List β) (k m : Nat) (hk : LongestCommonPrefix pred A B k)
    (hm : LongestCommonPrefix pred A B m) : k = m := by
  obtain ⟨k1, k2, k3⟩ := hk
  obtain ⟨m1, m2, m3⟩ := hm
  rcases Nat.lt_trichotomy k m with h | h | h
  · exfalso
    obtain ⟨a, b, ha, hb, hp⟩ := m2 k h
    rcases k3 with h3 | ⟨a', b', ha', hb', hp'⟩
    · omega
    · rw [ha] at ha'; rw [hb] at hb'
      simp only [Option.some.injEq] at ha' hb'
      subst ha' hb'
      rw [hp] at hp'
      cases hp'
  · exact h
  · exfalso
    obtain ⟨a, b, ha, hb, hp⟩ := k2 m h
    rcases m3 with h3 | ⟨a', b', ha', hb', hp'⟩
    · omega
    · rw [ha] at ha'; rw [hb] at hb'
      simp only [Option.some.injEq] at ha' hb'
      subst ha' hb'
      rw [hp] at hp'
      cases hp'

/-- C17. The explicit-length `mismatch` returns both cursors advanced by `k`, the
length of the longest common prefix of the two sequences under `pred`, in the
four-cursor form and in the two-aggregate form (there the positions are `(k, k)`,
wrapped or not); `k` is the only number with the three properties. -/
theorem mismatch_longest_common_prefix {α β : Type} (pred : α → β → Bool)
    (s1 : List α) (first1 last1 : Nat) (s2 : List β) (first2 last2 : Nat)
    (named1 named2 : Bool) :
    (∃ k, mismatch s1 first1 last1 s2 first2 last2 pred = (first1 + k, first2 + k) ∧
      LongestCommonPrefix pred (between s1 first1 last1) (between s2 first2 last2) k) ∧
    (∃ k, ((Aggregate.mismatch named1 named2 s1 s2 pred).1.position,
        (Aggregate.mismatch named1 named2 s1 s2 pred).2.position) = (k, k) ∧
      LongestCommonPrefix pred s1 s2 k) ∧
    (∀ k m, LongestCommonPrefix pred s1 s2 k → LongestCommonPrefix pred s1 s2 m → k = m) := by
  refine ⟨⟨_, rfl, common_prefix_spec pred _ _⟩, ⟨common_prefix_length pred s1 s2, ?_, ?_⟩,
    fun k m => longest_common_prefix_unique pred s1 s2 k m⟩
  · simp only [Aggregate.mismatch, std_mismatch, position_to_safe_iterator, between_all]
    simp [adl_begin]
  · exact common_prefix_spec pred s1 s2

/-- C17 on the sequences of the test: `[0,1,2,2,0,1,2,3]` against
`[0,1,2,3,0,1,2,3]` gives `(3, 3)`, against its first two elements `(2, 2)`. -/
theorem mismatch_longest_common_prefix_witness :
    mismatch [0, 1, 2, 2, 0, 1, 2, 3] 0 8 [0, 1, 2, 3, 0, 1, 2, 3] 0 8
      (equal_to : Int → Int → Bool) = (3, 3) ∧
    mismatch [0, 1, 2, 2, 0, 1, 2, 3] 0 8 [0, 1, 2, 3, 0, 1, 2, 3] 0 2
      (equal_to : Int → Int → Bool) = (2, 2) ∧
    ((Aggregate.mismatch true false [0, 1, 2, 2, 0, 1, 2, 3] [0, 1, 2, 3, 0, 1, 2, 3]
        (equal_to : Int → Int → Bool)).1.position,
      (Aggregate.mismatch true false [0, 1, 2, 2, 0, 1, 2, 3] [0, 1, 2, 3, 0, 1, 2, 3]
        (equal_to : Int → Int → Bool)).2.position) = (3, 3) ∧
    LongestCommonPrefix (equal_to : Int → Int → Bool) [0, 1, 2, 2, 0, 1, 2, 3]
      [0, 1, 2, 3, 0, 1, 2, 3] 3 := by
  have c := mismatch_longest_common_prefix (equal_to : Int → Int → Bool)
    [0, 1, 2, 2, 0, 1, 2, 3] 0 8 [0, 1, 2, 3, 0, 1, 2, 3] 0 8 true false
  obtain ⟨k, hk, hl⟩ := c.2.1
  have h3 : ((Aggregate.mismatch true false [0, 1, 2, 2, 0, 1, 2, 3] [0, 1, 2, 3, 0, 1, 2, 3]
        (equal_to : Int → Int → Bool)).1.position,
      (Aggregate.mismatch true false [0, 1, 2, 2, 0, 1, 2, 3] [0, 1, 2, 3, 0, 1, 2, 3]
        (equal_to : Int → Int → Bool)).2.position) = (3, 3) := by decide
  have hk3 : k = 3 := by
    rw [h3] at hk
    exact (Prod.mk.inj hk).1.symm
  subst hk3
  exact ⟨by decide, by decide, h3, hl⟩

/-! ## C18: equal -/

theorem all_match_iff {α β : Type} (pred : α → β → Bool) (A : List α) (B : List β) :
    all_match pred A B = true ↔ Pointwise pred A B := by
  unfold Pointwise
  induction A generalizing B with
  | nil => cases B <;> simp [all_match]
  | cons a as ih =>
      cases B with
      | nil => simp [all_match]
      | cons b bs =>
          simp only [all_match, Bool.and_eq_true, ih bs, List.length_cons,
            Nat.add_right_cancel_iff]
          constructor
          · rintro ⟨hp, hl, hall⟩
            refine ⟨hl, ?_⟩
            intro i hi
            cases i with
            | zero => exact ⟨a, b, by simp, by simp, hp⟩
            | succ j => simpa using hall j (by omega)
          · rintro ⟨hl, hall⟩
            refine ⟨?_, hl, ?_⟩
            · simpa using hall 0 (by omega)
            · intro i hi
              simpa using hall (i + 1) (by omega)

theorem pointwise_refl {α : Type} [DecidableEq α] (A : List α) :
    Pointwise (equal_to : α → α → Bool) A A := by
  refine ⟨rfl, ?_⟩
  intro i hi
  exact ⟨A[i], A[i], by simp [hi], by simp [hi], by simp [equal_to]⟩

/-- What the two explicit-length overloads of `equal` return when they are
called: true exactly when the two sequences have the same length and `pred`
holds at every position, in the four-cursor form and in the two-aggregate form;
a sequence equals itself under the default equality, and never equals a proper
prefix of itself, whatever the relation. -/
theorem equal_iff_pointwise {α β : Type} [DecidableEq α] (pred : α → β → Bool)
    (s1 : List α) (first1 last1 : Nat) (s2 : List β) (first2 last2 : Nat) :
    (equal s1 first1 last1 s2 first2 last2 pred = true ↔
      Pointwise pred (between s1 first1 last1) (between s2 first2 last2)) ∧
    (Aggregate.equal s1 s2 pred = true ↔ Pointwise pred s1 s2) ∧
    Aggregate.equal s1 s1 equal_to = true ∧
    equal s1 (adl_begin s1) (adl_end s1) s1 (adl_begin s1) (adl_end s1) equal_to = true ∧
    (∀ (r : α → α → Bool) (C : List α), C ≠ [] →
      Aggregate.equal (s1 ++ C) s1 r = false ∧
      equal (s1 ++ C) 0 (s1 ++ C).length (s1 ++ C) 0 s1.length r = false) := by
  have hagg : ∀ {γ δ : Type} (p : γ → δ → Bool) (A : List γ) (B : List δ),
      Aggregate.equal A B p = all_match p A B := by
    intro γ δ p A B
    simp only [Aggregate.equal, std_equal, between_all]
  refine ⟨all_match_iff pred _ _, ?_, ?_, ?_, ?_⟩
  · rw [hagg]; exact all_match_iff pred _ _
  · rw [hagg]; exact (all_match_iff _ _ _).2 (pointwise_refl s1)
  · simp only [equal, std_equal, between_all]
    exact (all_match_iff _ _ _).2 (pointwise_refl s1)
  · intro r C hC
    have hlen : (s1 ++ C).length ≠ s1.length := by
      have : 0 < C.length := List.length_pos.2 hC
      simp only [List.length_append]
      omega
    constructor
    · rw [hagg]
      cases h : all_match r (s1 ++ C) s1 with
      | false => rfl
      | true => exact absurd ((all_match_iff _ _ _).1 h).1 hlen
    · simp only [equal, std_equal]
      cases h : all_match r (between (s1 ++ C) 0 (s1 ++ C).length)
          (between (s1 ++ C) 0 s1.length) with
      | false => rfl
      | true =>
          have hl := ((all_match_iff _ _ _).1 h).1
          rw [between_length _ 0 _ (le_refl _),
            between_length _ 0 s1.length (by simp)] at hl
          exact absurd hl hlen

/-- The two overloads on the sequences of the test, `A = [0,1,2,3,4,5]` and
`B = [0,1,2,5,4,5]`: `equal(A, A)` is true, `equal(A, B)` is false, and `A`
against `A` without its last element is false. -/
theorem equal_iff_pointwise_witness :
    Aggregate.equal [0, 1, 2, 3, 4, 5] [0, 1, 2, 3, 4, 5] (equal_to : Int → Int → Bool) = true ∧
    Aggregate.equal [0, 1, 2, 3, 4, 5] [0, 1, 2, 5, 4, 5] (equal_to : Int → Int → Bool) = false ∧
    equal [0, 1, 2, 3, 4, 5] 0 6 [0, 1, 2, 5, 4, 5] 0 6 (equal_to : Int → Int → Bool) = false ∧
    equal [0, 1, 2, 3, 4, 5] 0 6 [0, 1, 2, 3, 4, 5] 0 5 (equal_to : Int → Int → Bool) = false ∧
    Aggregate.equal ([0, 1, 2, 3, 4] ++ [5]) [0, 1, 2, 3, 4] (equal_to : Int → Int → Bool)
      = false ∧
    Pointwise (equal_to : Int → Int → Bool) [0, 1, 2, 3, 4, 5] [0, 1, 2, 3, 4, 5] :=
  have c := equal_iff_pointwise (equal_to : Int → Int → Bool) [0, 1, 2, 3, 4, 5] 0 6
    [0, 1, 2, 3, 4, 5] 0 6
  have d := equal_iff_pointwise (equal_to : Int → Int → Bool) [0, 1, 2, 3, 4] 0 5
    [0, 1, 2, 3, 4] 0 5
  ⟨c.2.2.1, by decide, by decide, by decide, (d.2.2.2.2 equal_to [5] (by simp)).1,
   c.2.1.1 c.2.2.1⟩

/-- C18, the code at a failing input.  On two aggregates of one type, class 0 of
the concrete program with cursors `int*`, and a predicate of class 4, the
aggregate overload meets its requirement and its body returns what the claim
says, true on `A = [0,1,2,3,4,5]` against itself and false against
`B = [0,1,2,5,4,5]`; the call `equal(A, B, pred)` does not compile.  Its three
arguments also fit the deprecated `equal(first1, last1, first2)`, with the
aggregate type as `Iter1` and the type of the predicate as `Iter2`, whose
requirement names `value_type_t` of the predicate type in the initializer of
`IndirectRelation`, outside the detector.  The call compiles where the
deprecated overload is not deduced: without a predicate, on two aggregates of
different types (classes 0 and 9 of the third program), and on four cursors
and a predicate. -/
theorem equal_with_predicate_ill_formed :
    (Aggregate.equal_requires env (.lref (.cls CV.none 0)) (.lref (.cls CV.none 0))
        (.cls CV.none 4) = some true ∧
      Aggregate.equal [0, 1, 2, 3, 4, 5] [0, 1, 2, 3, 4, 5] (equal_to : Int → Int → Bool)
        = true ∧
      Aggregate.equal [0, 1, 2, 3, 4, 5] [0, 1, 2, 5, 4, 5] (equal_to : Int → Int → Bool)
        = false) ∧
    (value_type_t env [.cls CV.none 4] = none ∧
      IndirectlyComparable env (.cls CV.none 0) (.cls CV.none 4) (.cls CV.none 4) = none ∧
      Deprecated.equal_requires env (.cls CV.none 0) (.cls CV.none 4) (.cls CV.none 4)
        = none) ∧
    (equal_candidates env (.cls CV.none 4)
        [.lref (.cls CV.none 0), .lref (.cls CV.none 0), .cls CV.none 4] = none ∧
      Call.equal env (.cls CV.none 4) (.lref (.cls CV.none 0)) (.lref (.cls CV.none 0))
        (.cls CV.none 4) [0, 1, 2, 3, 4, 5] [0, 1, 2, 3, 4, 5] (equal_to : Int → Int → Bool)
        = none ∧
      Call.equal env (.cls CV.none 4) (.lref (.cls CV.none 0)) (.lref (.cls CV.none 0))
        (.cls CV.none 4) [0, 1, 2, 3, 4, 5] [0, 1, 2, 5, 4, 5] (equal_to : Int → Int → Bool)
        = none) ∧
    (equal_candidates env (.cls CV.none 4) [.lref (.cls CV.none 0), .lref (.cls CV.none 0)]
        = some [.aggregate] ∧
      equal_candidates env3 (.cls CV.none 4)
        [.lref (.cls CV.none 0), .lref (.cls CV.none 9), .cls CV.none 4] = some [.aggregate] ∧
      Call.equal env3 (.cls CV.none 4) (.lref (.cls CV.none 0)) (.lref (.cls CV.none 9))
        (.cls CV.none 4) [0, 1, 2, 3, 4, 5] [0, 1, 2, 5, 4, 5] (equal_to : Int → Int → Bool)
        = some false ∧
      equal_candidates env (.cls CV.none 4) [int_ptr, int_ptr, int_ptr, int_ptr, .cls CV.none 4]
        = some [.cursors]) :=
  ⟨⟨by rfl, by decide, by decide⟩, ⟨by rfl, by rfl, by rfl⟩, ⟨by rfl, by rfl, by rfl⟩,
   ⟨by rfl, by rfl, by rfl, by rfl⟩⟩

/-! ## C19: find -/

theorem first_match_spec {α β : Type} (eq : α → β → Bool) (A : List α) (v : β) :
    FirstMatch eq A v (first_match eq A v) := by
  unfold FirstMatch
  induction A with
  | nil => simp [first_match]
  | cons a as ih =>
      obtain ⟨h1, h2, h3, h4⟩ := ih
      by_cases hp : eq a v = true
      · simp [first_match, hp]
      · simp only [first_match, hp, List.length_cons]
        simp only [Bool.not_eq_true] at hp
        refine ⟨by simpa using h1, ?_, ?_, ?_⟩
        · intro h
          simpa using h2 (by simpa using h)
        · intro i hi
          cases i with
          | zero => exact ⟨a, by simp, hp⟩
          | succ j => simpa using h3 j (by simpa using hi)
        · simp [h4, hp]

/-- C19. The algorithm `find` returns the first position whose element equals the
value, or the end position when no element does, in the cursor-pair form (for a
valid cursor pair) and in the aggregate form. -/
theorem find_first_match {α β : Type} (eq : α → β → Bool) (s : List α)
    (first last : Nat) (value : β) (named : Bool)
    (hfirst : first ≤ last) (hlast : last ≤ s.length) :
    (∃ r, find s first last value eq = first + r ∧
      FirstMatch eq (between s first last) value r ∧
      (find s first last value eq = last ↔ ∀ a ∈ between s first last, eq a value = false)) ∧
    (∃ r, (Aggregate.find named s value eq).position = r ∧
      FirstMatch eq s value r ∧
      ((Aggregate.find named s value eq).position = adl_end s ↔
        ∀ a ∈ s, eq a value = false)) := by
  constructor
  · refine ⟨_, rfl, first_match_spec eq _ value, ?_⟩
    have h := (first_match_spec eq (between s first last) value).2.2.2
    rw [between_length s first last hlast] at h
    rw [← h]
    simp only [find, std_find]
    omega
  · refine ⟨_, rfl, ?_, ?_⟩
    · simp only [Aggregate.find, position_to_safe_iterator, std_find, between_all]
      simpa [adl_begin] using first_match_spec eq s value
    · simp only [Aggregate.find, position_to_safe_iterator, std_find, between_all]
      simpa [adl_begin, adl_end] using (first_match_spec eq s value).2.2.2

/-- C19 on the sequence of the test: in `[0,1,2,3,4,5]`, `find 3` returns
position 3 and `find 10` returns the end position. -/
theorem find_first_match_witness :
    find [0, 1, 2, 3, 4, 5] 0 6 (3 : Int) (equal_to : Int → Int → Bool) = 3 ∧
    find [0, 1, 2, 3, 4, 5] 0 6 (10 : Int) (equal_to : Int → Int → Bool) = 6 ∧
    (Aggregate.find false [0, 1, 2, 3, 4, 5] (3 : Int)
      (equal_to : Int → Int → Bool)).position = 3 ∧
    (∀ a ∈ between [0, 1, 2, 3, 4, 5] 0 6, (equal_to : Int → Int → Bool) a 10 = false) :=
  have c := find_first_match (equal_to : Int → Int → Bool) [0, 1, 2, 3, 4, 5] 0 6 10 false
    (by decide) (by decide)
  have h : find [0, 1, 2, 3, 4, 5] 0 6 (10 : Int) (equal_to : Int → Int → Bool) = 6 := by
    decide
  ⟨by decide, h, by decide, c.1.choose_spec.2.2.1 h⟩

/-! ## C20: search -/

theorem matches_at_iff {α β : Type} (pred : α → β → Bool) (A : List α) (B : List β) :
    matches_at pred A B = true ↔ OccursAt pred A B 0 := by
  induction A generalizing B with
  | nil => cases B <;> simp [matches_at, OccursAt]
  | cons a as ih =>
      cases B with
      | nil => simp [matches_at, OccursAt]
      | cons b bs =>
          simp only [matches_at, Bool.and_eq_true, ih bs, OccursAt, Nat.zero_add,
            List.length_cons, Nat.add_le_add_iff_right]
          constructor
          · rintro ⟨hp, hl, hall⟩
            refine ⟨hl, ?_⟩
            intro j hj
            cases j with
            | zero => exact ⟨a, b, by simp, by simp, hp⟩
            | succ j => simpa using hall j (by omega)
          · rintro ⟨hl, hall⟩
            refine ⟨?_, hl, ?_⟩
            · simpa using hall 0 (by omega)
            · intro j hj
              simpa using hall (j + 1) (by omega)

theorem occurs_at_succ {α β : Type} (pred : α → β → Bool) (a : α) (A : List α) (B : List β)
    (i : Nat) : OccursAt pred (a :: A) B (i + 1) ↔ OccursAt pred A B i := by
  have idx : ∀ j, (a :: A)[i + 1 + j]? = A[i + j]? := by
    intro j
    rw [show i + 1 + j = (i + j) + 1 by omega]
    simp
  simp only [OccursAt, List.length_cons, idx]
  constructor <;> rintro ⟨hl, hall⟩ <;> exact ⟨by omega, hall⟩

theorem first_occurrence_scan {α β : Type} (pred : α → β → Bool) (A : List α) (B : List β) :
    first_occurrence pred A B ≤ A.length ∧
    (∀ i, i < first_occurrence pred A B → ¬ OccursAt pred A B i) ∧
    (OccursAt pred A B (first_occurrence pred A B) ∨
      (first_occurrence pred A B = A.length ∧ ∀ i, ¬ OccursAt pred A B i)) := by
  induction A with
  | nil =>
      refine ⟨by simp [first_occurrence], by simp [first_occurrence], ?_⟩
      cases B with
      | nil => left; simp [first_occurrence, OccursAt]
      | cons b bs =>
          right
          refine ⟨by simp [first_occurrence], ?_⟩
          intro i h
          have := h.1
          simp at this
  | cons a as ih =>
      obtain ⟨h1, h2, h3⟩ := ih
      by_cases hm : matches_at pred (a :: as) B = true
      · simp only [first_occurrence, hm, if_true]
        exact ⟨by simp, by simp, Or.inl ((matches_at_iff pred _ _).1 hm)⟩
      · simp only [first_occurrence, hm]
        have h0 : ¬ OccursAt pred (a :: as) B 0 := fun h => hm ((matches_at_iff pred _ _).2 h)
        refine ⟨by simpa using h1, ?_, ?_⟩
        · intro i hi
          cases i with
          | zero => exact h0
          | succ j =>
              rw [occurs_at_succ]
              exact h2 j (by simpa using hi)
        · rcases h3 with h | ⟨h, hno⟩
          · left
            simpa [occurs_at_succ] using h
          · right
            refine ⟨by simp [h], ?_⟩
            intro i
            cases i with
            | zero => exact h0
            | succ j =>
                rw [occurs_at_succ]
                exact hno j

theorem first_occurrence_spec {α β : Type} (pred : α → β → Bool) (A : List α) (B : List β) :
    FirstOccurrence pred A B (first_occurrence pred A B) := by
  obtain ⟨h1, h2, h3⟩ := first_occurrence_scan pred A B
  refine ⟨h1, ?_, ?_⟩
  · rintro ⟨i, hi⟩
    rcases h3 with h | ⟨_, hno⟩
    · refine ⟨h, ?_⟩
      intro j hj
      by_contra hlt
      exact h2 j (by omega) hj
    · exact absurd hi (hno i)
  · intro hno
    rcases h3 with h | ⟨h, _⟩
    · exact absurd ⟨_, h⟩ hno
    · exact h

theorem first_occurrence_nil {α β : Type} (pred : α → β → Bool) (A : List α) :
    first_occurrence pred A ([] : List β) = 0 := by
  cases A <;> simp [first_occurrence, matches_at]

/-- C20. The algorithm `search` returns the least position at which the second
sequence occurs in the first under `pred`, or the end of the first sequence when
it occurs nowhere, and the start when the second sequence is empty; in the
four-cursor form (positions counted from `first1`) and in the two-aggregate
form. -/
theorem search_first_occurrence {α β : Type} (pred : α → β → Bool)
    (s1 : List α) (first1 last1 : Nat) (s2 : List β) (first2 last2 : Nat) (named1 : Bool) :
    (∃ r, search s1 first1 last1 s2 first2 last2 pred = first1 + r ∧
      FirstOccurrence pred (between s1 first1 last1) (between s2 first2 last2) r) ∧
    (∃ r, (Aggregate.search named1 s1 s2 pred).position = r ∧
      FirstOccurrence pred s1 s2 r) ∧
    (between s2 first2 last2 = [] → search s1 first1 last1 s2 first2 last2 pred = first1) ∧
    (s2 = [] → (Aggregate.search named1 s1 s2 pred).position = adl_begin s1) := by
  have hagg : (Aggregate.search named1 s1 s2 pred).position = first_occurrence pred s1 s2 := by
    simp only [Aggregate.search, position_to_safe_iterator, std_search, between_all]
    simp [adl_begin]
  refine ⟨⟨_, rfl, first_occurrence_spec pred _ _⟩, ⟨_, hagg, first_occurrence_spec pred _ _⟩,
    ?_, ?_⟩
  · intro h
    simp [search, std_search, h, first_occurrence_nil]
  · intro h
    rw [hagg, h, first_occurrence_nil]
    rfl

/-- C20 on the sequences of the scenario: `[2,3]` is found in `[0,1,2,3,4,5]` at
position 2, in both forms; `[3,2]` occurs nowhere and the end is returned. -/
theorem search_first_occurrence_witness :
    search [0, 1, 2, 3, 4, 5] 0 6 [2, 3] 0 2 (equal_to : Int → Int → Bool) = 2 ∧
    (Aggregate.search true [0, 1, 2, 3, 4, 5] [2, 3]
      (equal_to : Int → Int → Bool)).position = 2 ∧
    search [0, 1, 2, 3, 4, 5] 0 6 [3, 2] 0 2 (equal_to : Int → Int → Bool) = 6 ∧
    search [0, 1, 2, 3, 4, 5] 0 6 ([] : List Int) 0 0 (equal_to : Int → Int → Bool) = 0 ∧
    FirstOccurrence (equal_to : Int → Int → Bool) [0, 1, 2, 3, 4, 5] [2, 3] 2 := by
  have c := search_first_occurrence (equal_to : Int → Int → Bool) [0, 1, 2, 3, 4, 5] 0 6
    [2, 3] 0 2 true
  obtain ⟨r, hr, hspec⟩ := c.2.1
  have h2 : (Aggregate.search true [0, 1, 2, 3, 4, 5] [2, 3]
      (equal_to : Int → Int → Bool)).position = 2 := by decide
  rw [h2] at hr
  subst hr
  exact ⟨by decide, h2, by decide, by decide, hspec⟩

/-! ## C21: min_element -/

theorem min_scan_spec {α : Type} (comp : α → α → Bool) (h : IsStrictWeakOrder comp) :
    ∀ (as pre : List α) (best : α) (at_ : Nat),
      pre[at_]? = some best → (∀ x ∈ pre, comp x best = false) →
      ∃ m, (pre ++ as)[min_scan comp best at_ pre.length as]? = some m ∧
        ∀ x ∈ pre ++ as, comp x m = false := by
  intro as
  induction as with
  | nil =>
      intro pre best at_ hb hmin
      exact ⟨best, by simpa [min_scan] using hb, by simpa using hmin⟩
  | cons a as ih =>
      intro pre best at_ hb hmin
      have hlen : (pre ++ [a]).length = pre.length + 1 := by simp
      have happ : pre ++ a :: as = (pre ++ [a]) ++ as := by simp
      by_cases hc : comp a best = true
      · simp only [min_scan, hc, if_true]
        rw [happ, ← hlen]
        apply ih
        · simp
        · intro x hx
          rcases List.mem_append.1 hx with hx | hx
          · cases hxa : comp x a with
            | false => rfl
            | true =>
                have := h.2.1 x a best hxa hc
                rw [hmin x hx] at this
                cases this
          · simp only [List.mem_singleton] at hx
            subst hx
            exact h.1 x
      · simp only [Bool.not_eq_true] at hc
        simp only [min_scan, hc, Bool.false_eq_true, if_false]
        rw [happ, ← hlen]
        apply ih
        · rw [List.getElem?_append_left]
          · exact hb
          · exact (List.getElem?_eq_some.1 hb).1
        · intro x hx
          rcases List.mem_append.1 hx with hx | hx
          · exact hmin x hx
          · simp only [List.mem_singleton] at hx
            subst hx
            exact hc

theorem std_min_element_spec {α : Type} (comp : α → α → Bool) (h : IsStrictWeakOrder comp)
    (s : List α) (first last : Nat) (hlast : last ≤ s.length) (hfirst : first ≤ last) :
    first ≤ std_min_element s first last comp ∧
    MinimalAt comp (between s first last) (std_min_element s first last comp - first) := by
  unfold std_min_element
  cases hA : between s first last with
  | nil =>
      have hl := between_length s first last hlast
      rw [hA] at hl
      simp only [List.length_nil] at hl
      refine ⟨hfirst, fun _ => ?_, fun hne => absurd rfl hne⟩
      simp only [List.length_nil]
      omega
  | cons a as =>
      obtain ⟨m, hm, hmin⟩ := min_scan_spec comp h as [a] a 0 (by simp)
        (by intro x hx; simp only [List.mem_singleton] at hx; subst hx; exact h.1 x)
      refine ⟨Nat.le_add_right _ _, fun hne => absurd hne (by simp), fun _ => ⟨m, ?_, ?_⟩⟩
      · simpa using hm
      · intro j x hx
        exact hmin x (by simpa using List.getElem?_mem hx)


/-- C21. For a strict weak order `comp` and a valid cursor pair, `min_element`
returns the end position on an empty sequence and otherwise a position inside
the sequence than whose element no element is smaller, in the cursor-pair form
and in the aggregate form (wrapped or not). -/
theorem min_element_minimal {α : Type} (comp : α → α → Bool) (s : List α)
    (first last : Nat) (named : Bool)
    (h : IsStrictWeakOrder comp) (hfirst : first ≤ last) (hlast : last ≤ s.length) :
    (between s first last = [] → min_element s first last comp = last) ∧
    (between s first last ≠ [] →
      first ≤ min_element s first last comp ∧ min_element s first last comp < last) ∧
    MinimalAt comp (between s first last) (min_element s first last comp - first) ∧
    (s = [] → (Aggregate.min_element named s comp).position = adl_end s) ∧
    (s ≠ [] → (Aggregate.min_element named s comp).position < adl_end s) ∧
    MinimalAt comp s (Aggregate.min_element named s comp).position := by
  have key := std_min_element_spec comp h s first last hlast hfirst
  have hl := between_length s first last hlast
  have agg := std_min_element_spec comp h s (adl_begin s) (adl_end s) (Nat.le_refl _)
    (Nat.zero_le _)
  rw [between_all] at agg
  have inside : ∀ (A : List α) (r : Nat), MinimalAt comp A r → A ≠ [] → r < A.length := by
    intro A r hm hne
    obtain ⟨m, hm, _⟩ := hm.2 hne
    exact (List.getElem?_eq_some.1 hm).1
  refine ⟨?_, ?_, key.2, ?_, ?_, ?_⟩
  · intro he
    have := key.2.1 he
    rw [he] at hl this
    simp only [List.length_nil] at hl this
    have h1 := key.1
    simp only [min_element]
    omega
  · intro hne
    have := inside _ _ key.2 hne
    have h1 := key.1
    simp only [min_element]
    omega
  · intro he
    have := agg.2.1 he
    simpa [Aggregate.min_element, position_to_safe_iterator, adl_begin, adl_end] using this
  · intro hne
    have := inside _ _ agg.2 hne
    simpa [Aggregate.min_element, position_to_safe_iterator, adl_begin, adl_end] using this
  · simpa [Aggregate.min_element, position_to_safe_iterator, adl_begin, adl_end] using agg.2

theorem lt_strict_weak_order : IsStrictWeakOrder (fun a b : Int => decide (a < b)) := by
  refine ⟨?_, ?_, ?_⟩
  · intro a; simp
  · intro a b c; simp only [decide_eq_true_eq]; omega
  · intro a b c; simp only [decide_eq_false_iff_not]; omega

/-- C21 on `[3, 1, 2, 1, 5]` under `<`: the whole sequence has its first smallest
element at position 1, in both forms; the empty cursor pair `[2, 2)` yields the
end position 2. -/
theorem min_element_minimal_witness :
    min_element [3, 1, 2, 1, 5] 0 5 (fun a b : Int => decide (a < b)) = 1 ∧
    (Aggregate.min_element false [3, 1, 2, 1, 5] (fun a b : Int => decide (a < b))).position
      = 1 ∧
    MinimalAt (fun a b : Int => decide (a < b)) (between [3, 1, 2, 1, 5] 0 5)
      (min_element [3, 1, 2, 1, 5] 0 5 (fun a b : Int => decide (a < b)) - 0) ∧
    min_element [3, 1, 2, 1, 5] 2 2 (fun a b : Int => decide (a < b)) = 2 :=
  ⟨by decide, by decide,
   (min_element_minimal (fun a b : Int => decide (a < b)) [3, 1, 2, 1, 5] 0 5 false
      lt_strict_weak_order (by decide) (by decide)).2.2.1,
   (min_element_minimal (fun a b : Int => decide (a < b)) [3, 1, 2, 1, 5] 2 2 false
      lt_strict_weak_order (by decide) (by decide)).1 (by decide)⟩

/-! ## C22: set_symmetric_difference -/

theorem symmetric_difference_length_le {α : Type} (comp : α → α → Bool) (A B : List α) :
    (symmetric_difference comp A B).length ≤ A.length + B.length := by
  induction A, B using symmetric_difference.induct comp with
  | case1 B => simp [symmetric_difference]
  | case2 a A => simp [symmetric_difference]
  | case3 a A b B h ih =>
      simp only [symmetric_difference, h, if_true, List.length_cons] at ih ⊢; omega
  | case4 a A b B h1 h2 ih =>
      simp only [symmetric_difference, h1, h2, if_true, Bool.false_eq_true, if_false,
        List.length_cons] at ih ⊢
      omega
  | case5 a A b B h1 h2 ih =>
      simp only [symmetric_difference, h1, h2, Bool.false_eq_true, if_false,
        List.length_cons] at ih ⊢
      omega

theorem symmetric_difference_mem {α : Type} (comp : α → α → Bool) (A B : List α) :
    ∀ x ∈ symmetric_difference comp A B, x ∈ A ∨ x ∈ B := by
  induction A, B using symmetric_difference.induct comp with
  | case1 B => simp [symmetric_difference]
  | case2 a A => simp [symmetric_difference]
  | case3 a A b B h ih =>
      intro x hx
      simp only [symmetric_difference, h, if_true, List.mem_cons] at hx ⊢
      rcases hx with hx | hx
      · exact Or.inl (Or.inl hx)
      · rcases ih x hx with h' | h'
        · exact Or.inl (Or.inr h')
        · exact Or.inr (by simpa using h')
  | case4 a A b B h1 h2 ih =>
      intro x hx
      simp only [symmetric_difference, h1, h2, if_true, List.mem_cons] at hx ⊢
      simp only [Bool.false_eq_true, if_false, List.mem_cons] at hx
      rcases hx with hx | hx
      · exact Or.inr (Or.inl hx)
      · rcases ih x hx with h' | h'
        · exact Or.inl (by simpa using h')
        · exact Or.inr (Or.inr h')
  | case5 a A b B h1 h2 ih =>
      intro x hx
      simp only [symmetric_difference, h1, h2] at hx
      simp only [Bool.false_eq_true, if_false] at hx
      rcases ih x hx with h' | h'
      · exact Or.inl (List.mem_cons_of_mem _ h')
      · exact Or.inr (List.mem_cons_of_mem _ h')

theorem symmetric_difference_comm {α : Type} (comp : α → α → Bool)
    (hasym : ∀ a b, comp a b = true → comp b a = false) (A B : List α) :
    symmetric_difference comp B A = symmetric_difference comp A B := by
  induction A, B using symmetric_difference.induct comp with
  | case1 B => cases B <;> simp [symmetric_difference]
  | case2 a A => simp [symmetric_difference]
  | case3 a A b B h ih =>
      simp only [symmetric_difference, h, hasym a b h, if_true, Bool.false_eq_true, if_false]
      rw [ih]
  | case4 a A b B h1 h2 ih =>
      simp only [symmetric_difference, h1, h2, if_true, Bool.false_eq_true, if_false]
      rw [ih]
  | case5 a A b B h1 h2 ih =>
      simp only [symmetric_difference, h1, h2, Bool.false_eq_true, if_false]
      exact ih


theorem between_getElem? {α : Type} (s : List α) (first last i : Nat) :
    (between s first last)[i]? = if first + i < last then s[first + i]? else none := by
  unfold between
  rw [List.getElem?_drop, List.getElem?_take]

theorem swo_asymm {α : Type} {comp : α → α → Bool} (h : IsStrictWeakOrder comp) (a b : α)
    (hab : comp a b = true) : comp b a = false := by
  cases hba : comp b a with
  | false => rfl
  | true =>
      have := h.2.1 a b a hab hba
      rw [h.1 a] at this
      cases this

theorem swo_between {α : Type} {comp : α → α → Bool} (h : IsStrictWeakOrder comp) (a b y : α)
    (hab : comp a b = true) (hyb : comp y b = false) : comp a y = true := by
  cases hay : comp a y with
  | true => rfl
  | false =>
      have hya : comp y a = false := by
        cases hya : comp y a with
        | false => rfl
        | true =>
            have := h.2.1 y a b hya hab
            rw [hyb] at this
            cases this
      have hby : comp b y = false := by
        cases hby : comp b y with
        | false => rfl
        | true =>
            have := h.2.1 a b y hab hby
            rw [hay] at this
            cases this
      have := (h.2.2 a y b hay hya hyb hby).1
      rw [hab] at this
      cases this

theorem symmetric_difference_sorted {α : Type} (comp : α → α → Bool)
    (h : IsStrictWeakOrder comp) (A B : List α) :
    SortedBy comp A → SortedBy comp B → SortedBy comp (symmetric_difference comp A B) := by
  induction A, B using symmetric_difference.induct comp with
  | case1 B => intro _ hB; simpa [symmetric_difference] using hB
  | case2 a A => intro hA _; simpa [symmetric_difference] using hA
  | case3 a A b B hab ih =>
      intro hA hB
      simp only [symmetric_difference, hab, if_true]
      have hA' := List.pairwise_cons.1 hA
      have hB' := List.pairwise_cons.1 hB
      refine List.pairwise_cons.2 ⟨?_, ih hA'.2 hB⟩
      intro y hy
      rcases symmetric_difference_mem comp _ _ y hy with hy | hy
      · exact hA'.1 y hy
      · have hyb : comp y b = false := by
          rcases List.mem_cons.1 hy with rfl | hy
          · exact h.1 y
          · exact hB'.1 y hy
        exact swo_asymm h a y (swo_between h a b y hab hyb)
  | case4 a A b B hab hba ih =>
      intro hA hB
      simp only [Bool.not_eq_true] at hab
      simp only [symmetric_difference, hab, hba, if_true, Bool.false_eq_true, if_false]
      have hA' := List.pairwise_cons.1 hA
      have hB' := List.pairwise_cons.1 hB
      refine List.pairwise_cons.2 ⟨?_, ih hA hB'.2⟩
      intro y hy
      rcases symmetric_difference_mem comp _ _ y hy with hy | hy
      · have hya : comp y a = false := by
          rcases List.mem_cons.1 hy with rfl | hy
          · exact h.1 y
          · exact hA'.1 y hy
        exact swo_asymm h b y (swo_between h b a y hba hya)
      · exact hB'.1 y hy
  | case5 a A b B hab hba ih =>
      intro hA hB
      simp only [Bool.not_eq_true] at hab hba
      simp only [symmetric_difference, hab, hba, Bool.false_eq_true, if_false]
      exact ih (List.pairwise_cons.1 hA).2 (List.pairwise_cons.1 hB).2

/-- Equivalent elements have the same key. -/
theorem key_congr {α : Type} {comp : α → α → Bool} (h : IsStrictWeakOrder comp) (a b x : α)
    (hab : comp a b = false) (hba : comp b a = false) :
    (!comp a x && !comp x a) = (!comp b x && !comp x b) := by
  cases hax : comp a x <;> cases hxa : comp x a <;> cases hbx : comp b x <;>
    cases hxb : comp x b <;> simp
  all_goals first
    | (have hh := h.2.2 b a x hba hab hax hxa; simp_all)
    | (have hh := h.2.2 a b x hab hba hbx hxb; simp_all)

/-- No element above a strictly greater bound has the key of `a`. -/
theorem count_key_above {α : Type} {comp : α → α → Bool} (h : IsStrictWeakOrder comp)
    (a x : α) (B : List α) (hB : ∀ y ∈ B, comp a y = true)
    (hx : (!comp a x && !comp x a) = true) : count_key comp x B = 0 := by
  unfold count_key
  rw [List.countP_eq_zero]
  intro y hy
  have hay := hB y hy
  simp only [Bool.and_eq_true, Bool.not_eq_true'] at hx ⊢
  intro hyx
  have := (h.2.2 a x y hx.1 hx.2 hyx.2 hyx.1).1
  rw [hay] at this
  cases this

theorem symmetric_difference_count {α : Type} (comp : α → α → Bool)
    (h : IsStrictWeakOrder comp) (x : α) (A B : List α) :
    SortedBy comp A → SortedBy comp B →
    count_key comp x (symmetric_difference comp A B)
      = (count_key comp x A - count_key comp x B)
        + (count_key comp x B - count_key comp x A) := by
  induction A, B using symmetric_difference.induct comp with
  | case1 B => intro _ _; simp [symmetric_difference, count_key]
  | case2 a A => intro _ _; simp [symmetric_difference, count_key]
  | case3 a A b B hab ih =>
      intro hA hB
      have hA' := List.pairwise_cons.1 hA
      have hB' := List.pairwise_cons.1 hB
      have ih := ih hA'.2 hB
      simp only [symmetric_difference, hab, if_true]
      by_cases hx : (!comp a x && !comp x a) = true
      · have h0 : count_key comp x (b :: B) = 0 := by
          apply count_key_above h a x _ _ hx
          intro y hy
          have hyb : comp y b = false := by
            rcases List.mem_cons.1 hy with rfl | hy
            · exact h.1 y
            · exact hB'.1 y hy
          exact swo_between h a b y hab hyb
        rw [h0] at ih ⊢
        simp only [count_key, List.countP_cons, hx, if_true] at ih ⊢
        omega
      · simp only [count_key, List.countP_cons, hx, Bool.false_eq_true, if_false] at ih ⊢
        omega
  | case4 a A b B hab hba ih =>
      intro hA hB
      simp only [Bool.not_eq_true] at hab
      have hA' := List.pairwise_cons.1 hA
      have hB' := List.pairwise_cons.1 hB
      have ih := ih hA hB'.2
      simp only [symmetric_difference, hab, hba, if_true, Bool.false_eq_true, if_false]
      by_cases hx : (!comp b x && !comp x b) = true
      · have h0 : count_key comp x (a :: A) = 0 := by
          apply count_key_above h b x _ _ hx
          intro y hy
          have hya : comp y a = false := by
            rcases List.mem_cons.1 hy with rfl | hy
            · exact h.1 y
            · exact hA'.1 y hy
          exact swo_between h b a y hba hya
        rw [h0] at ih ⊢
        simp only [count_key, List.countP_cons, hx, if_true] at ih ⊢
        omega
      · simp only [count_key, List.countP_cons, hx, Bool.false_eq_true, if_false] at ih ⊢
        omega
  | case5 a A b B hab hba ih =>
      intro hA hB
      simp only [Bool.not_eq_true] at hab hba
      have ih := ih (List.pairwise_cons.1 hA).2 (List.pairwise_cons.1 hB).2
      simp only [symmetric_difference, hab, hba, Bool.false_eq_true, if_false]
      have hk := key_congr h a b x hab hba
      simp only [count_key, List.countP_cons, hk] at ih ⊢
      omega

theorem store_all_spec {α : Type} (xs : List α) :
    ∀ (dst : List α) (ofirst : Nat), ofirst + xs.length ≤ dst.length →
    ∃ dst', store_all dst ofirst xs = some (dst', ofirst + xs.length) ∧
      dst'.length = dst.length ∧
      ∀ i : Nat, dst'[i]? =
        if ofirst ≤ i ∧ i < ofirst + xs.length then xs[i - ofirst]? else dst[i]? := by
  induction xs with
  | nil => intro dst ofirst _; exact ⟨dst, rfl, rfl, fun i => by rw [if_neg]; simp only [List.length_nil]; omega⟩
  | cons x xs ih =>
      intro dst ofirst hroom
      simp only [List.length_cons] at hroom
      obtain ⟨dst', h1, h2, h3⟩ := ih (dst.set ofirst x) (ofirst + 1)
        (by rw [List.length_set]; omega)
      refine ⟨dst', ?_, ?_, ?_⟩
      · have : ofirst < dst.length := by omega
        simp only [store_all, this, if_true, h1, List.length_cons]
        congr 2
        omega
      · rw [h2, List.length_set]
      · intro i
        rw [h3 i]
        by_cases hi : i = ofirst
        · subst hi
          have : i < dst.length := by omega
          simp [List.getElem?_set, this]
        · rw [List.getElem?_set_ne (Ne.symm hi)]
          by_cases hin : ofirst + 1 ≤ i ∧ i < ofirst + 1 + xs.length
          · have hin' : ofirst ≤ i ∧ i < ofirst + (x :: xs).length := by
              simp only [List.length_cons]; omega
            rw [if_pos hin, if_pos hin']
            have : i - ofirst = (i - (ofirst + 1)) + 1 := by omega
            rw [this, List.getElem?_cons_succ]
          · have hin' : ¬ (ofirst ≤ i ∧ i < ofirst + (x :: xs).length) := by
              simp only [List.length_cons]; omega
            rw [if_neg hin, if_neg hin']


/-- C22. For two sequences sorted under a strict weak order and a destination with
room, `set_symmetric_difference` writes a sorted output in which every key
occurs as many times as its counts in the two inputs differ, returns the
output cursor advanced by the number of elements written and leaves the rest of
the destination as it was; with the inputs swapped it writes the same output;
the aggregate form is the cursor-pair form on the whole aggregates, whether they
are passed as temporaries or as named aggregates. -/
theorem set_symmetric_difference_counts {α : Type} (comp : α → α → Bool)
    (s1 : List α) (first1 last1 : Nat) (s2 : List α) (first2 last2 : Nat)
    (dst : List α) (ofirst : Nat)
    (h : IsStrictWeakOrder comp)
    (hA : SortedBy comp (between s1 first1 last1))
    (hB : SortedBy comp (between s2 first2 last2))
    (hroom : ofirst + ((between s1 first1 last1).length + (between s2 first2 last2).length)
      ≤ dst.length) :
    (∃ out dst',
      set_symmetric_difference s1 first1 last1 s2 first2 last2 dst ofirst comp
        = some (dst', ofirst + out.length) ∧
      between dst' ofirst (ofirst + out.length) = out ∧
      (∀ i : Nat, i < ofirst ∨ ofirst + out.length ≤ i → dst'[i]? = dst[i]?) ∧
      SortedBy comp out ∧
      (∀ x, count_key comp x out
        = (count_key comp x (between s1 first1 last1)
            - count_key comp x (between s2 first2 last2))
          + (count_key comp x (between s2 first2 last2)
            - count_key comp x (between s1 first1 last1))) ∧
      set_symmetric_difference s2 first2 last2 s1 first1 last1 dst ofirst comp
        = some (dst', ofirst + out.length)) ∧
    (∀ (named1 named2 : Bool) (range1 range2 : List α),
      Aggregate.set_symmetric_difference named1 named2 range1 range2 dst ofirst comp
        = set_symmetric_difference range1 0 range1.length range2 0 range2.length
            dst ofirst comp ∧
      Aggregate.set_symmetric_difference named1 named2 range1 range2 dst ofirst comp
        = Aggregate.set_symmetric_difference true true range1 range2 dst ofirst comp) := by
  refine ⟨?_, fun _ _ _ _ => ⟨rfl, rfl⟩⟩
  have hlen := symmetric_difference_length_le comp (between s1 first1 last1)
    (between s2 first2 last2)
  obtain ⟨dst', h1, h2, h3⟩ := store_all_spec
    (symmetric_difference comp (between s1 first1 last1) (between s2 first2 last2))
    dst ofirst (by omega)
  refine ⟨_, dst', h1, ?_, ?_, symmetric_difference_sorted comp h _ _ hA hB,
    fun x => symmetric_difference_count comp h x _ _ hA hB, ?_⟩
  · apply List.ext_getElem?
    intro i
    rw [between_getElem?, h3]
    by_cases hi : i < (symmetric_difference comp (between s1 first1 last1)
        (between s2 first2 last2)).length
    · rw [if_pos (by omega), if_pos (by omega)]
      congr 1
      omega
    · rw [if_neg (by omega)]
      exact (List.getElem?_eq_none (by omega)).symm
  · intro i hi
    rw [h3, if_neg (by omega)]
  · rw [← h1]
    simp only [set_symmetric_difference, std_set_symmetric_difference]
    rw [symmetric_difference_comm comp (swo_asymm h)]

/-- C22 on the sequences `[1,2,2,3,3,3,4,4,4,4]` and `[2,4,4,6]` under `<` with a
destination of 20 places: the 8 elements `[1,2,3,3,3,4,4,6]` are written, in
either argument order. -/
theorem set_symmetric_difference_counts_witness :
    set_symmetric_difference [1, 2, 2, 3, 3, 3, 4, 4, 4, 4] 0 10 [2, 4, 4, 6] 0 4
        (List.replicate 20 0) 0 (fun a b : Int => decide (a < b))
      = some ([1, 2, 3, 3, 3, 4, 4, 6] ++ List.replicate 12 0, 8) ∧
    set_symmetric_difference [2, 4, 4, 6] 0 4 [1, 2, 2, 3, 3, 3, 4, 4, 4, 4] 0 10
        (List.replicate 20 0) 0 (fun a b : Int => decide (a < b))
      = some ([1, 2, 3, 3, 3, 4, 4, 6] ++ List.replicate 12 0, 8) ∧
    ∃ out dst',
      set_symmetric_difference [1, 2, 2, 3, 3, 3, 4, 4, 4, 4] 0 10 [2, 4, 4, 6] 0 4
          (List.replicate 20 0) 0 (fun a b : Int => decide (a < b))
        = some (dst', 0 + out.length) ∧
      SortedBy (fun a b : Int => decide (a < b)) out ∧
      set_symmetric_difference [2, 4, 4, 6] 0 4 [1, 2, 2, 3, 3, 3, 4, 4, 4, 4] 0 10
          (List.replicate 20 0) 0 (fun a b : Int => decide (a < b))
        = some (dst', 0 + out.length) := by
  have c := (set_symmetric_difference_counts (fun a b : Int => decide (a < b))
    [1, 2, 2, 3, 3, 3, 4, 4, 4, 4] 0 10 [2, 4, 4, 6] 0 4 (List.replicate 20 0) 0
    lt_strict_weak_order (by simp [SortedBy, between]) (by simp [SortedBy, between])
    (by simp [between])).1
  obtain ⟨out, dst', c1, _, _, c4, _, c6⟩ := c
  refine ⟨?_, ?_, out, dst', c1, c4, c6⟩
  · simp [set_symmetric_difference, std_set_symmetric_difference, between,
      symmetric_difference, store_all]
  · simp [set_symmetric_difference, std_set_symmetric_difference, between,
      symmetric_difference, store_all]

/-! ## C23: the aggregate form of is_permutation -/

/-- C23, the code at a failing input.  The aggregate form delimits the first
sequence by the end of the second aggregate: on `[1, 2, 3]` and its prefix
`[1, 2]` it compares `[1, 2]` with `[1, 2]` and returns true, where the
cursor-pair form on each aggregate's own begin and end returns false, `[1, 2]`
being no rearrangement of `[1, 2, 3]`. -/
theorem is_permutation_wrong_end :
    (∀ (range1 range2 : List Int) (pred : Int → Int → Bool),
      Aggregate.is_permutation range1 range2 pred
        = is_permutation range1 (adl_begin range1) (adl_end range2)
            range2 (adl_begin range2) (adl_end range2) pred) ∧
    Aggregate.is_permutation [1, 2, 3] [1, 2] (equal_to : Int → Int → Bool) = true ∧
    is_permutation [1, 2, 3] (adl_begin [1, 2, 3]) (adl_end [1, 2, 3])
        [1, 2] (adl_begin [1, 2]) (adl_end [1, 2]) (equal_to : Int → Int → Bool) = false ∧
    is_permutation [1, 2, 3] 0 3 [3, 1, 2] 0 3 (equal_to : Int → Int → Bool) = true :=
  ⟨fun _ _ _ => rfl, by decide, by decide, by decide⟩

/-! ## C24: the aggregate form of nth_element -/

/-- C24, the code at a failing input.  The aggregate form passes the end of the
aggregate where `std::nth_element` expects `nth`, and `nth` where it expects the
end: on `[3, 1, 2]` with `nth` at position 1 the cursor-pair form leaves 2 at
position 1, and the call the aggregate form makes has `nth` past the end of its
cursor pair, outside what `std::nth_element` is defined on. -/
theorem nth_element_arguments_swapped :
    (∀ (range : List Int) (nth : Nat) (comp : Int → Int → Bool),
      Aggregate.nth_element range nth comp
        = nth_element range (adl_begin range) (adl_end range) nth comp) ∧
    nth_element [3, 1, 2] (adl_begin [3, 1, 2]) 1 (adl_end [3, 1, 2])
        (fun a b : Int => decide (a < b)) = some [1, 2, 3] ∧
    Aggregate.nth_element [3, 1, 2] 1 (fun a b : Int => decide (a < b)) = none :=
  ⟨fun _ _ _ => rfl, by decide, by decide⟩

/-! ## C25: the cursor-pair form of partial_sort_copy -/

/-- C25, the code at a failing input.  The cursor-pair form names
`std::partial_sort`, which takes three cursors and returns nothing: the call
with four cursors has no result, for any input.  The aggregate form names
`std::partial_sort_copy`: from `[3, 1, 2]` into a result of two places it writes
`[1, 2]` and returns the cursor 2. -/
theorem partial_sort_copy_names_partial_sort :
    (∀ (input result : List Int) (first last rfirst rlast : Nat)
        (comp : Int → Int → Bool),
      partial_sort_copy input first last result rfirst rlast comp = none) ∧
    partial_sort_copy [3, 1, 2] 0 3 [0, 0] 0 2 (fun a b : Int => decide (a < b)) = none ∧
    Aggregate.partial_sort_copy true [3, 1, 2] [0, 0] (fun a b : Int => decide (a < b))
      = some ([1, 2], .cursor 2) :=
  ⟨fun _ _ _ _ _ _ _ => rfl, by rfl, by rfl⟩

/-! ## C26: assignment through front_insert_iterator -/

/-- Assignment from an lvalue prepends, for every container whose `push_front`
prepends. -/
theorem assign_copy_prepends {α : Type} (ops : ContainerOps (List α) α)
    (h : ops.push_front = some fun c v => v :: c) (c : List α) (v : α) :
    (front_inserter c).assign_copy ops v = some (front_inserter (v :: c)) := by
  simp [front_insert_iterator.assign_copy, front_inserter, h]

/-- C26, the code at a failing input.  On a `std::list` holding `[1, 2]` the
assignment of 0 from an lvalue prepends it and returns the iterator; the
assignment from an rvalue names the member `front_back`, which the container
does not have, and is ill-formed. -/
theorem front_insert_move_names_front_back :
    (front_inserter [1, 2]).assign_copy (std_list Int) 0
      = some (front_inserter [0, 1, 2]) ∧
    (front_inserter [1, 2]).assign_move (std_list Int) 0 = none ∧
    (∀ (C α : Type) (ops : ContainerOps C α) (it : front_insert_iterator C) (v : α),
      ops.front_back = none → it.assign_move ops v = none) :=
  ⟨by rfl, by rfl, fun _ _ ops it v h => by simp [front_insert_iterator.assign_move, h]⟩

/-! ## C27: projections -/

theorem first_match_map {α β γ : Type} (eq : γ → β → Bool) (proj : α → γ) (A : List α)
    (v : β) :
    first_match (fun a v => eq (proj a) v) A v = first_match eq (A.map proj) v := by
  induction A with
  | nil => rfl
  | cons a as ih => simp [first_match, ih]

/-- C27. The algorithm `find` called with a projection returns the first position
whose projected element equals the value, or the end position when none does,
in the cursor-pair form (for a valid cursor pair) and in the aggregate form. -/
theorem find_projected_first_match {α β γ : Type} (eq : γ → β → Bool) (proj : α → γ)
    (s : List α) (first last : Nat) (value : β) (named : Bool)
    (hfirst : first ≤ last) (hlast : last ≤ s.length) :
    (∃ r, Projected.find s first last value eq proj = first + r ∧
      FirstMatch eq ((between s first last).map proj) value r ∧
      (Projected.find s first last value eq proj = last ↔
        ∀ a ∈ between s first last, eq (proj a) value = false)) ∧
    (∃ r, (Projected.Aggregate.find named s value eq proj).position = r ∧
      FirstMatch eq (s.map proj) value r ∧
      ((Projected.Aggregate.find named s value eq proj).position = adl_end s ↔
        ∀ a ∈ s, eq (proj a) value = false)) := by
  have key : ∀ A : List α, FirstMatch eq (A.map proj) value
      (first_match (fun a v => eq (proj a) v) A value) := by
    intro A
    rw [first_match_map]
    exact first_match_spec eq _ value
  have stop : ∀ A : List α,
      first_match (fun a v => eq (proj a) v) A value = A.length ↔
        ∀ a ∈ A, eq (proj a) value = false := by
    intro A
    have := (key A).2.2.2
    simpa using this
  constructor
  · refine ⟨_, rfl, key _, ?_⟩
    rw [← stop, between_length s first last hlast]
    simp only [Projected.find]
    omega
  · refine ⟨_, rfl, ?_, ?_⟩
    · simp only [Projected.Aggregate.find, Projected.find, position_to_safe_iterator,
        between_all]
      simpa [adl_begin] using key s
    · simp only [Projected.Aggregate.find, Projected.find, position_to_safe_iterator,
        between_all]
      simpa [adl_begin, adl_end] using stop s

/-- C27 on the structs `{0}, ..., {5}` with the projection onto the integer field:
`find` of 3 returns position 3, `find` of 10 returns the end position 6. -/
theorem find_projected_first_match_witness :
    Projected.find [S.mk 0, S.mk 1, S.mk 2, S.mk 3, S.mk 4, S.mk 5] 0 6 (3 : Int)
      (equal_to : Int → Int → Bool) S.i_ = 3 ∧
    Projected.find [S.mk 0, S.mk 1, S.mk 2, S.mk 3, S.mk 4, S.mk 5] 0 6 (10 : Int)
      (equal_to : Int → Int → Bool) S.i_ = 6 ∧
    (Projected.Aggregate.find true [S.mk 0, S.mk 1, S.mk 2, S.mk 3, S.mk 4, S.mk 5] (3 : Int)
      (equal_to : Int → Int → Bool) S.i_).position = 3 ∧
    (∀ a ∈ between [S.mk 0, S.mk 1, S.mk 2, S.mk 3, S.mk 4, S.mk 5] 0 6,
      (equal_to : Int → Int → Bool) a.i_ 10 = false) :=
  have c := find_projected_first_match (equal_to : Int → Int → Bool) S.i_
    [S.mk 0, S.mk 1, S.mk 2, S.mk 3, S.mk 4, S.mk 5] 0 6 10 true (by decide) (by decide)
  have h : Projected.find [S.mk 0, S.mk 1, S.mk 2, S.mk 3, S.mk 4, S.mk 5] 0 6 (10 : Int)
      (equal_to : Int → Int → Bool) S.i_ = 6 := by decide
  ⟨by decide, h, by decide, c.1.choose_spec.2.2.1 h⟩

/-! ## C28: the requirements of the two shapes -/

/-- The aggregate `prev_permutation` is viable exactly when `begin` and `end` of
the aggregate yield one cursor type and the cursor-pair overload is viable for
it. -/
theorem prev_permutation_requires_alike (E : Env) (R Comp : CppType) :
    Aggregate.prev_permutation_requires E R Comp = some true ↔
      ∃ I, iterator_t E [R] = some I ∧ sentinel_t E [R] = some I ∧
        prev_permutation_requires E I Comp = some true := by
  have cursor : ∀ I, prev_permutation_requires E I Comp = some true ↔
      BidirectionalIterator E I = some true ∧ Sortable E I Comp = some true :=
    fun I => strict_and_eq_true _ _
  cases hit : iterator_t E [R] with
  | none => simp [Aggregate.prev_permutation_requires, hit]
  | some I =>
      have hd : detected_t (iterator_t E) [R] = I := detected_t_some _ _ _ hit
      have agg : Aggregate.prev_permutation_requires E R Comp = some true ↔
          BidirectionalRange E R = some true ∧ Sortable E I Comp = some true := by
        simp only [Aggregate.prev_permutation_requires, hit]
        exact strict_and_eq_true _ _
      have level := range_level_iff E R (BidirectionalIterator E I) (BidirectionalRange E R)
        (by simp only [BidirectionalRange, hd]; rfl)
      have range : Range E R = some true ↔
          Iterator E I = some true ∧ sentinel_t E [R] = some I := by
        unfold Range
        rw [hd]
        cases hi : Iterator E I with
        | none => simp
        | some i =>
            cases hst : sentinel_t E [R] with
            | none =>
                rw [detected_t_none _ _ hst]
                cases i with
                | false => simp
                | true =>
                    have hne : I ≠ nonesuchT := by
                      rintro rfl
                      rw [Iterator_nonesuch_false] at hi
                      cases hi
                    simp [Same, hne]
            | some J =>
                rw [detected_t_some _ _ _ hst]
                cases i <;> simp [Same, eq_comm]
      rw [agg, level, range]
      constructor
      · rintro ⟨⟨⟨_, hs⟩, hb⟩, hsort⟩
        exact ⟨I, rfl, hs, (cursor I).2 ⟨hb, hsort⟩⟩
      · rintro ⟨J, hJ, hs, hc⟩
        obtain rfl : I = J := Option.some.inj hJ
        obtain ⟨hb, hsort⟩ := (cursor I).1 hc
        exact ⟨⟨⟨iterator_of_input E I (input_of_forward E I (forward_of_bidirectional E I hb)),
          hs⟩, hb⟩, hsort⟩

/-- C28, the code at failing inputs.  Class 0 is a bidirectional aggregate whose
cursor `int*` is `Sortable` with the function object of class 4: the cursor-pair
`next_permutation` and both forms of `prev_permutation` are viable, the
aggregate `next_permutation` is not, its requirement naming
`iterator_t<iterator_t<BidirRng>>`.  In the third program class 9 is an aggregate
with the single-pass cursor of class 1: the aggregate `find_first_of` and
`remove_copy_if` are viable where the cursor-pair forms are not, and the
aggregate `minmax` is viable though the aggregate is no `ForwardRange` (and the
aggregate `min` is not viable). -/
theorem aggregate_requirements_differ :
    (BidirectionalRange env (.lref (.cls CV.none 0)) = some true ∧
      iterator_t env [.lref (.cls CV.none 0)] = some int_ptr ∧
      Sortable env int_ptr (.cls CV.none 4) = some true ∧
      next_permutation_requires env int_ptr (.cls CV.none 4) = some true ∧
      prev_permutation_requires env int_ptr (.cls CV.none 4) = some true ∧
      Aggregate.prev_permutation_requires env (.lref (.cls CV.none 0)) (.cls CV.none 4)
        = some true ∧
      Aggregate.next_permutation_requires env (.lref (.cls CV.none 0)) (.cls CV.none 4)
        = some false) ∧
    (iterator_t env3 [.lref (.cls CV.none 9)] = some (.cls CV.none 1) ∧
      InputRange env3 (.lref (.cls CV.none 9)) = some true ∧
      ForwardRange env3 (.lref (.cls CV.none 9)) = some false ∧
      ForwardIterator env3 (.cls CV.none 1) = some false) ∧
    (find_first_of_requires env3 int_ptr (.cls CV.none 1) (.cls CV.none 4) = some false ∧
      Aggregate.find_first_of_requires env3 (.lref (.cls CV.none 0)) (.lref (.cls CV.none 9))
        (.cls CV.none 4) = some true) ∧
    (remove_copy_if_requires env3 (.cls CV.none 1) int_ptr (.cls CV.none 4) = some false ∧
      Aggregate.remove_copy_if_requires env3 (.lref (.cls CV.none 9)) int_ptr (.cls CV.none 4)
        = some true) ∧
    (Aggregate.minmax_requires env3 (.lref (.cls CV.none 9)) (.cls CV.none 4) = some true ∧
      Aggregate.min_requires env3 (.lref (.cls CV.none 9)) (.cls CV.none 4) = some false ∧
      minmax_element_requires env3 (.cls CV.none 1) (.cls CV.none 4) = some false) :=
  ⟨⟨by rfl, by rfl, by rfl, by rfl, by rfl, by rfl, by rfl⟩,
   ⟨by rfl, by rfl, by rfl, by rfl⟩,
   ⟨by rfl, by rfl⟩, ⟨by rfl, by rfl⟩, ⟨by rfl, by rfl, by rfl⟩⟩

/-! ## C29: the explicit-length forms and the three-cursor forms -/

theorem between_nil {α : Type} (s : List α) (first last : Nat) (h : last ≤ first) :
    between s first last = [] := by
  unfold between
  rw [List.drop_eq_nil_iff, List.length_take]
  omega

theorem between_cons {α : Type} (s : List α) (first last : Nat) (h : first < last)
    (hl : last ≤ s.length) :
    ∃ a, s[first]? = some a ∧ between s first last = a :: between s (first + 1) last := by
  have hf : first < s.length := by omega
  refine ⟨s[first], by simp [hf], ?_⟩
  unfold between
  have : first < (s.take last).length := by rw [List.length_take]; omega
  rw [List.drop_eq_getElem_cons this]
  simp

theorem between_set_before {α : Type} (s : List α) (i first last : Nat) (x : α)
    (h : i < first) : between (s.set i x) first last = between s first last := by
  apply List.ext_getElem?
  intro j
  rw [between_getElem?, between_getElem?]
  rw [List.getElem?_set_ne (by omega)]

theorem between_take {α : Type} (s : List α) (first last n : Nat) (h : first + n ≤ last) :
    between s first (first + n) = (between s first last).take n := by
  apply List.ext_getElem?
  intro i
  rw [between_getElem?, List.getElem?_take, between_getElem?]
  by_cases hi : i < n
  · rw [if_pos (by omega), if_pos hi, if_pos (by omega)]
  · rw [if_neg (by omega), if_neg hi]

theorem zipWith_take_right {α β γ : Type} (f : α → β → γ) (A : List α) (B : List β) :
    List.zipWith f A (B.take A.length) = List.zipWith f A B := by
  induction A generalizing B with
  | nil => simp
  | cons a A ih =>
      cases B with
      | nil => simp
      | cons b B => simp [ih]

theorem zipWith_snd {α β : Type} (A : List α) (B : List β) :
    List.zipWith (fun _ b => b) A B = B.take A.length := by
  induction A generalizing B with
  | nil => simp
  | cons a A ih =>
      cases B with
      | nil => simp
      | cons b B => simp [ih]

theorem zipWith_fst {α β : Type} (A : List α) (B : List β) :
    List.zipWith (fun a _ => a) A B = A.take B.length := by
  induction A generalizing B with
  | nil => simp
  | cons a A ih =>
      cases B with
      | nil => simp
      | cons b B => simp [ih]

/-- The explicit-length loops take as many steps as the shorter sequence has
elements. -/
theorem swap_ranges_loop_spec {α : Type} (last1 last2 : Nat) :
    ∀ (steps : Nat) (s1 : List α) (first1 : Nat) (s2 : List α) (first2 : Nat),
      first1 ≤ last1 → last1 ≤ s1.length → first2 ≤ last2 → last2 ≤ s2.length →
      (min (last1 - first1) (last2 - first2) ≤ steps →
        ∃ s1' s2',
          swap_ranges_loop last1 last2 steps s1 first1 s2 first2
            = .done (s1', s2', first1 + min (last1 - first1) (last2 - first2),
                first2 + min (last1 - first1) (last2 - first2)) ∧
          store_all s1 first1
              (List.zipWith (fun _ b => b) (between s1 first1 last1) (between s2 first2 last2))
            = some (s1', first1 + min (last1 - first1) (last2 - first2)) ∧
          store_all s2 first2
              (List.zipWith (fun a _ => a) (between s1 first1 last1) (between s2 first2 last2))
            = some (s2', first2 + min (last1 - first1) (last2 - first2))) ∧
      (steps < min (last1 - first1) (last2 - first2) →
        swap_ranges_loop last1 last2 steps s1 first1 s2 first2 = .running) := by
  intro steps
  induction steps with
  | zero =>
      intro s1 first1 s2 first2 h1 h2 h3 h4
      by_cases hc : first1 ≠ last1 ∧ first2 ≠ last2
      · refine ⟨fun hk => absurd hk (by omega), fun _ => ?_⟩
        simp only [swap_ranges_loop, hc, ne_eq, not_false_eq_true, and_self, if_true]
      · have hk : min (last1 - first1) (last2 - first2) = 0 := by omega
        refine ⟨fun _ => ⟨s1, s2, ?_, ?_, ?_⟩, fun h => absurd h (by omega)⟩
        · rw [hk]; simp only [swap_ranges_loop, if_neg hc, Nat.add_zero]
        · rw [hk]
          have : List.zipWith (fun (_ : α) (b : α) => b) (between s1 first1 last1)
              (between s2 first2 last2) = [] := by
            by_cases h : first1 = last1
            · rw [between_nil s1 first1 last1 (by omega)]; rfl
            · rw [between_nil s2 first2 last2 (by omega)]; simp
          rw [this]; rfl
        · rw [hk]
          have : List.zipWith (fun (a : α) (_ : α) => a) (between s1 first1 last1)
              (between s2 first2 last2) = [] := by
            by_cases h : first1 = last1
            · rw [between_nil s1 first1 last1 (by omega)]; rfl
            · rw [between_nil s2 first2 last2 (by omega)]; simp
          rw [this]; rfl
  | succ steps ih =>
      intro s1 first1 s2 first2 h1 h2 h3 h4
      by_cases hc : first1 ≠ last1 ∧ first2 ≠ last2
      · obtain ⟨a, ha, hA⟩ := between_cons s1 first1 last1 (by omega) h2
        obtain ⟨b, hb, hB⟩ := between_cons s2 first2 last2 (by omega) h4
        have hstep : swap_ranges_loop last1 last2 (steps + 1) s1 first1 s2 first2
            = swap_ranges_loop last1 last2 steps (s1.set first1 b) (first1 + 1)
                (s2.set first2 a) (first2 + 1) := by
          simp only [swap_ranges_loop, hc, ne_eq, not_false_eq_true, and_self, if_true, ha, hb]
        have ih := ih (s1.set first1 b) (first1 + 1) (s2.set first2 a) (first2 + 1)
          (by omega) (by rw [List.length_set]; exact h2) (by omega)
          (by rw [List.length_set]; exact h4)
        rw [between_set_before _ _ _ _ _ (by omega),
          between_set_before _ _ _ _ _ (by omega)] at ih
        have hk : min (last1 - first1) (last2 - first2)
            = min (last1 - (first1 + 1)) (last2 - (first2 + 1)) + 1 := by omega
        have hf1 : first1 < s1.length := by omega
        have hf2 : first2 < s2.length := by omega
        rw [hstep, hA, hB, hk]
        refine ⟨fun hle => ?_, fun hlt => ih.2 (by omega)⟩
        obtain ⟨s1', s2', e1, e2, e3⟩ := ih.1 (by omega)
        have a1 : first1 + 1 + min (last1 - (first1 + 1)) (last2 - (first2 + 1))
            = first1 + (min (last1 - (first1 + 1)) (last2 - (first2 + 1)) + 1) := by omega
        have a2 : first2 + 1 + min (last1 - (first1 + 1)) (last2 - (first2 + 1))
            = first2 + (min (last1 - (first1 + 1)) (last2 - (first2 + 1)) + 1) := by omega
        rw [a1, a2] at e1
        rw [a1] at e2
        rw [a2] at e3
        refine ⟨s1', s2', e1, ?_, ?_⟩
        · simp only [List.zipWith_cons_cons, store_all, hf1, if_true, e2]
        · simp only [List.zipWith_cons_cons, store_all, hf2, if_true, e3]
      · have hk : min (last1 - first1) (last2 - first2) = 0 := by omega
        refine ⟨fun _ => ⟨s1, s2, ?_, ?_, ?_⟩, fun h => absurd h (by omega)⟩
        · rw [hk]; simp only [swap_ranges_loop, if_neg hc, Nat.add_zero]
        · rw [hk]
          have : List.zipWith (fun (_ : α) (b : α) => b) (between s1 first1 last1)
              (between s2 first2 last2) = [] := by
            by_cases h : first1 = last1
            · rw [between_nil s1 first1 last1 (by omega)]; rfl
            · rw [between_nil s2 first2 last2 (by omega)]; simp
          rw [this]; rfl
        · rw [hk]
          have : List.zipWith (fun (a : α) (_ : α) => a) (between s1 first1 last1)
              (between s2 first2 last2) = [] := by
            by_cases h : first1 = last1
            · rw [between_nil s1 first1 last1 (by omega)]; rfl
            · rw [between_nil s2 first2 last2 (by omega)]; simp
          rw [this]; rfl


theorem transform_loop_spec {α β γ : Type} (op : α → β → γ) (s1 : List α) (last1 : Nat)
    (s2 : List β) (last2 : Nat) (h2 : last1 ≤ s1.length) (h4 : last2 ≤ s2.length) :
    ∀ (steps first1 first2 : Nat) (dst : List γ) (ofirst : Nat),
      first1 ≤ last1 → first2 ≤ last2 →
      ofirst + min (last1 - first1) (last2 - first2) ≤ dst.length →
      (min (last1 - first1) (last2 - first2) ≤ steps →
        ∃ dst',
          transform_loop op s1 last1 s2 last2 steps first1 first2 dst ofirst
            = .done (dst', ofirst + min (last1 - first1) (last2 - first2)) ∧
          store_all dst ofirst
              (List.zipWith op (between s1 first1 last1) (between s2 first2 last2))
            = some (dst', ofirst + min (last1 - first1) (last2 - first2))) ∧
      (steps < min (last1 - first1) (last2 - first2) →
        transform_loop op s1 last1 s2 last2 steps first1 first2 dst ofirst = .running) := by
  have stop : ∀ (first1 first2 : Nat), first1 ≤ last1 → first2 ≤ last2 →
      ¬ (first1 ≠ last1 ∧ first2 ≠ last2) →
      List.zipWith op (between s1 first1 last1) (between s2 first2 last2) = [] := by
    intro first1 first2 _ _ hc
    by_cases h : first1 = last1
    · rw [between_nil s1 first1 last1 (by omega)]; rfl
    · rw [between_nil s2 first2 last2 (by omega)]; simp
  intro steps
  induction steps with
  | zero =>
      intro first1 first2 dst ofirst h1 h3 hroom
      by_cases hc : first1 ≠ last1 ∧ first2 ≠ last2
      · refine ⟨fun hk => absurd hk (by omega), fun _ => ?_⟩
        simp only [transform_loop, hc, ne_eq, not_false_eq_true, and_self, if_true]
      · have hk : min (last1 - first1) (last2 - first2) = 0 := by omega
        refine ⟨fun _ => ⟨dst, ?_, ?_⟩, fun h => absurd h (by omega)⟩
        · rw [hk]; simp only [transform_loop, if_neg hc, Nat.add_zero]
        · rw [hk, stop first1 first2 h1 h3 hc]; rfl
  | succ steps ih =>
      intro first1 first2 dst ofirst h1 h3 hroom
      by_cases hc : first1 ≠ last1 ∧ first2 ≠ last2
      · obtain ⟨a, ha, hA⟩ := between_cons s1 first1 last1 (by omega) h2
        obtain ⟨b, hb, hB⟩ := between_cons s2 first2 last2 (by omega) h4
        have hk : min (last1 - first1) (last2 - first2)
            = min (last1 - (first1 + 1)) (last2 - (first2 + 1)) + 1 := by omega
        have ho : ofirst < dst.length := by omega
        have hstep : transform_loop op s1 last1 s2 last2 (steps + 1) first1 first2 dst ofirst
            = transform_loop op s1 last1 s2 last2 steps (first1 + 1) (first2 + 1)
                (dst.set ofirst (op a b)) (ofirst + 1) := by
          simp only [transform_loop, hc, ne_eq, not_false_eq_true, and_self, if_true, ha, hb,
            ho]
        have ih := ih (first1 + 1) (first2 + 1) (dst.set ofirst (op a b)) (ofirst + 1)
          (by omega) (by omega) (by rw [List.length_set]; omega)
        rw [hstep, hA, hB, hk]
        refine ⟨fun hle => ?_, fun hlt => ih.2 (by omega)⟩
        obtain ⟨dst', e1, e2⟩ := ih.1 (by omega)
        have a1 : ofirst + 1 + min (last1 - (first1 + 1)) (last2 - (first2 + 1))
            = ofirst + (min (last1 - (first1 + 1)) (last2 - (first2 + 1)) + 1) := by omega
        rw [a1] at e1 e2
        refine ⟨dst', e1, ?_⟩
        simp only [List.zipWith_cons_cons, store_all, ho, if_true, e2]
      · have hk : min (last1 - first1) (last2 - first2) = 0 := by omega
        refine ⟨fun _ => ⟨dst, ?_, ?_⟩, fun h => absurd h (by omega)⟩
        · rw [hk]; simp only [transform_loop, if_neg hc, Nat.add_zero]
        · rw [hk, stop first1 first2 h1 h3 hc]; rfl

theorem inner_product_loop_spec {α β ρ τ : Type} (op1 : τ → ρ → τ) (op2 : α → β → ρ)
    (s1 : List α) (last1 : Nat) (s2 : List β) (last2 : Nat)
    (h2 : last1 ≤ s1.length) (h4 : last2 ≤ s2.length) :
    ∀ (steps first1 first2 : Nat) (value : τ), first1 ≤ last1 → first2 ≤ last2 →
      (min (last1 - first1) (last2 - first2) ≤ steps →
        inner_product_loop op1 op2 s1 last1 s2 last2 steps first1 first2 value
          = .done (((between s1 first1 last1).zip (between s2 first2 last2)).foldl
              (fun acc p => op1 acc (op2 p.1 p.2)) value)) ∧
      (steps < min (last1 - first1) (last2 - first2) →
        inner_product_loop op1 op2 s1 last1 s2 last2 steps first1 first2 value
          = .running) := by
  have stop : ∀ (first1 first2 : Nat), first1 ≤ last1 → first2 ≤ last2 →
      ¬ (first1 ≠ last1 ∧ first2 ≠ last2) →
      (between s1 first1 last1).zip (between s2 first2 last2) = [] := by
    intro first1 first2 _ _ hc
    by_cases h : first1 = last1
    · rw [between_nil s1 first1 last1 (by omega)]; rfl
    · rw [between_nil s2 first2 last2 (by omega)]; simp
  intro steps
  induction steps with
  | zero =>
      intro first1 first2 value h1 h3
      by_cases hc : first1 ≠ last1 ∧ first2 ≠ last2
      · refine ⟨fun hk => absurd hk (by omega), fun _ => ?_⟩
        simp only [inner_product_loop, hc, ne_eq, not_false_eq_true, and_self, if_true]
      · refine ⟨fun _ => ?_, fun h => absurd h (by omega)⟩
        rw [stop first1 first2 h1 h3 hc]
        simp only [inner_product_loop, if_neg hc, List.foldl_nil]
  | succ steps ih =>
      intro first1 first2 value h1 h3
      by_cases hc : first1 ≠ last1 ∧ first2 ≠ last2
      · obtain ⟨a, ha, hA⟩ := between_cons s1 first1 last1 (by omega) h2
        obtain ⟨b, hb, hB⟩ := between_cons s2 first2 last2 (by omega) h4
        have hstep : inner_product_loop op1 op2 s1 last1 s2 last2 (steps + 1) first1 first2
              value
            = inner_product_loop op1 op2 s1 last1 s2 last2 steps (first1 + 1) (first2 + 1)
                (op1 value (op2 a b)) := by
          simp only [inner_product_loop, hc, ne_eq, not_false_eq_true, and_self, if_true, ha,
            hb]
        have ih := ih (first1 + 1) (first2 + 1) (op1 value (op2 a b)) (by omega) (by omega)
        rw [hstep, hA, hB]
        refine ⟨fun hle => ?_, fun hlt => ih.2 (by omega)⟩
        rw [ih.1 (by omega)]
        simp only [List.zip_cons_cons, List.foldl_cons]
      · refine ⟨fun _ => ?_, fun h => absurd h (by omega)⟩
        rw [stop first1 first2 h1 h3 hc]
        simp only [inner_product_loop, if_neg hc, List.foldl_nil]

/-- The explicit-length `swap_ranges`, element by element. -/
theorem swap_ranges_spec {α : Type} (steps : Nat) (s1 : List α) (first1 last1 : Nat)
    (s2 : List α) (first2 last2 : Nat)
    (h1 : first1 ≤ last1) (h2 : last1 ≤ s1.length) (h3 : first2 ≤ last2)
    (h4 : last2 ≤ s2.length) (hk : min (last1 - first1) (last2 - first2) ≤ steps) :
    ∃ s1' s2',
      swap_ranges steps s1 first1 last1 s2 first2 last2
        = .done (s1', s2', first1 + min (last1 - first1) (last2 - first2),
            first2 + min (last1 - first1) (last2 - first2)) ∧
      s1'.length = s1.length ∧ s2'.length = s2.length ∧
      (∀ i : Nat, s1'[i]? =
        if first1 ≤ i ∧ i < first1 + min (last1 - first1) (last2 - first2)
        then s2[first2 + (i - first1)]? else s1[i]?) ∧
      (∀ i : Nat, s2'[i]? =
        if first2 ≤ i ∧ i < first2 + min (last1 - first1) (last2 - first2)
        then s1[first1 + (i - first2)]? else s2[i]?) ∧
      store_all s1 first1 ((between s2 first2 last2).take (between s1 first1 last1).length)
        = some (s1', first1 + min (last1 - first1) (last2 - first2)) ∧
      store_all s2 first2 ((between s1 first1 last1).take (between s2 first2 last2).length)
        = some (s2', first2 + min (last1 - first1) (last2 - first2)) := by
  obtain ⟨s1', s2', e1, e2, e3⟩ :=
    (swap_ranges_loop_spec last1 last2 steps s1 first1 s2 first2 h1 h2 h3 h4).1 hk
  have lA := between_length s1 first1 last1 h2
  have lB := between_length s2 first2 last2 h4
  rw [zipWith_snd] at e2
  rw [zipWith_fst] at e3
  have len2 : ((between s2 first2 last2).take (between s1 first1 last1).length).length
      = min (last1 - first1) (last2 - first2) := by
    rw [List.length_take, lA, lB]
  have len3 : ((between s1 first1 last1).take (between s2 first2 last2).length).length
      = min (last1 - first1) (last2 - first2) := by
    rw [List.length_take, lA, lB, Nat.min_comm]
  obtain ⟨d1, f1, g1, k1⟩ := store_all_spec _ s1 first1 (by rw [len2]; omega)
  obtain ⟨d2, f2, g2, k2⟩ := store_all_spec _ s2 first2 (by rw [len3]; omega)
  have e2' := e2
  have e3' := e3
  rw [e2] at f1
  rw [e3] at f2
  obtain rfl : s1' = d1 := by
    have := Option.some.inj f1
    exact congrArg Prod.fst this
  obtain rfl : s2' = d2 := by
    have := Option.some.inj f2
    exact congrArg Prod.fst this
  refine ⟨s1', s2', e1, g1, g2, ?_, ?_, e2', e3'⟩
  · intro i
    rw [k1 i, len2]
    by_cases hi : first1 ≤ i ∧ i < first1 + min (last1 - first1) (last2 - first2)
    · rw [if_pos hi, if_pos hi, List.getElem?_take, if_pos (by rw [lA]; omega),
        between_getElem?, if_pos (by omega)]
    · rw [if_neg hi, if_neg hi]
  · intro i
    rw [k2 i, len3]
    by_cases hi : first2 ≤ i ∧ i < first2 + min (last1 - first1) (last2 - first2)
    · rw [if_pos hi, if_pos hi, List.getElem?_take, if_pos (by rw [lB]; omega),
        between_getElem?, if_pos (by omega)]
    · rw [if_neg hi, if_neg hi]


/-- The explicit-length binary `transform`, element by element. -/
theorem transform_spec {α β γ : Type} (op : α → β → γ) (steps : Nat) (s1 : List α)
    (first1 last1 : Nat) (s2 : List β) (first2 last2 : Nat) (dst : List γ) (ofirst : Nat)
    (h1 : first1 ≤ last1) (h2 : last1 ≤ s1.length) (h3 : first2 ≤ last2)
    (h4 : last2 ≤ s2.length)
    (hroom : ofirst + min (last1 - first1) (last2 - first2) ≤ dst.length)
    (hk : min (last1 - first1) (last2 - first2) ≤ steps) :
    ∃ dst',
      transform steps s1 first1 last1 s2 first2 last2 dst ofirst op
        = .done (dst', ofirst + min (last1 - first1) (last2 - first2)) ∧
      dst'.length = dst.length ∧
      (∀ i : Nat, dst'[i]? =
        if ofirst ≤ i ∧ i < ofirst + min (last1 - first1) (last2 - first2)
        then (List.zipWith op (between s1 first1 last1) (between s2 first2 last2))[i - ofirst]?
        else dst[i]?) ∧
      store_all dst ofirst
          (List.zipWith op (between s1 first1 last1) (between s2 first2 last2))
        = some (dst', ofirst + min (last1 - first1) (last2 - first2)) := by
  obtain ⟨dst', e1, e2⟩ :=
    (transform_loop_spec op s1 last1 s2 last2 h2 h4 steps first1 first2 dst ofirst h1 h3
      hroom).1 hk
  have lA := between_length s1 first1 last1 h2
  have lB := between_length s2 first2 last2 h4
  have len : (List.zipWith op (between s1 first1 last1) (between s2 first2 last2)).length
      = min (last1 - first1) (last2 - first2) := by
    rw [List.length_zipWith, lA, lB]
  obtain ⟨d, f, g, k⟩ := store_all_spec _ dst ofirst (by rw [len]; omega)
  have e2' := e2
  rw [e2] at f
  obtain rfl : dst' = d := congrArg Prod.fst (Option.some.inj f)
  refine ⟨dst', e1, g, ?_, e2'⟩
  intro i
  rw [k i, len]

/-- For valid cursor pairs, a destination with room and enough steps, with `k`
the length of the shorter sequence: the explicit-length `transform` writes
`op(A[i], B[i])` for every `i < k` and returns the output cursor advanced by
`k`, the loop of `inner_product` returns the left fold of `op1` over
`op2(A[i], B[i])`, which is what `inner_product` returns on template arguments
that meet its requirement, and `swap_ranges` exchanges `A[i]` and `B[i]` for
every `i < k`; none reads or writes past the end of a sequence.  When the second
sequence is at least as long as the first, each agrees with the deprecated
three-cursor form.  The aggregate forms are the explicit-length forms on the
cursor pairs of the aggregates. -/
theorem explicit_length_forms_agree {α β γ ρ τ : Type} (E : Env)
    (InputIt1 InputIt2 T BinOp1 BinOp2 : CppType) (op : α → β → γ)
    (op1 : τ → ρ → τ) (op2 : α → β → ρ) (steps : Nat) (s1 : List α) (first1 last1 : Nat)
    (s2 : List β) (t2 : List α) (first2 last2 : Nat) (dst : List γ) (ofirst : Nat)
    (value : τ)
    (h1 : first1 ≤ last1) (h2 : last1 ≤ s1.length) (h3 : first2 ≤ last2)
    (h4 : last2 ≤ s2.length) (h5 : last2 ≤ t2.length)
    (hroom : ofirst + min (last1 - first1) (last2 - first2) ≤ dst.length)
    (hsteps : min (last1 - first1) (last2 - first2) ≤ steps) :
    (∃ dst',
      transform steps s1 first1 last1 s2 first2 last2 dst ofirst op
        = .done (dst', ofirst + min (last1 - first1) (last2 - first2)) ∧
      (∀ i a b, i < min (last1 - first1) (last2 - first2) →
        s1[first1 + i]? = some a → s2[first2 + i]? = some b →
        dst'[ofirst + i]? = some (op a b)) ∧
      (∀ i, i < ofirst ∨ ofirst + min (last1 - first1) (last2 - first2) ≤ i →
        dst'[i]? = dst[i]?) ∧
      (last1 - first1 ≤ last2 - first2 →
        Deprecated.transform s1 first1 last1 s2 first2 dst ofirst op
          = some (dst', ofirst + (last1 - first1)))) ∧
    (inner_product_loop op1 op2 s1 last1 s2 last2 steps first1 first2 value
        = .done (((between s1 first1 last1).zip (between s2 first2 last2)).foldl
            (fun acc p => op1 acc (op2 p.1 p.2)) value) ∧
      (inner_product_requires E InputIt1 InputIt2 T BinOp1 BinOp2 = some true →
        inner_product E InputIt1 InputIt2 T BinOp1 BinOp2 steps s1 first1 last1 s2 first2
            last2 value op1 op2
          = some (.done (((between s1 first1 last1).zip (between s2 first2 last2)).foldl
              (fun acc p => op1 acc (op2 p.1 p.2)) value))) ∧
      (Deprecated.inner_product_requires E InputIt1 InputIt2 T BinOp1 BinOp2 = some true →
        last1 - first1 ≤ last2 - first2 →
        Deprecated.inner_product E InputIt1 InputIt2 T BinOp1 BinOp2 s1 first1 last1 s2
            first2 value op1 op2
          = some (some (((between s1 first1 last1).zip (between s2 first2 last2)).foldl
              (fun acc p => op1 acc (op2 p.1 p.2)) value)))) ∧
    (∃ s1' t2',
      swap_ranges steps s1 first1 last1 t2 first2 last2
        = .done (s1', t2', first1 + min (last1 - first1) (last2 - first2),
            first2 + min (last1 - first1) (last2 - first2)) ∧
      (∀ i, i < min (last1 - first1) (last2 - first2) →
        s1'[first1 + i]? = t2[first2 + i]? ∧ t2'[first2 + i]? = s1[first1 + i]?) ∧
      (last1 - first1 ≤ last2 - first2 →
        Deprecated.swap_ranges s1 first1 last1 t2 first2
          = some (s1', t2', first2 + (last1 - first1)))) ∧
    (∀ (range1 : List α) (range2 : List β),
      Aggregate.transform steps range1 range2 dst ofirst op
        = transform steps range1 0 range1.length range2 0 range2.length dst ofirst op ∧
      (∀ InputRng1 InputRng2 I1 I2 : CppType,
        iterator_t E [InputRng1] = some I1 → iterator_t E [InputRng2] = some I2 →
        Aggregate.inner_product_requires E InputRng1 InputRng2 T BinOp1 BinOp2 = some true →
        Aggregate.inner_product E InputRng1 InputRng2 T BinOp1 BinOp2 steps range1 range2
            value op1 op2
          = inner_product E I1 I2 T BinOp1 BinOp2 steps range1 0 range1.length
              range2 0 range2.length value op1 op2)) := by
  have lA := between_length s1 first1 last1 h2
  have lB := between_length s2 first2 last2 h4
  have lT := between_length t2 first2 last2 h5
  have hloop := (inner_product_loop_spec op1 op2 s1 last1 s2 last2 h2 h4 steps first1 first2
    value h1 h3).1 hsteps
  refine ⟨?_, ⟨hloop, ?_, ?_⟩, ?_, fun _ _ => ⟨rfl, ?_⟩⟩
  · obtain ⟨dst', e, _, g, st⟩ :=
      transform_spec op steps s1 first1 last1 s2 first2 last2 dst ofirst h1 h2 h3 h4 hroom
        hsteps
    refine ⟨dst', e, ?_, ?_, ?_⟩
    · intro i a b hi ha hb
      rw [g, if_pos (by omega), List.getElem?_zipWith, between_getElem?, between_getElem?,
        if_pos (by omega), if_pos (by omega)]
      have : ofirst + i - ofirst = i := by omega
      rw [this, ha, hb]
    · intro i hi
      rw [g, if_neg (by omega)]
    · intro hle
      have hmin : min (last1 - first1) (last2 - first2) = last1 - first1 := by omega
      rw [hmin] at st
      simp only [Deprecated.transform, std_transform]
      rw [if_pos (by rw [lA]; omega), between_take s2 first2 last2 _ (by rw [lA]; omega),
        zipWith_take_right, st]
  · intro hreq
    simp only [inner_product, hreq, if_true, hloop]
  · intro hreq hle
    simp only [Deprecated.inner_product, hreq, if_true, std_inner_product]
    rw [if_pos (by rw [lA]; omega), between_take s2 first2 last2 _ (by rw [lA]; omega)]
    unfold List.zip
    rw [zipWith_take_right]
  · obtain ⟨s1', t2', e, _, _, g1, g2, st1, st2⟩ :=
      swap_ranges_spec steps s1 first1 last1 t2 first2 last2 h1 h2 h3 h5 hsteps
    refine ⟨s1', t2', e, ?_, ?_⟩
    · intro i hi
      constructor
      · rw [g1, if_pos (by omega)]
        congr 2
        omega
      · rw [g2, if_pos (by omega)]
        congr 2
        omega
    · intro hle
      have hmin : min (last1 - first1) (last2 - first2) = last1 - first1 := by omega
      rw [hmin] at st1 st2
      rw [List.take_of_length_le (by rw [lA, lT]; exact hle)] at st2
      simp only [Deprecated.swap_ranges, std_swap_ranges]
      rw [if_pos (by rw [lA]; omega), between_take t2 first2 last2 _ (by rw [lA]; omega),
        st1, st2]
      rfl
  · intro InputRng1 InputRng2 I1 I2 hi1 hi2 hreq
    simp only [Aggregate.inner_product, hreq, if_true, hi1, hi2, adl_begin, adl_end]

/-- The three forms on `A = [1, 2, 3]` and `B = [10, 20, 30, 40]`: `transform` with
`+` writes `[11, 22, 33]` at the output cursor 1 and returns 4, `swap_ranges`
exchanges three elements, each as the deprecated form does; on `B = [10, 20]`
the explicit-length `transform` stops after two elements, where the deprecated
form has no result; and with an accumulator of the arithmetic class 12 of the
fourth program, `std::plus<>` and `std::multiplies<>`, the requirement of
`inner_product` holds and the result is 140. -/
theorem explicit_length_forms_agree_witness :
    transform 3 [1, 2, 3] 0 3 [10, 20, 30, 40] 0 4 [0, 0, 0, 0, 0] 1
        (fun a b : Int => a + b) = .done ([0, 11, 22, 33, 0], 4) ∧
    Deprecated.transform [1, 2, 3] 0 3 [10, 20, 30, 40] 0 [0, 0, 0, 0, 0] 1
        (fun a b : Int => a + b) = some ([0, 11, 22, 33, 0], 4) ∧
    swap_ranges 3 [1, 2, 3] 0 3 [10, 20, 30, 40] 0 4
      = .done ([10, 20, 30], [1, 2, 3, 40], 3, 3) ∧
    Deprecated.swap_ranges [1, 2, 3] 0 3 [10, 20, 30, 40] 0
      = some ([10, 20, 30], [1, 2, 3, 40], 3) ∧
    transform 3 [1, 2, 3] 0 3 [10, 20] 0 2 [0, 0, 0, 0, 0] 1
        (fun a b : Int => a + b) = .done ([0, 11, 22, 0, 0], 3) ∧
    Deprecated.transform [1, 2, 3] 0 3 [10, 20] 0 [0, 0, 0, 0, 0] 1
        (fun a b : Int => a + b) = none ∧
    inner_product_requires env4 int_ptr int_ptr (.cls CV.none 12) (.cls CV.none 10)
        (.cls CV.none 11) = some true ∧
    inner_product env4 int_ptr int_ptr (.cls CV.none 12) (.cls CV.none 10) (.cls CV.none 11)
        3 [1, 2, 3] 0 3 [10, 20, 30, 40] 0 4 (0 : Int)
        (fun a b : Int => a + b) (fun a b : Int => a * b)
      = some (.done (((between [1, 2, 3] 0 3).zip (between [10, 20, 30, 40] 0 4)).foldl
          (fun acc p => acc + p.1 * p.2) 0)) ∧
    inner_product env4 int_ptr int_ptr (.cls CV.none 12) (.cls CV.none 10) (.cls CV.none 11)
        3 [1, 2, 3] 0 3 [10, 20, 30, 40] 0 4 (0 : Int)
        (fun a b : Int => a + b) (fun a b : Int => a * b) = some (.done 140) ∧
    Deprecated.inner_product env4 int_ptr int_ptr (.cls CV.none 12) (.cls CV.none 10)
        (.cls CV.none 11) [1, 2, 3] 0 3 [10, 20, 30, 40] 0 (0 : Int)
        (fun a b : Int => a + b) (fun a b : Int => a * b) = some (some 140) :=
  have c := explicit_length_forms_agree env4 int_ptr int_ptr (.cls CV.none 12)
    (.cls CV.none 10) (.cls CV.none 11) (fun a b : Int => a + b) (fun a b : Int => a + b)
    (fun a b : Int => a * b) 3 [1, 2, 3] 0 3 [10, 20, 30, 40] [10, 20, 30, 40] 0 4
    [0, 0, 0, 0, 0] 1 0 (by decide) (by decide) (by decide) (by decide) (by decide)
    (by decide) (by decide)
  ⟨by rfl, by rfl, by rfl, by rfl, by rfl, by rfl, by rfl, c.2.1.2.1 (by rfl), by rfl, by rfl⟩

/-- Nothing is assignable to an rvalue of scalar type: on an accumulator type
`T` that is `bool`, an integer type or a pointer, none of the three overloads of
`inner_product` meets its requirement, whatever the program, the cursors and
the operations. -/
theorem inner_product_needs_class_accumulator (E : Env)
    (I1 I2 Rng1 Rng2 T BinOp1 BinOp2 : CppType) (h : is_scalar_rvalue T = true) :
    inner_product_requires E I1 I2 T BinOp1 BinOp2 ≠ some true ∧
    Deprecated.inner_product_requires E I1 I2 T BinOp1 BinOp2 ≠ some true ∧
    Aggregate.inner_product_requires E Rng1 Rng2 T BinOp1 BinOp2 ≠ some true := by
  have ha : ∀ V1 V2, inner_product_assignable E T BinOp1 BinOp2 V1 V2 = none ∨
      inner_product_assignable E T BinOp1 BinOp2 V1 V2 = some false := by
    intro V1 V2
    unfold inner_product_assignable
    cases h2 : result_of_t E (add_lvalue_reference BinOp2) [V1, V2] with
    | none => exact Or.inl rfl
    | some R2 =>
        cases h1 : result_of_t E (add_lvalue_reference BinOp1) [T, R2] with
        | none => left; simp [h1]
        | some R1 => right; simp [is_assignable, h, h1]
  refine ⟨?_, ?_, ?_⟩
  · unfold inner_product_requires
    cases Alias.value_type_t E [I1] with
    | ill_formed => simp
    | failure => simp
    | type V1 =>
        cases Alias.value_type_t E [I2] with
        | ill_formed => simp
        | failure => simp
        | type V2 =>
            rcases ha V1 V2 with h1 | h1
            · simp [h1]
            · simp only [h1]
              cases InputIterator E I1 <;> cases InputIterator E I2 <;> simp
  · unfold Deprecated.inner_product_requires
    cases Alias.value_type_t E [I1] with
    | ill_formed => simp
    | failure => simp
    | type V1 =>
        cases Alias.value_type_t E [I2] with
        | ill_formed => simp
        | failure => simp
        | type V2 =>
            rcases ha V1 V2 with h1 | h1
            · simp [h1]
            · simp only [h1]
              cases InputIterator E I1 <;> cases InputIterator E I2 <;> simp
  · unfold Aggregate.inner_product_requires
    cases Alias.range_value_type_t E [Rng1] with
    | ill_formed => simp
    | failure => simp
    | type V1 =>
        cases Alias.range_value_type_t E [Rng2] with
        | ill_formed => simp
        | failure => simp
        | type V2 =>
            rcases ha V1 V2 with h1 | h1
            · simp [h1]
            · simp only [h1]
              cases InputRange E Rng1 <;> cases InputRange E Rng2 <;> simp

/-- C29, the code at a failing input.  On the arrays `A = [1, 2, 3]` and
`B = [10, 20, 30, 40]` of `int`, the accumulator `0` of type `int`, `std::plus<>`
and `std::multiplies<>`, the loop of `inner_product` returns the left fold 140
and `std::inner_product` returns 140, and no overload of `inner_product` takes
the call: `int*` is an input cursor and both operations are callable with result
`int`, but the requirement asks `std::is_assignable<T, ...>` on `T = int`, an
rvalue, where `int&` is assignable; the explicit-length form, the deprecated
form and the aggregate form have no result. -/
theorem inner_product_rejects_scalar_accumulator :
    (InputIterator env4 int_ptr = some true ∧
      InputRange env4 (.lref (.cls CV.none 0)) = some true ∧
      Alias.value_type_t env4 [int_ptr] = .type intT ∧
      result_of_t env4 (.lref (.cls CV.none 11)) [intT, intT] = some intT ∧
      result_of_t env4 (.lref (.cls CV.none 10)) [intT, intT] = some intT) ∧
    (is_scalar_rvalue intT = true ∧
      is_assignable env4 intT intT = false ∧
      is_assignable env4 (.lref intT) intT = true) ∧
    (inner_product_requires env4 int_ptr int_ptr intT (.cls CV.none 10) (.cls CV.none 11)
        = some false ∧
      Deprecated.inner_product_requires env4 int_ptr int_ptr intT (.cls CV.none 10)
        (.cls CV.none 11) = some false ∧
      Aggregate.inner_product_requires env4 (.lref (.cls CV.none 0)) (.lref (.cls CV.none 0))
        intT (.cls CV.none 10) (.cls CV.none 11) = some false) ∧
    (inner_product_loop (fun a b : Int => a + b) (fun a b : Int => a * b)
        [1, 2, 3] 3 [10, 20, 30, 40] 4 3 0 0 0 = .done 140 ∧
      std_inner_product [1, 2, 3] 0 3 [10, 20, 30, 40] 0 (0 : Int)
        (fun a b : Int => a + b) (fun a b : Int => a * b) = some 140) ∧
    (inner_product env4 int_ptr int_ptr intT (.cls CV.none 10) (.cls CV.none 11)
        3 [1, 2, 3] 0 3 [10, 20, 30, 40] 0 4 (0 : Int)
        (fun a b : Int => a + b) (fun a b : Int => a * b) = none ∧
      Deprecated.inner_product env4 int_ptr int_ptr intT (.cls CV.none 10) (.cls CV.none 11)
        [1, 2, 3] 0 3 [10, 20, 30, 40] 0 (0 : Int)
        (fun a b : Int => a + b) (fun a b : Int => a * b) = none ∧
      Aggregate.inner_product env4 (.lref (.cls CV.none 0)) (.lref (.cls CV.none 0)) intT
        (.cls CV.none 10) (.cls CV.none 11) 3 [1, 2, 3] [10, 20, 30, 40] (0 : Int)
        (fun a b : Int => a + b) (fun a b : Int => a * b) = none) :=
  ⟨⟨by rfl, by rfl, by rfl, by rfl, by rfl⟩, ⟨by rfl, by rfl, by rfl⟩,
   ⟨by rfl, by rfl, by rfl⟩, ⟨by rfl, by rfl⟩, ⟨by rfl, by rfl, by rfl⟩⟩

/-! ## C30: swap_ranges -/

/-- C30. For two valid cursor pairs with `k` the length of the shorter sequence, the
explicit-length `swap_ranges` is still running after fewer than `k` steps and is
left after `k` steps; it leaves the first `k` elements of the two sequences
exchanged and every other element as it was, and returns both cursors advanced
by `k`, that is the positions `(k, k)` in the aggregate form; a second
application to the results restores both sequences. -/
theorem swap_ranges_exchanges {α : Type} (steps : Nat) (s1 : List α) (first1 last1 : Nat)
    (s2 : List α) (first2 last2 : Nat) (named1 named2 : Bool)
    (h1 : first1 ≤ last1) (h2 : last1 ≤ s1.length) (h3 : first2 ≤ last2)
    (h4 : last2 ≤ s2.length) :
    (steps < min (last1 - first1) (last2 - first2) →
      swap_ranges steps s1 first1 last1 s2 first2 last2 = .running) ∧
    (min (last1 - first1) (last2 - first2) ≤ steps →
      ∃ s1' s2',
        swap_ranges steps s1 first1 last1 s2 first2 last2
          = .done (s1', s2', first1 + min (last1 - first1) (last2 - first2),
              first2 + min (last1 - first1) (last2 - first2)) ∧
        s1'.length = s1.length ∧ s2'.length = s2.length ∧
        (∀ i, i < min (last1 - first1) (last2 - first2) →
          s1'[first1 + i]? = s2[first2 + i]? ∧ s2'[first2 + i]? = s1[first1 + i]?) ∧
        (∀ i, i < first1 ∨ first1 + min (last1 - first1) (last2 - first2) ≤ i →
          s1'[i]? = s1[i]?) ∧
        (∀ i, i < first2 ∨ first2 + min (last1 - first1) (last2 - first2) ≤ i →
          s2'[i]? = s2[i]?) ∧
        swap_ranges steps s1' first1 last1 s2' first2 last2
          = .done (s1, s2, first1 + min (last1 - first1) (last2 - first2),
              first2 + min (last1 - first1) (last2 - first2))) ∧
    (min s1.length s2.length ≤ steps →
      ∃ s1' s2',
        Aggregate.swap_ranges named1 named2 steps s1 s2
          = .done (s1', s2', to_safe_iterator named1 (min s1.length s2.length),
              to_safe_iterator named2 (min s1.length s2.length)) ∧
        swap_ranges steps s1 (adl_begin s1) (adl_end s1) s2 (adl_begin s2) (adl_end s2)
          = .done (s1', s2', min s1.length s2.length, min s1.length s2.length)) := by
  refine ⟨fun hlt => ?_, fun hk => ?_, fun hk => ?_⟩
  · exact (swap_ranges_loop_spec last1 last2 steps s1 first1 s2 first2 h1 h2 h3 h4).2 hlt
  · obtain ⟨s1', s2', e, l1, l2, g1, g2, _, _⟩ :=
      swap_ranges_spec steps s1 first1 last1 s2 first2 last2 h1 h2 h3 h4 hk
    obtain ⟨t1, t2, e', _, _, g1', g2', _, _⟩ :=
      swap_ranges_spec steps s1' first1 last1 s2' first2 last2 h1 (by rw [l1]; exact h2) h3
        (by rw [l2]; exact h4) hk
    refine ⟨s1', s2', e, l1, l2, ?_, ?_, ?_, ?_⟩
    · intro i hi
      constructor
      · rw [g1, if_pos (by omega)]
        congr 2
        omega
      · rw [g2, if_pos (by omega)]
        congr 2
        omega
    · intro i hi
      rw [g1, if_neg (by omega)]
    · intro i hi
      rw [g2, if_neg (by omega)]
    · have r1 : t1 = s1 := by
        apply List.ext_getElem?
        intro i
        rw [g1' i]
        by_cases hi : first1 ≤ i ∧ i < first1 + min (last1 - first1) (last2 - first2)
        · rw [if_pos hi, g2, if_pos (by omega)]
          congr 1
          omega
        · rw [if_neg hi, g1, if_neg hi]
      have r2 : t2 = s2 := by
        apply List.ext_getElem?
        intro i
        rw [g2' i]
        by_cases hi : first2 ≤ i ∧ i < first2 + min (last1 - first1) (last2 - first2)
        · rw [if_pos hi, g1, if_pos (by omega)]
          congr 1
          omega
        · rw [if_neg hi, g2, if_neg hi]
      rw [e', r1, r2]
  · obtain ⟨s1', s2', e, _⟩ :=
      swap_ranges_spec steps s1 0 s1.length s2 0 s2.length (Nat.zero_le _) (Nat.le_refl _)
        (Nat.zero_le _) (Nat.le_refl _) (by simpa using hk)
    simp only [Nat.sub_zero, Nat.zero_add] at e
    exact ⟨s1', s2', by simp only [Aggregate.swap_ranges, adl_begin, adl_end, e, Outcome.map],
      by simp only [adl_begin, adl_end, e]⟩

/-- C30 on `[1, 2, 3, 4, 5]` and `[10, 20, 30]`: after two steps the loop is still
running, after three it has exchanged the first three elements and returns
`(3, 3)`; a second application restores the two sequences. -/
theorem swap_ranges_exchanges_witness :
    swap_ranges 2 [1, 2, 3, 4, 5] 0 5 [10, 20, 30] 0 3 = .running ∧
    swap_ranges 3 [1, 2, 3, 4, 5] 0 5 [10, 20, 30] 0 3
      = .done ([10, 20, 30, 4, 5], [1, 2, 3], 3, 3) ∧
    swap_ranges 3 [10, 20, 30, 4, 5] 0 5 [1, 2, 3] 0 3
      = .done ([1, 2, 3, 4, 5], [10, 20, 30], 3, 3) :=
  have c := swap_ranges_exchanges 2 [1, 2, 3, 4, 5] 0 5 [10, 20, 30] 0 3 true true
    (by decide) (by decide) (by decide) (by decide)
  ⟨c.1 (by decide), by rfl, by rfl⟩

end NanoRange
